import Mathlib

/-!
# ME AI Tutor backend: a shallow embedding of the route handlers

The development embeds the Express route handlers of `routes/upload.js`,
`routes/problemSolver.js` and `routes/aiTutor.js`, together with the request
pipeline of `server.js`, as state-passing functions over an explicit `World`
(the upload directory and the log of calls made to external collaborators).
The request functions and the message rendering of `client/script.js` are
embedded as functions on an explicit `Client` state.

External collaborators (PDF parser, transcoder, speech-to-text service,
completion API, expression evaluator, base64 encoder) are black boxes: they are
fields of `Env`, and every theorem quantifies over them.  Three behaviours of
libraries are modelled from the libraries themselves: the multer middleware
and the default error handler of Express (`uploadSingle`,
`defaultErrorHandler`), the refusal of `ffmpeg` to write its output over its
input (`transcoderRun`), and the retries of the OpenAI client (`makeRequest`).
-/

namespace AITutor

/-! ## JavaScript values and string primitives -/

/-- A JavaScript value as it can appear in a parsed JSON body or in a library
result.  Numbers are restricted to integers.  Arrays and objects are kept
opaque: `obj shown` is an array or object whose string conversion returns
`shown`.  An object whose string conversion throws (one with an own `toString`
member that is not callable, which a JSON body can carry) has no counterpart
here: a handler that interpolates such a value throws inside its
`try` block before any call is made, and the statements about the handlers are
restricted to primitive values (`JVal.primitive`) where that matters. -/
inductive JVal where
  | undefined
  | null
  | bool (b : Bool)
  | num (n : Int)
  | str (s : String)
  | obj (shown : String)
  deriving DecidableEq, Repr

/-- JavaScript truthiness, as tested by `if (v)`, `v ? a : b` and `v || d`. -/
def JVal.truthy : JVal → Bool
  | .undefined => false
  | .null => false
  | .bool b => b
  | .num n => n != 0
  | .str s => s != ""
  | .obj _ => true

/-- String conversion performed by a template literal, for the values of
`JVal` (all of which convert without throwing).  A number is printed in
decimal, which is what JavaScript prints for every integer in the safe range
(`JVal.primitive`); from `1e21` on JavaScript prints the exponent form. -/
def JVal.toStr : JVal → String
  | .undefined => "undefined"
  | .null => "null"
  | .bool b => if b then "true" else "false"
  | .num n => toString n
  | .str s => s
  | .obj shown => shown

/-- The JavaScript expression `v || d`. -/
def JVal.orElse (v d : JVal) : JVal := if v.truthy then v else d

/-- The constant `Number.MAX_SAFE_INTEGER`, `2^53 - 1`. -/
def maxSafeInteger : Nat := 9007199254740991

/-- A primitive value that the embedding renders exactly: `undefined` (also an
absent field), `null`, a boolean, a string, or an integer of absolute value at
most `Number.MAX_SAFE_INTEGER`.  The string conversion of such a value never
throws and is `JVal.toStr`. -/
def JVal.primitive : JVal → Bool
  | .undefined => true
  | .null => true
  | .bool _ => true
  | .num n => decide (n.natAbs ≤ maxSafeInteger)
  | .str _ => true
  | .obj _ => false

/-- String method `s.startsWith(p)`. -/
def startsWith (s p : String) : Bool := p.data.isPrefixOf s.data

/-- Replace the first occurrence of `pat` in `s` by `rep`; `s` is returned
unchanged when `pat` does not occur.  An empty `pat` matches at the start. -/
def replaceFirstChars (pat rep : List Char) : List Char → List Char
  | [] => if pat.isEmpty then rep else []
  | c :: cs =>
    if pat.isPrefixOf (c :: cs) then rep ++ (c :: cs).drop pat.length
    else c :: replaceFirstChars pat rep cs

/-- String method `s.replace(pat, rep)` for a string pattern `pat` and a
replacement without `$` patterns (the only use is with `.mp3`). -/
def replaceFirst (s pat rep : String) : String :=
  String.mk (replaceFirstChars pat.data rep.data s.data)

/-- Loop variables of Node's POSIX `path.extname`. -/
structure ExtScan where
  startDot : Int := -1
  startPart : Int := 0
  endIdx : Int := -1
  matchedSlash : Bool := true
  preDotState : Int := 0
  deriving DecidableEq, Repr

/-- The backward scan of Node's POSIX `path.extname`: `extnameLoop cs n st`
runs the loop body for `i = n - 1` down to `0`. -/
def extnameLoop (cs : List Char) : Nat → ExtScan → ExtScan
  | 0, st => st
  | i + 1, st =>
    let code := cs.getD i ' '
    if code = '/' then
      if !st.matchedSlash then { st with startPart := (i : Int) + 1 }
      else extnameLoop cs i st
    else
      let st1 := if st.endIdx = -1 then { st with matchedSlash := false, endIdx := (i : Int) + 1 } else st
      let st2 :=
        if code = '.' then
          if st1.startDot = -1 then { st1 with startDot := (i : Int) }
          else if st1.preDotState ≠ 1 then { st1 with preDotState := 1 }
          else st1
        else if st1.startDot ≠ -1 then { st1 with preDotState := -1 }
        else st1
      extnameLoop cs i st2

/-- Node's `path.extname` (POSIX flavour): the extension of the last path
component, from its last dot, or the empty string. -/
def extname (path : String) : String :=
  let cs := path.data
  let st := extnameLoop cs cs.length {}
  if st.startDot = -1 ∨ st.endIdx = -1 ∨ st.preDotState = 0 ∨
      (st.preDotState = 1 ∧ st.startDot = st.endIdx - 1 ∧ st.startDot = st.startPart + 1) then
    ""
  else
    String.mk ((cs.take st.endIdx.toNat).drop st.startDot.toNat)

/-! ## The world: upload directory, external collaborators, responses -/

deriving instance DecidableEq for Except

/-- One message of a chat-completion request.  `content` is the text of the
message; for the vision request it is the fixed instruction and `imageUrl`
carries the data URL of the image part. -/
structure Message where
  role : String
  content : JVal
  imageUrl : Option String := none
  deriving DecidableEq, Repr

/-- The arguments of `openai.chat.completions.create` (the temperature, a
floating-point constant, is left out). -/
structure ChatRequest where
  model : String
  messages : List Message
  maxTokens : Nat
  deriving DecidableEq, Repr

/-- A call made to a collaborator outside the handler's own code. -/
inductive Call where
  | readFile (path : String)
  | unlink (path : String)
  | pdfParse (buffer : String)
  | ffmpeg (videoPath audioPath : String)
  | transcribe (audioPath : String)
  | chatCreate (req : ChatRequest)
  | mathEvaluate (expression : JVal)
  deriving DecidableEq, Repr

/-- The state a request handler runs against: the files on disk (path to
contents) and the calls made so far, oldest first. -/
structure World where
  files : String → Option String
  calls : List Call

/-- The `message` member of a completion choice. -/
structure ChoiceMessage where
  content : JVal
  deriving DecidableEq, Repr

/-- One element of `completion.choices`. -/
structure Choice where
  message : Option ChoiceMessage
  deriving DecidableEq, Repr

/-- The object a resolved `openai.chat.completions.create` yields; a missing
`choices` member is `none`. -/
structure Completion where
  choices : Option (List Choice)
  usage : JVal := .undefined
  deriving DecidableEq, Repr

/-- The external collaborators and the process environment.  A collaborator
either throws (`.error message`) or returns; it may depend on the world it
is called in. -/
structure Env where
  /-- `pdfParse(buffer)` followed by `.text`. -/
  pdfParse : World → String → Except String JVal
  /-- One run of the transcoder from `videoPath` to a different path
  `audioPath`: the bytes written to `audioPath`, or the error the run ended
  with. -/
  ffmpeg : World → String → String → Except String String
  /-- `openai.audio.transcriptions.create` on a read stream of the path,
  followed by `.text`. -/
  transcribe : World → String → Except String JVal
  /-- One invocation of `openai.chat.completions.create`: what the promise
  resolves to, or the message of the error it rejects with.  The HTTP requests
  the client sends for one invocation are described by `makeRequest`. -/
  chatCreate : World → ChatRequest → Except String Completion
  /-- `math.evaluate`. -/
  mathEvaluate : World → JVal → Except String JVal
  /-- `buffer.toString('base64')`. -/
  base64 : String → String
  /-- `process.env.GPT_MODEL`. -/
  gptModel : JVal

/-- The body of an HTTP response: the object given to `res.json`, or the
HTML page of the framework's default error handler. -/
inductive Body where
  | json (fields : List (String × JVal))
  | html (text : String)
  deriving DecidableEq, Repr

/-- An HTTP response. -/
structure Response where
  status : Nat
  body : Body
  deriving DecidableEq, Repr

/-- An effectful computation that may throw: it returns a value or the
message of the thrown error, and the world it leaves behind (effects performed
before a throw persist). -/
def Eff (α : Type) : Type := World → Except String α × World

/-- Return without effect. -/
def Eff.pure {α : Type} (a : α) : Eff α := fun w => (.ok a, w)

/-- Sequencing: a throw in the first computation skips the second. -/
def Eff.bind {α β : Type} (m : Eff α) (f : α → Eff β) : Eff β := fun w =>
  match m w with
  | (.ok a, w1) => f a w1
  | (.error e, w1) => (.error e, w1)

/-- The statement `throw new Error(msg)`. -/
def Eff.throw {α : Type} (msg : String) : Eff α := fun w => (.error msg, w)

/-- The block `try { m } catch (error) { h error.message }`. -/
def Eff.tryCatch {α : Type} (m : Eff α) (h : String → Eff α) : Eff α := fun w =>
  match m w with
  | (.ok a, w1) => (.ok a, w1)
  | (.error e, w1) => h e w1

instance : Monad Eff where
  pure := Eff.pure
  bind := Eff.bind

/-- Record a call in the log. -/
def logCall (c : Call) (w : World) : World := { w with calls := w.calls ++ [c] }

/-- Lift the outcome of a collaborator, recording the call. -/
def callOut {α : Type} (c : Call) (run : World → Except String α) : Eff α := fun w =>
  (run w, logCall c w)

/-- The call `fs.readFileSync(path)`: the contents, or a throw when the file
does not exist. -/
def readFileSync (path : String) : Eff String :=
  callOut (.readFile path) fun w =>
    match w.files path with
    | some bytes => .ok bytes
    | none => .error ("ENOENT: no such file or directory, open \x27" ++ path ++ "\x27")

/-- The call `fs.unlinkSync(path)`: removes the file, or throws when it does
not exist. -/
def unlinkSync (path : String) : Eff Unit := fun w =>
  match w.files path with
  | some _ =>
    (.ok (), { files := fun p => if p = path then none else w.files p,
               calls := w.calls ++ [.unlink path] })
  | none =>
    (.error ("ENOENT: no such file or directory, unlink \x27" ++ path ++ "\x27"),
      logCall (.unlink path) w)

/-- The expression `completion.choices[0].message.content`: a property read
on `undefined` throws a `TypeError`. -/
def Completion.content (c : Completion) : Except String JVal :=
  match c.choices with
  | none => .error "Cannot read properties of undefined (reading \x270\x27)"
  | some [] => .error "Cannot read properties of undefined (reading \x27message\x27)"
  | some (ch :: _) =>
    match ch.message with
    | none => .error "Cannot read properties of undefined (reading \x27content\x27)"
    | some m => .ok m.content

/-- The call `openai.chat.completions.create(req)`. -/
def chatCreate (env : Env) (req : ChatRequest) : Eff Completion :=
  callOut (.chatCreate req) fun w => env.chatCreate w req

/-- Lift a pure computation that may throw. -/
def liftExcept {α : Type} (r : Except String α) : Eff α := fun w => (r, w)

/-- The expression `process.env.GPT_MODEL || 'gpt-4-turbo-preview'`. -/
def modelName (env : Env) : String := (env.gptModel.orElse (.str "gpt-4-turbo-preview")).toStr

/-- The blocks `try { ... res.json(...) } catch (error) { res.status(500)... }`
that make up every route handler: `onError` builds the response of the catch
block from the message of the caught error. -/
def respond (m : Eff Response) (onError : String → Response) : World → Response × World := fun w =>
  match m w with
  | (.ok r, w1) => (r, w1)
  | (.error msg, w1) => (onError msg, w1)

/-! ## routes/upload.js -/

/-- The list `allowedTypes` of the multer `fileFilter`. -/
def allowedTypes : List String :=
  [ "application/pdf",
    "text/plain",
    "application/msword",
    "application/vnd.openxmlformats-officedocument.wordprocessingml.document",
    "image/jpeg",
    "image/png",
    "image/gif",
    "video/mp4",
    "video/avi",
    "video/quicktime",
    "audio/mpeg",
    "audio/wav" ]

/-- An error object handed to a callback or to `next`; `status` is its
`status`/`statusCode` member when it has one. -/
structure JsError where
  message : String
  status : Option Nat := none
  deriving DecidableEq, Repr

/-- The `fileFilter` option of `upload`: `cb(null, true)` for an allow-listed
MIME type, `cb(new Error('Unsupported file type'), false)` otherwise. -/
def fileFilter (mimetype : String) : Except JsError Bool :=
  if allowedTypes.contains mimetype then .ok true
  else .error { message := "Unsupported file type" }

/-- The option `limits.fileSize` of `upload`. -/
def fileSize : Nat := 50 * 1024 * 1024

/-- The `filename` callback of `storage`; `now` is `Date.now()` and `random`
is `Math.round(Math.random() * 1E9)`. -/
def storageFilename (fieldname originalname : String) (now random : Nat) : String :=
  let uniqueSuffix := toString now ++ "-" ++ toString random
  fieldname ++ "-" ++ uniqueSuffix ++ extname originalname

/-- The `destination` callback of `storage`. -/
def storageDestination : String := "uploads/"

/-- The object `req.file` that multer hands to the route handler. -/
structure ReqFile where
  fieldname : String
  originalname : String
  mimetype : String
  filename : String
  path : String
  size : Nat
  deriving DecidableEq, Repr

/-- The function `extractPDFText`. -/
def extractPDFText (env : Env) (filePath : String) : Eff JVal :=
  Eff.tryCatch
    (do
      let dataBuffer ← readFileSync filePath
      callOut (.pdfParse dataBuffer) fun w => env.pdfParse w dataBuffer)
    (fun message => Eff.throw ("Failed to extract PDF text: " ++ message))

/-- One run of the `ffmpeg` program as `fluent-ffmpeg` starts it.  The program
refuses an output path that is the same string as its input path (it cannot
edit a file in place) and exits with an error before it writes anything; on
different paths the run is the collaborator `env.ffmpeg`. -/
def transcoderRun (env : Env) (w : World) (videoPath audioPath : String) : Except String String :=
  if videoPath = audioPath then
    .error ("ffmpeg exited with code 1: Output " ++ audioPath ++
      " same as Input #0 - exiting\nFFmpeg cannot edit existing files in-place.\n")
  else env.ffmpeg w videoPath audioPath

/-- The function `extractAudioFromVideo`: the promise resolves when the
transcoder ends (the audio file is then on disk) and rejects with its error. -/
def extractAudioFromVideo (env : Env) (videoPath audioPath : String) : Eff String := fun w =>
  match transcoderRun env w videoPath audioPath with
  | .ok audio =>
    (.ok audioPath, { files := fun p => if p = audioPath then some audio else w.files p,
                      calls := w.calls ++ [.ffmpeg videoPath audioPath] })
  | .error message => (.error message, logCall (.ffmpeg videoPath audioPath) w)

/-- The function `transcribeAudio`. -/
def transcribeAudio (env : Env) (audioPath : String) : Eff JVal :=
  Eff.tryCatch
    (callOut (.transcribe audioPath) fun w => env.transcribe w audioPath)
    (fun message => Eff.throw ("Failed to transcribe audio: " ++ message))

/-- The fixed instruction of the vision request. -/
def visionInstruction : String :=
  "Analyze this image and extract any text, equations, diagrams, or educational content. Describe what you see in detail, especially any engineering or mathematical content."

/-- Case `fileType === 'application/pdf'` of the switch: the pair of
`extractedContent` and `contentType` it assigns. -/
def pdfCase (env : Env) (filePath : String) : Eff (JVal × String) := do
  let extractedContent ← extractPDFText env filePath
  pure (extractedContent, "PDF document")

/-- Case `fileType === 'text/plain'` of the switch. -/
def textCase (filePath : String) : Eff (JVal × String) := do
  let extractedContent ← readFileSync filePath
  pure (.str extractedContent, "text file")

/-- Case `fileType.startsWith('image/')` of the switch. -/
def imageCase (env : Env) (filePath fileType : String) : Eff (JVal × String) := do
  let imageBuffer ← readFileSync filePath
  let base64Image := env.base64 imageBuffer
  let visionResponse ← chatCreate env
    { model := "gpt-4-vision-preview",
      messages := [
        { role := "user",
          content := .str visionInstruction,
          imageUrl := some ("data:" ++ fileType ++ ";base64," ++ base64Image) } ],
      maxTokens := 2000 }
  let extractedContent ← liftExcept visionResponse.content
  pure (extractedContent, "image analysis")

/-- Case `fileType.startsWith('video/')` of the switch. -/
def videoCase (env : Env) (filePath : String) : Eff (JVal × String) := do
  let audioPath := replaceFirst filePath (extname filePath) ".mp3"
  let _ ← extractAudioFromVideo env filePath audioPath
  let extractedContent ← transcribeAudio env audioPath
  unlinkSync audioPath
  pure (extractedContent, "video transcript")

/-- Case `fileType.startsWith('audio/')` of the switch. -/
def audioCase (env : Env) (filePath : String) : Eff (JVal × String) := do
  let extractedContent ← transcribeAudio env filePath
  pure (extractedContent, "audio transcript")

/-- The statement `switch (true) { ... }` of the `/file` handler: the first
case whose condition holds runs; the default case throws. -/
def extractSwitch (env : Env) (filePath fileType : String) : Eff (JVal × String) :=
  if fileType = "application/pdf" then pdfCase env filePath
  else if fileType = "text/plain" then textCase filePath
  else if startsWith fileType "image/" then imageCase env filePath fileType
  else if startsWith fileType "video/" then videoCase env filePath
  else if startsWith fileType "audio/" then audioCase env filePath
  else Eff.throw "Unsupported file type for content extraction"

/-- The route handler of `POST /file`, run after the multer middleware has
set `req.file` (or left it undefined). -/
def postFile (env : Env) (reqFile : Option ReqFile) : World → Response × World :=
  respond
    (match reqFile with
      | none => pure { status := 400, body := .json [("error", .str "No file uploaded")] }
      | some file => do
        let filePath := file.path
        let fileType := file.mimetype
        let (extractedContent, contentType) ← extractSwitch env filePath fileType
        pure
          { status := 200,
            body := .json
              [ ("filename", .str file.originalname),
                ("contentType", .str contentType),
                ("extractedContent", extractedContent),
                ("fileId", .str file.filename),
                ("size", .num file.size) ] })
    (fun message =>
      { status := 500,
        body := .json [("error", .str "Failed to process file"), ("details", .str message)] })

/-- The route handler of `POST /explain` (upload router). -/
def uploadExplain (env : Env) (body : String → JVal) : World → Response × World :=
  let content := body "content"
  let contentType := body "contentType"
  let context := body "context"
  let subject := body "subject"
  let explainPrompt :=
    "You are an expert mechanical engineering tutor. A student has uploaded " ++
    contentType.toStr ++
    " content and needs it explained in beginner-friendly terms.\n" ++
    "\n" ++
    (if subject.truthy then "SUBJECT CONTEXT: " ++ subject.toStr else "") ++
    "\n" ++
    (if context.truthy then "ADDITIONAL CONTEXT: " ++ context.toStr else "") ++
    "\n" ++
    "\n" ++
    "CONTENT TO EXPLAIN:\n" ++
    content.toStr ++
    "\n" ++
    "\n" ++
    "Please provide:\n" ++
    "1. Overview of the content and its purpose\n" ++
    "2. Key concepts and principles covered\n" ++
    "3. Step-by-step breakdown of complex parts\n" ++
    "4. Important equations or formulas (if any)\n" ++
    "5. How this relates to mechanical engineering curriculum\n" ++
    "6. Study tips and what to focus on\n" ++
    "7. Suggest related topics to explore\n" ++
    "\n" ++
    "Remember to explain everything clearly as if teaching a beginner mechanical engineering student."
  respond
    (do
      let completion ← chatCreate env
        { model := modelName env,
          messages := [{ role := "user", content := .str explainPrompt }],
          maxTokens := 3000 }
      let explanation ← liftExcept completion.content
      pure
        { status := 200,
          body := .json
            [("explanation", explanation), ("contentType", contentType), ("processed", .bool true)] })
    (fun _ => { status := 500, body := .json [("error", .str "Failed to explain content")] })

/-- The route handler of `POST /analyze-lecture`. -/
def analyzeLecture (env : Env) (body : String → JVal) : World → Response × World :=
  let transcript := body "transcript"
  let subject := body "subject"
  let lectureTitle := body "lectureTitle"
  let analyzePrompt :=
    "You are analyzing a lecture transcript for a mechanical engineering student. Please provide a comprehensive analysis that will help a beginner understand and study from this lecture.\n" ++
    "\n" ++
    "SUBJECT: " ++
    (subject.orElse (.str "Mechanical Engineering")).toStr ++
    "\n" ++
    "LECTURE TITLE: " ++
    (lectureTitle.orElse (.str "Engineering Lecture")).toStr ++
    "\n" ++
    "\n" ++
    "TRANSCRIPT:\n" ++
    transcript.toStr ++
    "\n" ++
    "\n" ++
    "Please provide:\n" ++
    "1. LECTURE SUMMARY: Key points and main topics covered\n" ++
    "2. IMPORTANT CONCEPTS: List and explain key engineering concepts discussed\n" ++
    "3. EQUATIONS & FORMULAS: Extract and explain any mathematical content\n" ++
    "4. STUDY GUIDE: Create a structured study guide from this lecture\n" ++
    "5. KEY TAKEAWAYS: Most important points for exam preparation\n" ++
    "6. FOLLOW-UP TOPICS: Related topics students should explore\n" ++
    "7. PRACTICE SUGGESTIONS: What types of problems to practice based on this lecture\n" ++
    "\n" ++
    "Format your response in clear sections that are easy to study from."
  respond
    (do
      let completion ← chatCreate env
        { model := modelName env,
          messages := [{ role := "user", content := .str analyzePrompt }],
          maxTokens := 3500 }
      let analysis ← liftExcept completion.content
      pure
        { status := 200,
          body := .json
            [ ("analysis", analysis),
              ("subject", subject),
              ("lectureTitle", lectureTitle.orElse (.str "Engineering Lecture")) ] })
    (fun _ => { status := 500, body := .json [("error", .str "Failed to analyze lecture content")] })

/-! ## routes/aiTutor.js -/

/-- The member `core_subjects` of `ME_CURRICULUM`. -/
def core_subjects : List String :=
  [ "Calculus I, II, III", "Differential Equations", "Linear Algebra",
    "Physics I, II (Mechanics, E&M)", "Chemistry", "Statistics",
    "Statics", "Dynamics", "Fluid Dynamics", "Thermodynamics",
    "Heat and Mass Transfer", "Materials Engineering", "Controls Engineering",
    "Mechanical Design", "Manufacturing Processes", "Vibrations" ]

/-- The constant `TUTOR_SYSTEM_PROMPT`. -/
def TUTOR_SYSTEM_PROMPT : String :=
  "You are an expert AI tutor specializing in Mechanical Engineering for Virginia Tech students. Your knowledge base includes:\n" ++
  "\n" ++
  "CORE SUBJECTS: " ++
  ", ".intercalate core_subjects ++
  "\n" ++
  "\n" ++
  "EDUCATIONAL RESOURCES:\n" ++
  "- MIT OpenCourseWare materials for all subjects\n" ++
  "- Engineering Statics textbook content\n" ++
  "- Thermodynamics and heat transfer fundamentals\n" ++
  "- Fluid mechanics and dynamics principles\n" ++
  "- Materials science and engineering mechanics\n" ++
  "- Control systems and vibrations theory\n" ++
  "- Mathematical foundations (Calculus, Differential Equations, Linear Algebra)\n" ++
  "\n" ++
  "TEACHING APPROACH:\n" ++
  "1. Always start with fundamental concepts and build up complexity\n" ++
  "2. Provide step-by-step explanations suitable for beginners\n" ++
  "3. Use real-world engineering examples and applications\n" ++
  "4. Break down complex problems into manageable steps\n" ++
  "5. Explain the \"why\" behind each step, not just the \"how\"\n" ++
  "6. Connect concepts across different subjects when relevant\n" ++
  "7. Encourage critical thinking and problem-solving skills\n" ++
  "\n" ++
  "COMMUNICATION STYLE:\n" ++
  "- Patient and encouraging, like a knowledgeable teaching assistant\n" ++
  "- Use clear, simple language that a beginner can understand\n" ++
  "- Provide visual descriptions when helpful\n" ++
  "- Ask follow-up questions to ensure understanding\n" ++
  "- Offer multiple approaches to solve problems\n" ++
  "\n" ++
  "When solving problems:\n" ++
  "1. Identify what type of problem it is\n" ++
  "2. List given information and what needs to be found\n" ++
  "3. Explain relevant principles and equations\n" ++
  "4. Show step-by-step solution with clear explanations\n" ++
  "5. Verify the answer and explain its physical meaning\n" ++
  "6. Suggest related practice problems or concepts to study\n" ++
  "\n" ++
  "Remember: You\x27re teaching a beginner, so explain every step clearly and don\x27t assume prior knowledge."

/-- The route handler of `POST /chat`. -/
def chat (env : Env) (body : String → JVal) : World → Response × World :=
  let message := body "message"
  let context := body "context"
  let subject := body "subject"
  let enhancedPrompt := TUTOR_SYSTEM_PROMPT
  let enhancedPrompt :=
    if subject.truthy then enhancedPrompt ++ ("\n\nCURRENT SUBJECT FOCUS: " ++ subject.toStr) else enhancedPrompt
  let enhancedPrompt :=
    if context.truthy then enhancedPrompt ++ ("\n\nCONTEXT: " ++ context.toStr) else enhancedPrompt
  respond
    (do
      let completion ← chatCreate env
        { model := modelName env,
          messages := [
            { role := "system", content := .str enhancedPrompt },
            { role := "user", content := message } ],
          maxTokens := 2000 }
      let response ← liftExcept completion.content
      pure { status := 200, body := .json [("response", response), ("usage", completion.usage)] })
    (fun _ => { status := 500, body := .json [("error", .str "Failed to get response from AI tutor")] })

/-- The route handler of `POST /subject-help`. -/
def subjectHelp (env : Env) (body : String → JVal) : World → Response × World :=
  let subject := body "subject"
  let topic := body "topic"
  let level := body "level"
  let subjectPrompt :=
    TUTOR_SYSTEM_PROMPT ++
    "\n" ++
    "\n" ++
    "SPECIFIC REQUEST: Provide comprehensive help for " ++
    subject.toStr ++
    " - " ++
    topic.toStr ++
    "\n" ++
    "STUDENT LEVEL: " ++
    (level.orElse (.str "beginner")).toStr ++
    "\n" ++
    "\n" ++
    "Please provide:\n" ++
    "1. Key concepts and principles\n" ++
    "2. Important equations and formulas\n" ++
    "3. Step-by-step problem-solving approach\n" ++
    "4. Common mistakes to avoid\n" ++
    "5. Practice problem suggestions\n" ++
    "6. Real-world applications\n" ++
    "\n" ++
    "Focus on clear, beginner-friendly explanations with detailed steps."
  respond
    (do
      let completion ← chatCreate env
        { model := modelName env,
          messages := [
            { role := "system", content := .str subjectPrompt },
            { role := "user", content := .str ("I need help understanding " ++ topic.toStr ++ " in " ++ subject.toStr) } ],
          maxTokens := 2500 }
      let response ← liftExcept completion.content
      pure
        { status := 200,
          body := .json
            [("response", response), ("subject", subject), ("topic", topic), ("level", level)] })
    (fun _ => { status := 500, body := .json [("error", .str "Failed to get subject-specific help")] })

/-- The route handler of `POST /explain-content`. -/
def explainContent (env : Env) (body : String → JVal) : World → Response × World :=
  let content := body "content"
  let contentType := body "contentType"
  let context := body "context"
  let explainPrompt :=
    TUTOR_SYSTEM_PROMPT ++
    "\n" ++
    "\n" ++
    "TASK: Explain the following " ++
    contentType.toStr ++
    " content in detail, suitable for a mechanical engineering beginner.\n" ++
    "\n" ++
    (if context.truthy then "CONTEXT: " ++ context.toStr else "") ++
    "\n" ++
    "\n" ++
    "Please provide:\n" ++
    "1. Overview of what this content covers\n" ++
    "2. Key concepts and principles explained\n" ++
    "3. Important equations or formulas (if any)\n" ++
    "4. Step-by-step breakdown of complex parts\n" ++
    "5. How this relates to mechanical engineering curriculum\n" ++
    "6. Study tips and what to focus on\n" ++
    "\n" ++
    "Remember to explain everything clearly as if teaching a beginner."
  respond
    (do
      let completion ← chatCreate env
        { model := modelName env,
          messages := [
            { role := "system", content := .str explainPrompt },
            { role := "user", content := content } ],
          maxTokens := 3000 }
      let explanation ← liftExcept completion.content
      pure
        { status := 200,
          body := .json [("explanation", explanation), ("contentType", contentType)] })
    (fun _ => { status := 500, body := .json [("error", .str "Failed to explain content")] })

/-! ## routes/problemSolver.js -/

/-- The constant `PROBLEM_SOLVER_PROMPT`. -/
def PROBLEM_SOLVER_PROMPT : String :=
  "You are an expert mechanical engineering problem solver and tutor. When presented with a problem, you must:\n" ++
  "\n" ++
  "PROBLEM ANALYSIS:\n" ++
  "1. Identify the type of problem (Statics, Dynamics, Thermodynamics, Fluid Mechanics, etc.)\n" ++
  "2. List all given information clearly\n" ++
  "3. Identify what needs to be found\n" ++
  "4. State relevant assumptions\n" ++
  "\n" ++
  "SOLUTION APPROACH:\n" ++
  "1. Explain the underlying physics/engineering principles\n" ++
  "2. Identify relevant equations and formulas\n" ++
  "3. Draw free body diagrams or sketches when applicable (describe them)\n" ++
  "4. Show ALL calculation steps with proper units\n" ++
  "5. Explain the reasoning behind each step\n" ++
  "6. Verify the final answer for reasonableness\n" ++
  "\n" ++
  "EDUCATIONAL VALUE:\n" ++
  "1. Explain WHY each step is necessary\n" ++
  "2. Point out common mistakes students make\n" ++
  "3. Suggest alternative solution methods if applicable\n" ++
  "4. Connect to real-world applications\n" ++
  "5. Recommend follow-up topics to study\n" ++
  "\n" ++
  "BEGINNER-FRIENDLY APPROACH:\n" ++
  "- Define technical terms as you use them\n" ++
  "- Explain the physical meaning of results\n" ++
  "- Use analogies when helpful\n" ++
  "- Break complex problems into simpler sub-problems\n" ++
  "\n" ++
  "Always show your work step-by-step and explain the reasoning behind each calculation."

/-- The route handler of `POST /solve-problem`. -/
def solveProblem (env : Env) (body : String → JVal) : World → Response × World :=
  let problem := body "problem"
  let subject := body "subject"
  let context := body "context"
  let enhancedPrompt := PROBLEM_SOLVER_PROMPT
  let enhancedPrompt :=
    if subject.truthy then enhancedPrompt ++ ("\n\nSUBJECT AREA: " ++ subject.toStr) else enhancedPrompt
  let enhancedPrompt :=
    if context.truthy then enhancedPrompt ++ ("\n\nADDITIONAL CONTEXT: " ++ context.toStr) else enhancedPrompt
  respond
    (do
      let completion ← chatCreate env
        { model := modelName env,
          messages := [
            { role := "system", content := .str enhancedPrompt },
            { role := "user", content := .str ("Please solve this problem step by step: " ++ problem.toStr) } ],
          maxTokens := 3000 }
      let solution ← liftExcept completion.content
      pure
        { status := 200,
          body := .json
            [ ("solution", solution),
              ("problem", problem),
              ("subject", subject.orElse (.str "General Engineering")) ] })
    (fun _ => { status := 500, body := .json [("error", .str "Failed to solve problem")] })

/-- The route handler of `POST /check-work`. -/
def checkWork (env : Env) (body : String → JVal) : World → Response × World :=
  let problem := body "problem"
  let studentSolution := body "studentSolution"
  let correctAnswer := body "correctAnswer"
  let checkPrompt :=
    PROBLEM_SOLVER_PROMPT ++
    "\n" ++
    "\n" ++
    "TASK: Review and provide feedback on a student\x27s solution to an engineering problem.\n" ++
    "\n" ++
    "PROBLEM: " ++
    problem.toStr ++
    "\n" ++
    "STUDENT\x27S SOLUTION: " ++
    studentSolution.toStr ++
    "\n" ++
    (if correctAnswer.truthy then "CORRECT ANSWER: " ++ correctAnswer.toStr else "") ++
    "\n" ++
    "\n" ++
    "Please provide:\n" ++
    "1. Assessment of the student\x27s approach\n" ++
    "2. Identification of correct steps\n" ++
    "3. Identification of errors or misconceptions\n" ++
    "4. Suggestions for improvement\n" ++
    "5. Hints for next steps if the solution is incomplete\n" ++
    "6. Encouragement and positive feedback where appropriate\n" ++
    "\n" ++
    "Be constructive and educational in your feedback, focusing on helping the student learn."
  respond
    (do
      let completion ← chatCreate env
        { model := modelName env,
          messages := [
            { role := "system", content := .str checkPrompt },
            { role := "user", content := .str "Please review my work on this problem." } ],
          maxTokens := 2000 }
      let feedback ← liftExcept completion.content
      pure { status := 200, body := .json [("feedback", feedback), ("problem", problem)] })
    (fun _ => { status := 500, body := .json [("error", .str "Failed to check work")] })

/-- The route handler of `POST /generate-problems`. -/
def generateProblems (env : Env) (body : String → JVal) : World → Response × World :=
  let subject := body "subject"
  let topic := body "topic"
  let difficulty := body "difficulty"
  let count := body "count"
  let generatePrompt :=
    "Generate " ++
    (count.orElse (.num 3)).toStr ++
    " practice problems for " ++
    subject.toStr ++
    " - " ++
    topic.toStr ++
    " at " ++
    (difficulty.orElse (.str "beginner")).toStr ++
    " level.\n" ++
    "\n" ++
    "For each problem, provide:\n" ++
    "1. A clear problem statement with given values\n" ++
    "2. What needs to be found\n" ++
    "3. Difficulty level indicators\n" ++
    "4. Brief solution approach (without full solution)\n" ++
    "\n" ++
    "Make problems realistic and relevant to Virginia Tech mechanical engineering curriculum.\n" ++
    "Include proper units and realistic numerical values.\n" ++
    "Problems should build understanding of key concepts."
  respond
    (do
      let completion ← chatCreate env
        { model := modelName env,
          messages := [
            { role := "system", content := .str PROBLEM_SOLVER_PROMPT },
            { role := "user", content := .str generatePrompt } ],
          maxTokens := 2000 }
      let problems ← liftExcept completion.content
      pure
        { status := 200,
          body := .json
            [ ("problems", problems),
              ("subject", subject),
              ("topic", topic),
              ("difficulty", difficulty.orElse (.str "beginner")) ] })
    (fun _ => { status := 500, body := .json [("error", .str "Failed to generate practice problems")] })

/-- The call `math.evaluate(expression)`. -/
def mathEvaluate (env : Env) (expression : JVal) : Eff JVal :=
  callOut (.mathEvaluate expression) fun w => env.mathEvaluate w expression

/-- The route handler of `POST /calculate`.  The inner `try` turns a throw
of the evaluator into the early `return res.status(400)...`. -/
def calculate (env : Env) (body : String → JVal) : World → Response × World :=
  let expression := body "expression"
  let context := body "context"
  respond
    (do
      let evaluated ← Eff.tryCatch
        (do
          let result ← mathEvaluate env expression
          pure (Sum.inr result))
        (fun mathError => pure (Sum.inl
          { status := 400,
            body := .json
              [("error", .str "Invalid mathematical expression"), ("details", .str mathError)] }))
      match evaluated with
      | .inl early => pure early
      | .inr result =>
        let explainPrompt :=
        "Explain this mathematical calculation step by step:\n" ++
        "        \n" ++
        "Expression: " ++
        expression.toStr ++
        "\n" ++
        "Result: " ++
        result.toStr ++
        "\n" ++
        (if context.truthy then "Context: " ++ context.toStr else "") ++
        "\n" ++
        "\n" ++
        "Provide:\n" ++
        "1. Step-by-step breakdown of the calculation\n" ++
        "2. Explanation of mathematical concepts used\n" ++
        "3. Physical meaning if applicable\n" ++
        "4. Unit analysis if relevant"
        do
          let completion ← chatCreate env
            { model := modelName env,
              messages := [
                { role := "system",
                  content := .str "You are a math tutor helping with engineering calculations." },
                { role := "user", content := .str explainPrompt } ],
              maxTokens := 1000 }
          let explanation ← liftExcept completion.content
          pure
            { status := 200,
              body := .json
                [("expression", expression), ("result", result), ("explanation", explanation)] })
    (fun _ => { status := 500, body := .json [("error", .str "Failed to perform calculation")] })

/-! ## server.js: the request pipeline

`server.js` mounts the three routers and registers no error-handling
middleware, so an error passed to `next` by a middleware reaches the
framework's default error handler. -/

/-- The file part of a multipart request as the client sends it; `size` is
its length in bytes and `mimetype` the type the client declares. -/
structure FilePart where
  fieldname : String
  originalname : String
  mimetype : String
  bytes : String
  size : Nat
  deriving DecidableEq, Repr

/-- How the multer middleware leaves a request: `next()` with `req.file`
set or undefined, or `next(err)`. -/
inductive MulterOutcome where
  | next (reqFile : Option ReqFile)
  | nextErr (err : JsError)
  deriving DecidableEq, Repr

/-- The middleware `upload.single(field)` of the multer library, configured
with `storage`, `limits.fileSize` and `fileFilter`: the filter runs first and
its error is passed to `next`; an accepted part is written under the generated
name; a part that reaches the limit (the parser raises its `limit` event as
soon as the bytes received equal `limits.fileSize`, so a part of exactly that
size is refused too) is removed again and reported as `File too large`. -/
def uploadSingle (field : String) (part : Option FilePart) (now random : Nat) :
    World → MulterOutcome × World := fun w =>
  match part with
  | none => (.next none, w)
  | some p =>
    if p.fieldname ≠ field then (.nextErr { message := "Unexpected field" }, w)
    else
      match fileFilter p.mimetype with
      | .error err => (.nextErr err, w)
      | .ok false => (.next none, w)
      | .ok true =>
        if p.size ≥ fileSize then (.nextErr { message := "File too large" }, w)
        else
          let filename := storageFilename p.fieldname p.originalname now random
          let path := storageDestination ++ filename
          (.next (some
              { fieldname := p.fieldname,
                originalname := p.originalname,
                mimetype := p.mimetype,
                filename := filename,
                path := path,
                size := p.size }),
            { w with files := fun q => if q = path then some p.bytes else w.files q })

/-- The default error handler of Express, reached by `next(err)` when no
error middleware is registered: the status is the error's own status when it
is in the 4xx-5xx range and 500 otherwise; the body is an HTML page. -/
def defaultErrorHandler (err : JsError) : Response :=
  { status :=
      match err.status with
      | some s => if 400 ≤ s ∧ s < 600 then s else 500
      | none => 500,
    body := .html err.message }

/-- The route `router.post('/file', upload.single('file'), handler)` mounted
at `/api/upload`. -/
def serveFile (env : Env) (part : Option FilePart) (now random : Nat) :
    World → Response × World := fun w =>
  match uploadSingle "file" part now random w with
  | (.nextErr err, w1) => (defaultErrorHandler err, w1)
  | (.next reqFile, w1) => postFile env reqFile w1

/-- The JSON routes of the three routers. -/
inductive Endpoint where
  | chat
  | subjectHelp
  | explainContent
  | solveProblem
  | checkWork
  | generateProblems
  | calculate
  | uploadExplain
  | analyzeLecture
  deriving DecidableEq, Repr

/-- The URL path of a JSON route, as mounted by `server.js`. -/
def Endpoint.path : Endpoint → String
  | .chat => "/api/tutor/chat"
  | .subjectHelp => "/api/tutor/subject-help"
  | .explainContent => "/api/tutor/explain-content"
  | .solveProblem => "/api/solve/solve-problem"
  | .checkWork => "/api/solve/check-work"
  | .generateProblems => "/api/solve/generate-problems"
  | .calculate => "/api/solve/calculate"
  | .uploadExplain => "/api/upload/explain"
  | .analyzeLecture => "/api/upload/analyze-lecture"

/-- Dispatch of a JSON request to its route handler; `body` is `req.body`
as a field lookup (an absent field reads as `undefined`). -/
def serveJson (env : Env) : Endpoint → (String → JVal) → World → Response × World
  | .chat => chat env
  | .subjectHelp => subjectHelp env
  | .explainContent => explainContent env
  | .solveProblem => solveProblem env
  | .checkWork => checkWork env
  | .generateProblems => generateProblems env
  | .calculate => calculate env
  | .uploadExplain => uploadExplain env
  | .analyzeLecture => analyzeLecture env

/-- The calls a run added to the log: what `after` holds beyond `before`. -/
def newCalls (before after : World) : List Call := after.calls.drop before.calls.length

/-- The number of invocations of the completion method in a list of calls. -/
def completionCalls (cs : List Call) : Nat :=
  (cs.filter fun c => match c with | .chatCreate _ => true | _ => false).length

/-! ## The OpenAI client: requests and retries

Each route module builds its client with `new OpenAI({ apiKey })`, which sets
no `maxRetries`: the client then retries a failed HTTP request up to its
default of two times.  The definitions follow the method `makeRequest` of the
client library; the collaborator `Env.chatCreate` is one invocation of
`openai.chat.completions.create`, whatever number of HTTP requests the client
sends for it. -/

/-- What one HTTP request of the client ends with: a transport failure (no
response: connection error or timeout) with the message of the error the
client throws for it, or a response with its status, its `x-should-retry`
header when present, the completion parsed from a 2xx body, and the message of
the error the client throws for any other status. -/
inductive Attempt where
  | failed (message : String)
  | response (status : Nat) (shouldRetryHeader : Option Bool) (completion : Completion)
      (message : String)
  deriving DecidableEq, Repr

/-- The client's default for `maxRetries`. -/
def maxRetries : Nat := 2

/-- The method `shouldRetry` of the client: the header `x-should-retry`
decides when it is present; otherwise the statuses 408, 409, 429 and those
from 500 on are retried. -/
def shouldRetry (status : Nat) (shouldRetryHeader : Option Bool) : Bool :=
  match shouldRetryHeader with
  | some true => true
  | some false => false
  | none => status == 408 || status == 409 || status == 429 || decide (status ≥ 500)

/-- The method `makeRequest` of the client: `upstream k` is what the HTTP
request number `k` ends with and `sent` counts the requests already sent.  A
transport failure is retried while retries remain; a response outside 2xx is
retried while retries remain and `shouldRetry` holds; otherwise the error is
thrown.  The result is the outcome of the invocation and the number of HTTP
requests sent. -/
def makeRequest (upstream : Nat → Attempt) : Nat → Nat → Except String Completion × Nat
  | sent, 0 =>
    match upstream sent with
    | .failed message => (.error message, sent + 1)
    | .response status _ completion message =>
      if 200 ≤ status ∧ status < 300 then (.ok completion, sent + 1)
      else (.error message, sent + 1)
  | sent, retriesRemaining + 1 =>
    match upstream sent with
    | .failed _ => makeRequest upstream (sent + 1) retriesRemaining
    | .response status shouldRetryHeader completion message =>
      if 200 ≤ status ∧ status < 300 then (.ok completion, sent + 1)
      else if shouldRetry status shouldRetryHeader then
        makeRequest upstream (sent + 1) retriesRemaining
      else (.error message, sent + 1)

/-- An HTTP request that the client answers with another request while
retries remain: a transport failure, or a response outside 2xx for which
`shouldRetry` holds. -/
def Attempt.retryable : Attempt → Bool
  | .failed _ => true
  | .response status shouldRetryHeader _ _ =>
    !decide (200 ≤ status ∧ status < 300) && shouldRetry status shouldRetryHeader

/-- The method `openai.chat.completions.create` of a client built without
`maxRetries`, over an upstream that decides what each HTTP request ends
with. -/
def openaiCreate (upstream : World → ChatRequest → Nat → Attempt) (w : World)
    (req : ChatRequest) : Except String Completion :=
  (makeRequest (upstream w req) 0 maxRetries).1

/-- The number of HTTP requests the client sends for one invocation of
`openai.chat.completions.create`. -/
def requestsSent (upstream : World → ChatRequest → Nat → Attempt) (w : World)
    (req : ChatRequest) : Nat :=
  (makeRequest (upstream w req) 0 maxRetries).2

/-- The collaborators `env` with the completion API reached through the
client over `upstream`. -/
def clientEnv (env : Env) (upstream : World → ChatRequest → Nat → Attempt) : Env :=
  { env with chatCreate := openaiCreate upstream }

/-! ## Observations on responses -/

/-- Content that carries no text: the empty string, `undefined` or `null`. -/
def JVal.isEmptyText : JVal → Bool
  | .str s => s == ""
  | .undefined => true
  | .null => true
  | _ => false

/-- The object the `/file` handler passes to `res.json` on success. -/
def fileResponse (file : ReqFile) (contentType : String) (extractedContent : JVal) : Response :=
  { status := 200,
    body := .json
      [ ("filename", .str file.originalname),
        ("contentType", .str contentType),
        ("extractedContent", extractedContent),
        ("fileId", .str file.filename),
        ("size", .num file.size) ] }

/-- The response of the catch block of the `/file` handler. -/
def fileErrorResponse (details : String) : Response :=
  { status := 500,
    body := .json [("error", .str "Failed to process file"), ("details", .str details)] }

/-- How the `/file` handler answers the outcome of its switch: the success
object around the extracted content, or the response of the catch block
around the message of the error. -/
def fileAnswer (file : ReqFile) : Except String (JVal × String) × World → Response × World
  | (.ok (extractedContent, contentType), w) => (fileResponse file contentType extractedContent, w)
  | (.error message, w) => (fileErrorResponse message, w)

/-- The request of the vision call of the image case, for the MIME type and
the base64 text of the image. -/
def visionRequest (fileType base64Image : String) : ChatRequest :=
  { model := "gpt-4-vision-preview",
    messages := [
      { role := "user",
        content := .str visionInstruction,
        imageUrl := some ("data:" ++ fileType ++ ";base64," ++ base64Image) } ],
    maxTokens := 2000 }

/-- The world after a transcoder run that wrote `audio` to `audioPath`. -/
def afterTranscoding (w : World) (videoPath audioPath audio : String) : World :=
  { files := fun p => if p = audioPath then some audio else w.files p,
    calls := w.calls ++ [.ffmpeg videoPath audioPath] }

/-- The response of the inner catch block of the `/calculate` handler. -/
def invalidExpressionResponse (details : String) : Response :=
  { status := 400,
    body := .json [("error", .str "Invalid mathematical expression"), ("details", .str details)] }

/-! ## Concrete collaborators and requests

These instances are used to run the handlers on explicit inputs. -/

/-- A world with an empty upload directory and an empty call log. -/
def emptyWorld : World := { files := fun _ => none, calls := [] }

/-- Decimal value of a list of digit characters; `none` when the list is
empty or holds a character that is not a digit. -/
def digitsValue : List Char → Option Nat
  | [] => none
  | cs =>
    cs.foldl
      (fun acc c => acc.bind fun n => if c.isDigit then some (10 * n + (c.toNat - 48)) else none)
      (some 0)

/-- A small evaluator standing in for `math.evaluate` on explicit inputs: it
evaluates the sum of two decimal numerals and throws on anything else. -/
def sumEvaluator : JVal → Except String JVal
  | .str s =>
    match digitsValue (s.data.takeWhile (· ≠ '+')),
        digitsValue ((s.data.dropWhile (· ≠ '+')).drop 1) with
    | some a, some b => .ok (.num (a + b))
    | _, _ => .error ("Value expected (expression: " ++ s ++ ")")
  | v => .error ("Unexpected type of argument in function evaluate (actual: " ++ v.toStr ++ ")")

/-- A collaborator environment in which every service answers (the transcoder
on different paths; a run in place is refused by `transcoderRun`). -/
def answeringEnv : Env :=
  { pdfParse := fun _ _ => .ok (.str "pdf text"),
    ffmpeg := fun _ _ _ => .ok "mp3 bytes",
    transcribe := fun _ _ => .ok (.str "transcript"),
    chatCreate := fun _ _ =>
      .ok { choices := some [{ message := some { content := .str "answer" } }] },
    mathEvaluate := fun _ e => sumEvaluator e,
    base64 := fun b => b,
    gptModel := .undefined }

/-- The environment `answeringEnv` with a speech-to-text service that fails. -/
def failingTranscriptionEnv : Env :=
  { answeringEnv with transcribe := fun _ _ => .error "Connection error." }

/-- An empty plain-text upload. -/
def emptyTextPart : FilePart :=
  { fieldname := "file", originalname := "notes.txt", mimetype := "text/plain",
    bytes := "", size := 0 }

/-- A non-empty plain-text upload. -/
def textPart : FilePart :=
  { fieldname := "file", originalname := "notes.txt", mimetype := "text/plain",
    bytes := "F = m a", size := 7 }

/-- A video upload with an `.mp4` name. -/
def videoPart : FilePart :=
  { fieldname := "file", originalname := "lecture.mp4", mimetype := "video/mp4",
    bytes := "mp4 bytes", size := 9 }

/-- A video upload whose original name ends in `.mp3`. -/
def mp3NamedVideoPart : FilePart :=
  { fieldname := "file", originalname := "talk.mp3", mimetype := "video/mp4",
    bytes := "mp4 bytes", size := 9 }

/-- A plain-text upload one byte above the size limit. -/
def oversizedPart : FilePart :=
  { fieldname := "file", originalname := "big.txt", mimetype := "text/plain",
    bytes := "...", size := 50 * 1024 * 1024 + 1 }

/-- An upload with a MIME type outside the allow-list. -/
def zipPart : FilePart :=
  { fieldname := "file", originalname := "notes.zip", mimetype := "application/zip",
    bytes := "zip bytes", size := 9 }

/-- The object `req.file` of a stored plain-text upload. -/
def textReqFile : ReqFile :=
  { fieldname := "file", originalname := "notes.txt", mimetype := "text/plain",
    filename := "file-1-2.txt", path := "uploads/file-1-2.txt", size := 7 }

/-- A world whose upload directory holds the file of `textReqFile`. -/
def textWorld : World :=
  { files := fun p => if p = "uploads/file-1-2.txt" then some "F = m a" else none, calls := [] }

/-- A JSON body without any field. -/
def emptyBody : String → JVal := fun _ => .undefined

/-- The JSON body with the single field `expression` set to `2+2`. -/
def twoPlusTwoBody : String → JVal := fun field =>
  if field = "expression" then .str "2+2" else .undefined

/-! ## Observations on prompt requests and on the switch -/

/-- The fixed string of the outer catch block of each JSON route. -/
def Endpoint.errorMessage : Endpoint → String
  | .chat => "Failed to get response from AI tutor"
  | .subjectHelp => "Failed to get subject-specific help"
  | .explainContent => "Failed to explain content"
  | .solveProblem => "Failed to solve problem"
  | .checkWork => "Failed to check work"
  | .generateProblems => "Failed to generate practice problems"
  | .calculate => "Failed to perform calculation"
  | .uploadExplain => "Failed to explain content"
  | .analyzeLecture => "Failed to analyze lecture content"

/-- The completion call throws, or the later read of
`completion.choices[0].message.content` throws. -/
def completionThrows (r : Except String Completion) : Bool :=
  match r with
  | .error _ => true
  | .ok c =>
    match c.content with
    | .error _ => true
    | .ok _ => false

/-- The member `name` of a JSON response body (`undefined` when absent). -/
def Body.field (b : Body) (name : String) : JVal :=
  match b with
  | .json fields => (fields.lookup name).getD .undefined
  | .html _ => .undefined

/-- The `contentType` that the case selected by a MIME type assigns. -/
def contentTypeOf (m : String) : String :=
  if m = "application/pdf" then "PDF document"
  else if m = "text/plain" then "text file"
  else if startsWith m "image/" then "image analysis"
  else if startsWith m "video/" then "video transcript"
  else if startsWith m "audio/" then "audio transcript"
  else "text"

/-- The contents of the system messages of the completion calls in a list of
calls. -/
def systemMessages (cs : List Call) : List JVal :=
  cs.filterMap fun c =>
    match c with
    | .chatCreate req => (req.messages.find? fun m => m.role == "system").map fun m => m.content
    | _ => none

/-- The contents of the user messages of the completion calls in a list of
calls. -/
def userMessages (cs : List Call) : List JVal :=
  cs.filterMap fun c =>
    match c with
    | .chatCreate req => (req.messages.find? fun m => m.role == "user").map fun m => m.content
    | _ => none

/-- A `switch (true)` over a list of cases: the branch of the first case whose
condition holds, or the default branch. -/
def firstMatch {α : Type} : List (Bool × α) → α → α
  | [], d => d
  | (c, x) :: rest, d => if c then x else firstMatch rest d

/-- The five cases of the switch of the `/file` handler, in source order, with
their conditions evaluated at `fileType`. -/
def switchCases (env : Env) (filePath fileType : String) : List (Bool × Eff (JVal × String)) :=
  [ (decide (fileType = "application/pdf"), pdfCase env filePath),
    (decide (fileType = "text/plain"), textCase filePath),
    (startsWith fileType "image/", imageCase env filePath fileType),
    (startsWith fileType "video/", videoCase env filePath),
    (startsWith fileType "audio/", audioCase env filePath) ]

/-- A collaborator environment whose completion API throws. -/
def failingCompletionEnv : Env :=
  { answeringEnv with chatCreate := fun _ _ => .error "429 Rate limit reached" }

/-- A collaborator environment whose completion API answers with a message
that has no `content` member. -/
def contentlessEnv : Env :=
  { answeringEnv with
    chatCreate := fun _ _ => .ok { choices := some [{ message := some { content := .undefined } }] } }

/-- A JSON body with `subject` and `context` set and nothing else. -/
def subjectContextBody : String → JVal := fun field =>
  if field = "subject" then .str "Statics"
  else if field = "context" then .str "Week 3"
  else .undefined

/-- A Word upload, accepted by the filter. -/
def wordPart : FilePart :=
  { fieldname := "file", originalname := "report.doc", mimetype := "application/msword",
    bytes := "doc bytes", size := 9 }

/-- The object `req.file` of a second stored plain-text upload. -/
def otherTextReqFile : ReqFile :=
  { fieldname := "file", originalname := "summary.txt", mimetype := "text/plain",
    filename := "file-3-4.txt", path := "uploads/file-3-4.txt", size := 12 }

/-- A world whose upload directory holds the file of `otherTextReqFile`. -/
def otherTextWorld : World :=
  { files := fun p => if p = "uploads/file-3-4.txt" then some "W = F d cos" else none,
    calls := [] }

/-- The JSON body of a `/calculate` request with a context. -/
def calculateBody : String → JVal := fun field =>
  if field = "expression" then .str "12+30"
  else if field = "context" then .str "beam load"
  else .undefined

/-- The object `req.file` of a stored video upload whose original name ends
in `.mp3`. -/
def mp3NamedVideoReqFile : ReqFile :=
  { fieldname := "file", originalname := "talk.mp3", mimetype := "video/mp4",
    filename := "file-1-2.mp3", path := "uploads/file-1-2.mp3", size := 9 }

/-- A world whose upload directory holds the file of `mp3NamedVideoReqFile`. -/
def mp3NamedVideoWorld : World :=
  { files := fun p => if p = "uploads/file-1-2.mp3" then some "mp4 bytes" else none, calls := [] }

/-- An upstream that answers every HTTP request with status 429. -/
def rateLimitedUpstream : World → ChatRequest → Nat → Attempt := fun _ _ _ =>
  .response 429 none { choices := none } "429 Rate limit reached"

/-- An upstream that answers every HTTP request with a completion. -/
def answeringUpstream : World → ChatRequest → Nat → Attempt := fun _ _ _ =>
  .response 200 none { choices := some [{ message := some { content := .str "answer" } }] } ""

/-- The JSON body of a `/generate-problems` request whose `count` is `0` and
whose `difficulty` is the empty string. -/
def zeroCountBody : String → JVal := fun field =>
  if field = "subject" then .str "Statics"
  else if field = "topic" then .str "Trusses"
  else if field = "difficulty" then .str ""
  else if field = "count" then .num 0
  else .undefined

/-! ## Paths of a stored upload -/

/-- The path under which the multer storage keeps an upload sent in the field
`file`: the destination followed by the generated file name. -/
def storedPath (originalname : String) (now random : Nat) : String :=
  storageDestination ++ storageFilename "file" originalname now random

/-- The audio path that the video case computes from the stored path:
`filePath.replace(path.extname(filePath), '.mp3')`. -/
def audioPathOf (filePath : String) : String :=
  replaceFirst filePath (extname filePath) ".mp3"

/-- A character that is neither a dot nor a slash. -/
def plainChar (c : Char) : Prop := c ≠ '.' ∧ c ≠ '/'

/-- The effect of one iteration of the scan of `extname` on a character that
is neither a dot nor a slash, at index `i`. -/
def plainStep (i : Nat) (st : ExtScan) : ExtScan :=
  let st1 := if st.endIdx = -1 then { st with matchedSlash := false, endIdx := (i : Int) + 1 } else st
  if st1.startDot ≠ -1 then { st1 with preDotState := -1 } else st1

/-- Invariant of the scan of `extname` before the iteration at index `i - 1`:
the end of the last component, once found, bounds a run of characters without
dot or slash, and the first dot found is followed by such a run. -/
def scanInv (cs : List Char) (i : Nat) (st : ExtScan) : Prop :=
  (st.endIdx ≠ -1 → st.matchedSlash = false) ∧
  ((st.startDot = -1 ∧
      (st.endIdx = -1 ∨
        ∃ b : Nat, st.endIdx = (b : Int) ∧ i ≤ b ∧ b ≤ cs.length ∧
          ∀ j, i ≤ j → j < b → plainChar (cs.getD j ' '))) ∨
    (∃ a b : Nat, st.startDot = (a : Int) ∧ st.endIdx = (b : Int) ∧ i ≤ a ∧ a < b ∧
      b ≤ cs.length ∧ cs.getD a ' ' = '.' ∧ ∀ j, a < j → j < b → plainChar (cs.getD j ' ')))

/-- What the scan of `extname` guarantees when it ends: no dot was found, or
the dot found starts a non-empty range whose other characters are neither dot
nor slash. -/
def scanFinal (cs : List Char) (st : ExtScan) : Prop :=
  st.startDot = -1 ∨
    ∃ a b : Nat, st.startDot = (a : Int) ∧ st.endIdx = (b : Int) ∧ a < b ∧ b ≤ cs.length ∧
      cs.getD a ' ' = '.' ∧ ∀ j, a < j → j < b → plainChar (cs.getD j ' ')

/-- The state update of one iteration of the scan of `extname` on a character
other than a slash, at index `i`. -/
def scanStep (i : Nat) (code : Char) (st : ExtScan) : ExtScan :=
  let st1 := if st.endIdx = -1 then { st with matchedSlash := false, endIdx := (i : Int) + 1 } else st
  if code = '.' then
    if st1.startDot = -1 then { st1 with startDot := (i : Int) }
    else if st1.preDotState ≠ 1 then { st1 with preDotState := 1 }
    else st1
  else if st1.startDot ≠ -1 then { st1 with preDotState := -1 }
  else st1

/-! ## client/script.js: rendering of a message

The regular-expression replacements of `processMessageContent` are embedded
as left-to-right scanners over the characters of the content.  Each scanner
carries the state of the match in progress: whether it is inside a match whose
closing delimiter is known to exist, and how many characters of a delimiter
are still to be skipped. -/

/-- A line terminator of a JavaScript regular expression: the characters that
`.` does not match and that delimit lines for `^` and `$` under the `m`
flag. -/
def isLineTerminator (c : Char) : Bool :=
  c == '\n' || c == '\r' || c == Char.ofNat 0x2028 || c == Char.ofNat 0x2029

/-- The pattern occurs somewhere in the text. -/
def hasInfix (pat : List Char) : List Char → Bool
  | [] => pat.isEmpty
  | c :: r => pat.isPrefixOf (c :: r) || hasInfix pat r

/-- The serialisation of a text node, as read from `innerHTML`: `&`, `<`, `>`
and the no-break space become entities. -/
def escapeHtmlChars : List Char → List Char
  | [] => []
  | c :: r =>
    (if c = '&' then "&amp;".data
      else if c = '<' then "&lt;".data
      else if c = '>' then "&gt;".data
      else if c = Char.ofNat 0xA0 then "&nbsp;".data
      else [c]) ++ escapeHtmlChars r

/-- The function `escapeHtml`: the text is set as `textContent` of a fresh
element and read back as `innerHTML`. -/
def escapeHtml (text : String) : String := String.mk (escapeHtmlChars text.data)

/-- The replacement of a fenced block, three backticks, any characters
(lazily), three backticks, with the `g` flag, by
`<pre><code>$1</code></pre>`.  Arguments: inside a block, characters of a
fence still to skip, text. -/
def fenceCode : Bool → Nat → List Char → List Char
  | _, _, [] => []
  | inside, skip + 1, _ :: r => fenceCode inside skip r
  | true, 0, c :: r =>
    if "```".data.isPrefixOf (c :: r) then "</code></pre>".data ++ fenceCode false 2 r
    else c :: fenceCode true 0 r
  | false, 0, c :: r =>
    if "```".data.isPrefixOf (c :: r) && hasInfix "```".data (r.drop 2) then
      "<pre><code>".data ++ fenceCode true 2 r
    else c :: fenceCode false 0 r

/-- The replacement of inline code, a backtick, one or more characters other
than a backtick, a backtick, with the `g` flag, by `<code>$1</code>`.
Arguments: inside a match, text. -/
def inlineCode : Bool → List Char → List Char
  | _, [] => []
  | true, c :: r =>
    if c = '`' then "</code>".data ++ inlineCode false r
    else c :: inlineCode true r
  | false, c :: r =>
    if c = '`' && (match r with
        | d :: _ => d != '`'
        | [] => false) && r.contains '`' then
      "<code>".data ++ inlineCode true r
    else c :: inlineCode false r

/-- After an opening `**`: a closing `**` follows with no line terminator
before it. -/
def closesBold : List Char → Bool
  | [] => false
  | c :: r => "**".data.isPrefixOf (c :: r) || (!isLineTerminator c && closesBold r)

/-- The replacement of bold text, `**`, any characters of one line (lazily),
`**`, with the `g` flag, by `<strong>$1</strong>`.  Arguments: inside a match,
characters of a delimiter still to skip, text. -/
def boldText : Bool → Nat → List Char → List Char
  | _, _, [] => []
  | inside, skip + 1, _ :: r => boldText inside skip r
  | true, 0, c :: r =>
    if "**".data.isPrefixOf (c :: r) then "</strong>".data ++ boldText false 1 r
    else c :: boldText true 0 r
  | false, 0, c :: r =>
    if "**".data.isPrefixOf (c :: r) && closesBold (r.drop 1) then
      "<strong>".data ++ boldText true 1 r
    else c :: boldText false 0 r

/-- After a `*` at the start of a line: a space and at least one character of
the same line follow. -/
def startsItem : List Char → Bool
  | ' ' :: d :: _ => !isLineTerminator d
  | _ => false

/-- The replacement of a list line, `* ` at the start of a line and the rest
of the line, with the `g` and `m` flags, by `<li>$1</li>`.  Arguments: at the
start of a line, inside an item, characters still to skip, text. -/
def listItems : Bool → Bool → Nat → List Char → List Char
  | _, inItem, _, [] => if inItem then "</li>".data else []
  | lineStart, inItem, skip + 1, _ :: r => listItems lineStart inItem skip r
  | _, true, 0, c :: r =>
    if isLineTerminator c then "</li>".data ++ c :: listItems true false 0 r
    else c :: listItems false true 0 r
  | lineStart, false, 0, c :: r =>
    if lineStart && c = '*' && startsItem r then "<li>".data ++ listItems false true 1 r
    else c :: listItems (isLineTerminator c) false 0 r

/-- From the first `<li>` on: the text up to the last `</li>`, then `</ul>`,
then the rest. -/
def closeList : List Char → List Char
  | [] => []
  | c :: r =>
    if "</li>".data.isPrefixOf (c :: r) && !hasInfix "</li>".data r then
      "</li></ul>".data ++ r.drop 4
    else c :: closeList r

/-- The replacement of the first `<li>` through the last `</li>` (greedy, `s`
flag, no `g` flag) by `<ul>$1</ul>`. -/
def wrapList : List Char → List Char
  | [] => []
  | c :: r =>
    if "<li>".data.isPrefixOf (c :: r) && hasInfix "</li>".data (r.drop 3) then
      "<ul>".data ++ closeList (c :: r)
    else c :: wrapList r

/-- The replacement of every newline by `<br>`. -/
def lineBreaks : List Char → List Char
  | [] => []
  | c :: r => (if c = '\n' then "<br>".data else [c]) ++ lineBreaks r

/-- The function `processMessageContent`. -/
def processMessageContent (content : String) : String :=
  let content := escapeHtmlChars content.data
  let content := fenceCode false 0 content
  let content := inlineCode false content
  let content := boldText false 0 content
  let content := listItems true false 0 content
  let content := wrapList content
  let content := lineBreaks content
  String.mk content

/-- The tags that `processMessageContent` inserts. -/
def insertedTags : List (List Char) :=
  [ "<pre>".data, "<code>".data, "</code>".data, "</pre>".data, "<strong>".data,
    "</strong>".data, "<li>".data, "</li>".data, "<ul>".data, "</ul>".data, "<br>".data ]

/-- The text begins with one of the inserted tags. -/
def startsTag (s : List Char) : Bool := insertedTags.any fun t => t.isPrefixOf s

/-- Every `<` of the text begins one of the inserted tags. -/
def tagSafe : List Char → Bool
  | [] => true
  | c :: r => (c != '<' || startsTag (c :: r)) && tagSafe r

/-! ## client/script.js: the request functions

The browser side is embedded as functions on an explicit `Client` state.  An
`async` function is run to completion: the outcome of its `fetch` is given by
an oracle, and the steps after an `await` follow without other handlers in
between. -/

/-- White space and line terminators, as removed by `String.prototype.trim`. -/
def isJsSpace (c : Char) : Bool :=
  let n := c.toNat
  (9 ≤ n && n ≤ 13) || n == 0x20 || n == 0xA0 || n == 0x1680 || (0x2000 ≤ n && n ≤ 0x200A) ||
    n == 0x2028 || n == 0x2029 || n == 0x202F || n == 0x205F || n == 0x3000 || n == 0xFEFF

/-- The method `trim` of a string. -/
def jsTrim (s : String) : String :=
  String.mk (((s.data.dropWhile isJsSpace).reverse.dropWhile isJsSpace).reverse)

/-- The string that a DOM text setter stores for a value: empty for
`undefined` and `null`, the string conversion otherwise. -/
def textContentOf : JVal → String
  | .undefined => ""
  | .null => ""
  | v => v.toStr

/-- A file chosen in the browser. -/
structure ClientFile where
  name : String
  type : String
  bytes : String
  size : Nat
  deriving DecidableEq, Repr

/-- The body of a request sent by `fetch`: a JSON object or form data with
one file. -/
inductive Payload where
  | json (fields : List (String × JVal))
  | form (field : String) (file : ClientFile)
  deriving DecidableEq, Repr

/-- A request sent by `fetch`. -/
structure Request where
  url : String
  payload : Payload
  deriving DecidableEq, Repr

/-- How a `fetch` ends: the promise rejects, or it resolves with a response
of which `ok` and the outcome of `response.json()` (the parsed object, or the
message of the error it throws) are kept. -/
inductive FetchResult where
  | rejected (message : String)
  | response (ok : Bool) (json : Except String (String → JVal))

/-- The object `window.uploadedContent`. -/
structure Uploaded where
  content : JVal
  contentType : JVal
  filename : JVal
  deriving DecidableEq, Repr

/-- The state of the page: the global `isProcessing`, the parts of the DOM
that the request functions read and write, and the requests sent so far. -/
structure Client where
  isProcessing : Bool
  overlayDisplay : String
  buttonsDisabled : Bool
  values : String → String
  html : String → String
  chatMessages : List (String × String)
  uploadStatus : String × String
  uploadOptionsDisplay : String
  uploadedContent : Option Uploaded
  requests : List Request

/-- Update of one entry of a lookup by element id. -/
def setEntry (f : String → String) (id value : String) : String → String :=
  fun k => if k = id then value else f k

/-- The function `setProcessingState`. -/
def setProcessingState (processing : Bool) (st : Client) : Client :=
  { st with
    isProcessing := processing,
    overlayDisplay := if processing then "flex" else "none",
    buttonsDisabled := processing }

/-- The function `updateUploadStatus`. -/
def updateUploadStatus (message type : String) (st : Client) : Client :=
  { st with uploadStatus := (message, "status-container " ++ type) }

/-- The function `addMessageToChat`: the class name and the `innerHTML` of
the message element appended to the chat. -/
def addMessageToChat (sender : String) (message : JVal) (st : Client) : Client :=
  let innerHTML :=
    if sender = "assistant" then
      "<strong>ME AI Tutor:</strong> " ++ processMessageContent (textContentOf message)
    else
      "<strong>You:</strong> " ++ escapeHtml (textContentOf message)
  { st with chatMessages := st.chatMessages ++ [("message " ++ sender ++ "-message", innerHTML)] }

/-- The first statements of every `try` block: the `fetch`, the throw of
`new Error(failure)` when the response is not ok, and `response.json()`.  The
result is the parsed data, or the message of the error thrown. -/
def fetchData (fetch : Client → Request → FetchResult) (request : Request) (failure : String)
    (st : Client) : Except String (String → JVal) × Client :=
  ((match fetch st request with
    | .rejected message => .error message
    | .response false _ => .error failure
    | .response true (.error message) => .error message
    | .response true (.ok data) => .ok data),
    { st with requests := st.requests ++ [request] })

/-- The function `sendChatMessage`. -/
def sendChatMessage (fetch : Client → Request → FetchResult) (st : Client) : Client :=
  let message := jsTrim (st.values "chatInput")
  if message = "" ∨ st.isProcessing = true then st
  else
    let context := st.values "contextSelect"
    let st := addMessageToChat "user" (.str message) st
    let st := { st with values := setEntry st.values "chatInput" "" }
    let st := setProcessingState true st
    let (outcome, st) := fetchData fetch
      { url := "/api/tutor/chat",
        payload := .json
          [("message", .str message), ("context", .str context), ("subject", .str context)] }
      "Failed to get response" st
    let st :=
      match outcome with
      | .ok data => addMessageToChat "assistant" (data "response") st
      | .error _ =>
        addMessageToChat "assistant"
          (.str "Sorry, I encountered an error. Please make sure you have set up your OpenAI API key in the .env file and try again.")
          st
    setProcessingState false st

/-- The function `getSubjectHelp`. -/
def getSubjectHelp (fetch : Client → Request → FetchResult) (st : Client) : Client :=
  let subject := st.values "selectedSubject"
  let topic := jsTrim (st.values "topicInput")
  let level := st.values "levelSelect"
  if subject = "" ∨ topic = "" then st
  else
    let st := setProcessingState true st
    let (outcome, st) := fetchData fetch
      { url := "/api/tutor/subject-help",
        payload := .json [("subject", .str subject), ("topic", .str topic), ("level", .str level)] }
      "Failed to get help" st
    let st :=
      match outcome with
      | .ok data =>
        { st with
          html := setEntry st.html "subjectResponse"
            ("\n" ++
             "            <h3>" ++
             subject ++
             ": " ++
             topic ++
             "</h3>\n" ++
             "            <div>" ++
             processMessageContent (textContentOf (data "response")) ++
             "</div>\n" ++
             "        ") }
      | .error message =>
        { st with
          html := setEntry st.html "subjectResponse"
            ("\n" ++
             "            <div class=\"error\">Error getting help: " ++
             message ++
             "</div>\n" ++
             "        ") }
    setProcessingState false st

/-- The function `solveProblem` of the client. -/
def clientSolveProblem (fetch : Client → Request → FetchResult) (st : Client) : Client :=
  let problem := jsTrim (st.values "problemInput")
  let subject := st.values "problemSubject"
  if problem = "" then st
  else
    let st := setProcessingState true st
    let (outcome, st) := fetchData fetch
      { url := "/api/solve/solve-problem",
        payload := .json [("problem", .str problem), ("subject", .str subject)] }
      "Failed to solve problem" st
    let st :=
      match outcome with
      | .ok data =>
        { st with
          html := setEntry st.html "solutionResponse"
            ("\n" ++
             "            <h3>Solution</h3>\n" ++
             "            <div>" ++
             processMessageContent (textContentOf (data "solution")) ++
             "</div>\n" ++
             "        ") }
      | .error message =>
        { st with
          html := setEntry st.html "solutionResponse"
            ("\n" ++
             "            <div class=\"error\">Error solving problem: " ++
             message ++
             "</div>\n" ++
             "        ") }
    setProcessingState false st

/-- The function `checkWork` of the client. -/
def clientCheckWork (fetch : Client → Request → FetchResult) (st : Client) : Client :=
  let problem := jsTrim (st.values "originalProblem")
  let solution := jsTrim (st.values "studentSolution")
  let correctAnswer := jsTrim (st.values "correctAnswer")
  if problem = "" ∨ solution = "" then st
  else
    let st := setProcessingState true st
    let (outcome, st) := fetchData fetch
      { url := "/api/solve/check-work",
        payload := .json
          [ ("problem", .str problem),
            ("studentSolution", .str solution),
            ("correctAnswer", .str correctAnswer) ] }
      "Failed to check work" st
    let st :=
      match outcome with
      | .ok data =>
        { st with
          html := setEntry st.html "checkResponse"
            ("\n" ++
             "            <h3>Feedback on Your Work</h3>\n" ++
             "            <div>" ++
             processMessageContent (textContentOf (data "feedback")) ++
             "</div>\n" ++
             "        ") }
      | .error message =>
        { st with
          html := setEntry st.html "checkResponse"
            ("\n" ++
             "            <div class=\"error\">Error checking work: " ++
             message ++
             "</div>\n" ++
             "        ") }
    setProcessingState false st

/-- The function `generateProblems` of the client. -/
def clientGenerateProblems (fetch : Client → Request → FetchResult) (st : Client) : Client :=
  let subject := st.values "genSubject"
  let topic := jsTrim (st.values "genTopic")
  let difficulty := st.values "genDifficulty"
  let count := st.values "genCount"
  if subject = "" ∨ topic = "" then st
  else
    let st := setProcessingState true st
    let (outcome, st) := fetchData fetch
      { url := "/api/solve/generate-problems",
        payload := .json
          [ ("subject", .str subject),
            ("topic", .str topic),
            ("difficulty", .str difficulty),
            ("count", .str count) ] }
      "Failed to generate problems" st
    let st :=
      match outcome with
      | .ok data =>
        { st with
          html := setEntry st.html "generateResponse"
            ("\n" ++
             "            <h3>Practice Problems: " ++
             subject ++
             " - " ++
             topic ++
             "</h3>\n" ++
             "            <div>" ++
             processMessageContent (textContentOf (data "problems")) ++
             "</div>\n" ++
             "        ") }
      | .error message =>
        { st with
          html := setEntry st.html "generateResponse"
            ("\n" ++
             "            <div class=\"error\">Error generating problems: " ++
             message ++
             "</div>\n" ++
             "        ") }
    setProcessingState false st

/-- The function `performCalculation`. -/
def performCalculation (fetch : Client → Request → FetchResult) (st : Client) : Client :=
  let expression := jsTrim (st.values "mathExpression")
  let context := jsTrim (st.values "calcContext")
  if expression = "" then st
  else
    let st := setProcessingState true st
    let (outcome, st) := fetchData fetch
      { url := "/api/solve/calculate",
        payload := .json [("expression", .str expression), ("context", .str context)] }
      "Failed to perform calculation" st
    let st :=
      match outcome with
      | .ok data =>
        { st with
          html := setEntry st.html "calcResponse"
            ("\n" ++
             "            <h3>Calculation Result</h3>\n" ++
             "            <p><strong>Expression:</strong> " ++
             escapeHtml (textContentOf (data "expression")) ++
             "</p>\n" ++
             "            <p><strong>Result:</strong> " ++
             (data "result").toStr ++
             "</p>\n" ++
             "            <div><strong>Explanation:</strong><br>" ++
             processMessageContent (textContentOf (data "explanation")) ++
             "</div>\n" ++
             "        ") }
      | .error message =>
        { st with
          html := setEntry st.html "calcResponse"
            ("\n" ++
             "            <div class=\"error\">Error performing calculation: " ++
             message ++
             "</div>\n" ++
             "        ") }
    setProcessingState false st

/-- The function `handleFileUpload`. -/
def handleFileUpload (fetch : Client → Request → FetchResult) (file : ClientFile)
    (st : Client) : Client :=
  let st := setProcessingState true st
  let st := updateUploadStatus "Uploading and processing file..." "info" st
  let (outcome, st) := fetchData fetch
    { url := "/api/upload/file", payload := .form "file" file }
    "Failed to upload file" st
  let st :=
    match outcome with
    | .ok data =>
      let st := updateUploadStatus
        ("File processed successfully: " ++
         (data "filename").toStr) "success" st
      { st with
        uploadOptionsDisplay := "block",
        uploadedContent := some
          { content := data "extractedContent",
            contentType := data "contentType",
            filename := data "filename" } }
    | .error message =>
      updateUploadStatus
        ("Error uploading file: " ++
         message) "error" st
  setProcessingState false st

/-- The function `analyzeUploadedFile`. -/
def analyzeUploadedFile (fetch : Client → Request → FetchResult) (st : Client) : Client :=
  match st.uploadedContent with
  | none => st
  | some uploaded =>
    let subject := st.values "fileSubject"
    let context := st.values "fileContext"
    let st := setProcessingState true st
    let (outcome, st) := fetchData fetch
      { url := "/api/upload/explain",
        payload := .json
          [ ("content", uploaded.content),
            ("contentType", uploaded.contentType),
            ("subject", .str subject),
            ("context", .str context) ] }
      "Failed to analyze content" st
    let st :=
      match outcome with
      | .ok data =>
        { st with
          html := setEntry st.html "fileAnalysis"
            ("\n" ++
             "            <h3>Analysis: " ++
             uploaded.filename.toStr ++
             "</h3>\n" ++
             "            <div>" ++
             processMessageContent (textContentOf (data "explanation")) ++
             "</div>\n" ++
             "        ") }
      | .error message =>
        { st with
          html := setEntry st.html "fileAnalysis"
            ("\n" ++
             "            <div class=\"error\">Error analyzing file: " ++
             message ++
             "</div>\n" ++
             "        ") }
    setProcessingState false st

/-- The request functions of the client. -/
inductive ClientAction where
  | sendChatMessage
  | getSubjectHelp
  | solveProblem
  | checkWork
  | generateProblems
  | performCalculation
  | handleFileUpload (file : ClientFile)
  | analyzeUploadedFile
  deriving DecidableEq, Repr

/-- One run of a request function. -/
def runAction (fetch : Client → Request → FetchResult) : ClientAction → Client → Client
  | .sendChatMessage => sendChatMessage fetch
  | .getSubjectHelp => getSubjectHelp fetch
  | .solveProblem => clientSolveProblem fetch
  | .checkWork => clientCheckWork fetch
  | .generateProblems => clientGenerateProblems fetch
  | .performCalculation => performCalculation fetch
  | .handleFileUpload file => handleFileUpload fetch file
  | .analyzeUploadedFile => analyzeUploadedFile fetch

/-- A page at rest, with a chat input typed in. -/
def idleClient : Client :=
  { isProcessing := false,
    overlayDisplay := "none",
    buttonsDisabled := false,
    values := fun id => if id = "chatInput" then "  What is torque?  " else "",
    html := fun _ => "",
    chatMessages := [],
    uploadStatus := ("", ""),
    uploadOptionsDisplay := "none",
    uploadedContent := none,
    requests := [] }

/-- The page `idleClient` while another request is in progress. -/
def busyClient : Client := { idleClient with isProcessing := true }

/-- A server that answers every request with status 500. -/
def failingFetch : Client → Request → FetchResult :=
  fun _ _ => .response false (.error "Unexpected token")

/-- A server that answers every request with a JSON object. -/
def answeringFetch : Client → Request → FetchResult :=
  fun _ _ => .response true (.ok fun field => if field = "response" then .str "Torque is **r x F**" else .undefined)

/-! ## Helper lemmas -/

/-- A string that starts with a non-empty prefix has the first character of
that prefix. -/
theorem startsWith_head (s p : String) (c : Char) (h : startsWith s p = true)
    (hp : p.data.head? = some c) : s.data.head? = some c := by
  unfold startsWith at h
  cases hpd : p.data with
  | nil => rw [hpd] at hp; simp at hp
  | cons a as =>
    rw [hpd] at hp h
    cases hsd : s.data with
    | nil => rw [hsd] at h; simp [List.isPrefixOf] at h
    | cons b bs =>
      rw [hsd] at h
      simp [List.isPrefixOf] at h hp ⊢
      rw [← hp]; exact h.1.symm

/-- Two prefixes with different first characters exclude each other. -/
theorem startsWith_exclusive (s p q : String) (c d : Char) (hp : p.data.head? = some c)
    (hq : q.data.head? = some d) (hcd : c ≠ d) (h : startsWith s p = true) :
    startsWith s q = false := by
  cases hq2 : startsWith s q with
  | false => rfl
  | true =>
    have h1 := startsWith_head s p c h hp
    have h2 := startsWith_head s q d hq2 hq
    rw [h1] at h2
    exact absurd (Option.some.inj h2) hcd

/-- The filter accepts exactly the members of `allowedTypes`. -/
theorem fileFilter_ok_iff (m : String) :
    fileFilter m = .ok true ↔ allowedTypes.contains m = true := by
  unfold fileFilter
  split <;> simp_all

/-- A type the filter does not accept is rejected with the filter's error. -/
theorem fileFilter_rejects (m : String) (h : fileFilter m ≠ .ok true) :
    fileFilter m = .error { message := "Unsupported file type" } := by
  have hc : allowedTypes.contains m = false := by
    cases hb : allowedTypes.contains m with
    | false => rfl
    | true => exact absurd ((fileFilter_ok_iff m).mpr hb) h
  unfold fileFilter
  rw [hc]
  rfl

/-- The multer middleware passes the filter's error on and leaves the world
untouched. -/
theorem uploadSingle_rejects (part : FilePart) (now random : Nat) (w : World)
    (hfield : part.fieldname = "file") (h : fileFilter part.mimetype ≠ .ok true) :
    uploadSingle "file" (some part) now random w =
      (.nextErr { message := "Unsupported file type" }, w) := by
  simp [uploadSingle, hfield, fileFilter_rejects part.mimetype h]

/-- The handler of `POST /file` in terms of the outcome of its switch. -/
theorem postFile_eq (env : Env) (file : ReqFile) (w : World) :
    postFile env (some file) w =
      match extractSwitch env file.path file.mimetype w with
      | (.ok (v, ct), w1) => (fileResponse file ct v, w1)
      | (.error msg, w1) => (fileErrorResponse msg, w1) := by
  simp only [postFile, respond, bind, Eff.bind, pure, Eff.pure, fileResponse, fileErrorResponse]
  rcases h : extractSwitch env file.path file.mimetype w with ⟨r, w1⟩
  cases r with
  | ok a => rfl
  | error e => rfl

/-- The shape shared by the prompt handlers: one completion call, the read of
`choices[0].message.content`, then the success response; any throw yields the
response of the catch block. -/
theorem respond_chatCreate (env : Env) (req : ChatRequest) (k : JVal → Completion → Response)
    (onError : String → Response) (w : World) :
    respond
        (do
          let completion ← chatCreate env req
          let content ← liftExcept completion.content
          pure (k content completion))
        onError w =
      ((match env.chatCreate w req with
        | .ok c =>
          match c.content with
          | .ok x => k x c
          | .error e => onError e
        | .error e => onError e),
        logCall (.chatCreate req) w) := by
  simp only [respond, bind, Eff.bind, chatCreate, callOut, liftExcept, pure, Eff.pure]
  cases h : env.chatCreate w req with
  | error e => rfl
  | ok c =>
    simp only []
    cases h2 : c.content with
    | error e => rfl
    | ok x => rfl

/-- The calls added by a run that logs one call. -/
theorem newCalls_logCall (w : World) (c : Call) : newCalls w (logCall c w) = [c] := by
  simp [newCalls, logCall]

/-- The status of a prompt handler's response is 200 or 500 when its two
response shapes carry these statuses. -/
theorem status_of_chat_outcome (r : Except String Completion) (k : JVal → Completion → Response)
    (onError : String → Response) (hk : ∀ x c, (k x c).status = 200)
    (he : ∀ e, (onError e).status = 500) :
    (match r with
      | .ok c =>
        match c.content with
        | .ok x => k x c
        | .error e => onError e
      | .error e => onError e).status = 200 ∨
    (match r with
      | .ok c =>
        match c.content with
        | .ok x => k x c
        | .error e => onError e
      | .error e => onError e).status = 500 := by
  cases r with
  | error e => exact Or.inr (he e)
  | ok c =>
    simp only []
    cases h2 : c.content with
    | error e => exact Or.inr (he e)
    | ok x => exact Or.inl (hk x c)

/-- Every prompt handler other than `/calculate` logs exactly one completion
call and answers 200 or 500. -/
theorem prompt_handler_run (env : Env) (e : Endpoint) (body : String → JVal) (w : World)
    (he : e ≠ .calculate) :
    (∃ req, (serveJson env e body w).2 = logCall (.chatCreate req) w) ∧
    ((serveJson env e body w).1.status = 200 ∨ (serveJson env e body w).1.status = 500) := by
  cases e with
  | calculate => exact absurd rfl he
  | chat =>
    simp only [serveJson, chat, respond_chatCreate]
    exact ⟨⟨_, rfl⟩, status_of_chat_outcome _ _ _ (fun _ _ => rfl) (fun _ => rfl)⟩
  | subjectHelp =>
    simp only [serveJson, subjectHelp, respond_chatCreate]
    exact ⟨⟨_, rfl⟩, status_of_chat_outcome _ _ _ (fun _ _ => rfl) (fun _ => rfl)⟩
  | explainContent =>
    simp only [serveJson, explainContent, respond_chatCreate]
    exact ⟨⟨_, rfl⟩, status_of_chat_outcome _ _ _ (fun _ _ => rfl) (fun _ => rfl)⟩
  | solveProblem =>
    simp only [serveJson, solveProblem, respond_chatCreate]
    exact ⟨⟨_, rfl⟩, status_of_chat_outcome _ _ _ (fun _ _ => rfl) (fun _ => rfl)⟩
  | checkWork =>
    simp only [serveJson, checkWork, respond_chatCreate]
    exact ⟨⟨_, rfl⟩, status_of_chat_outcome _ _ _ (fun _ _ => rfl) (fun _ => rfl)⟩
  | generateProblems =>
    simp only [serveJson, generateProblems, respond_chatCreate]
    exact ⟨⟨_, rfl⟩, status_of_chat_outcome _ _ _ (fun _ _ => rfl) (fun _ => rfl)⟩
  | uploadExplain =>
    simp only [serveJson, uploadExplain, respond_chatCreate]
    exact ⟨⟨_, rfl⟩, status_of_chat_outcome _ _ _ (fun _ _ => rfl) (fun _ => rfl)⟩
  | analyzeLecture =>
    simp only [serveJson, analyzeLecture, respond_chatCreate]
    exact ⟨⟨_, rfl⟩, status_of_chat_outcome _ _ _ (fun _ _ => rfl) (fun _ => rfl)⟩

/-- The handler of `POST /calculate` when the evaluator throws. -/
theorem calculate_of_error (env : Env) (body : String → JVal) (w : World) (message : String)
    (h : env.mathEvaluate w (body "expression") = .error message) :
    calculate env body w =
      (invalidExpressionResponse message, logCall (.mathEvaluate (body "expression")) w) := by
  simp only [calculate, respond, bind, Eff.bind, Eff.tryCatch, mathEvaluate, callOut, pure,
    Eff.pure, h, invalidExpressionResponse]

/-- The handler of `POST /calculate` when the evaluator returns: one
completion call follows, and the response is 200 with the evaluator's result
or the 500 of the outer catch block. -/
theorem calculate_of_ok (env : Env) (body : String → JVal) (w : World) (result : JVal)
    (h : env.mathEvaluate w (body "expression") = .ok result) :
    ∃ req,
      (calculate env body w).2 =
        logCall (.chatCreate req) (logCall (.mathEvaluate (body "expression")) w) ∧
      (calculate env body w).1 =
        match env.chatCreate (logCall (.mathEvaluate (body "expression")) w) req with
        | .ok c =>
          match c.content with
          | .ok x =>
            { status := 200,
              body := .json
                [("expression", body "expression"), ("result", result), ("explanation", x)] }
          | .error _ =>
            { status := 500, body := .json [("error", .str "Failed to perform calculation")] }
        | .error _ =>
          { status := 500, body := .json [("error", .str "Failed to perform calculation")] } := by
  simp only [calculate, respond, bind, Eff.bind, Eff.tryCatch, mathEvaluate, callOut, pure,
    Eff.pure, h, chatCreate, liftExcept]
  generalize hreq : ChatRequest.mk _ _ _ = req
  refine ⟨req, ?_, ?_⟩
  · cases hc : env.chatCreate (logCall (.mathEvaluate (body "expression")) w) req with
    | error e => rfl
    | ok c =>
      simp only []
      cases h2 : c.content with
      | error e => rfl
      | ok x => rfl
  · cases hc : env.chatCreate (logCall (.mathEvaluate (body "expression")) w) req with
    | error e => rfl
    | ok c =>
      simp only []
      cases h2 : c.content with
      | error e => rfl
      | ok x => rfl

/-! ## The claims -/

/-- Claim C1: for every MIME type `m` the switch of the `/file` handler selects
one strategy: PDF text extraction when `m` is `application/pdf`, the UTF-8
read when `m` is `text/plain`, the vision call when `m` starts with `image/`,
demux plus transcription when `m` starts with `video/`, direct transcription
when `m` starts with `audio/`, and for every other `m` it throws
`Unsupported file type for content extraction`. -/
theorem extractSwitch_dispatch (env : Env) (filePath m : String) :
    (m = "application/pdf" → extractSwitch env filePath m = pdfCase env filePath) ∧
    (m = "text/plain" → extractSwitch env filePath m = textCase filePath) ∧
    (startsWith m "image/" = true → extractSwitch env filePath m = imageCase env filePath m) ∧
    (startsWith m "video/" = true → extractSwitch env filePath m = videoCase env filePath) ∧
    (startsWith m "audio/" = true → extractSwitch env filePath m = audioCase env filePath) ∧
    (m ≠ "application/pdf" → m ≠ "text/plain" → startsWith m "image/" = false →
      startsWith m "video/" = false → startsWith m "audio/" = false →
      extractSwitch env filePath m =
        Eff.throw "Unsupported file type for content extraction") := by
  refine ⟨?_, ?_, ?_, ?_, ?_, ?_⟩
  · intro h; simp [extractSwitch, h]
  · intro h; subst h; simp [extractSwitch]
  · intro h
    have h1 : m ≠ "application/pdf" := by rintro rfl; revert h; decide
    have h2 : m ≠ "text/plain" := by rintro rfl; revert h; decide
    simp [extractSwitch, h, h1, h2]
  · intro h
    have h1 : m ≠ "application/pdf" := by rintro rfl; revert h; decide
    have h2 : m ≠ "text/plain" := by rintro rfl; revert h; decide
    have h3 : startsWith m "image/" = false :=
      startsWith_exclusive m "video/" "image/" 'v' 'i' rfl rfl (by decide) h
    simp [extractSwitch, h, h1, h2, h3]
  · intro h
    have h1 : m ≠ "application/pdf" := by rintro rfl; revert h; decide
    have h2 : m ≠ "text/plain" := by rintro rfl; revert h; decide
    have h3 : startsWith m "image/" = false :=
      startsWith_exclusive m "audio/" "image/" 'a' 'i' rfl rfl (by decide) h
    have h4 : startsWith m "video/" = false :=
      startsWith_exclusive m "audio/" "video/" 'a' 'v' rfl rfl (by decide) h
    simp [extractSwitch, h, h1, h2, h3, h4]
  · intro h1 h2 h3 h4 h5; simp [extractSwitch, h1, h2, h3, h4, h5]

/-- Witness for `extractSwitch_dispatch`: a PNG upload is routed to the vision
case. -/
theorem extractSwitch_dispatch_witness :
    extractSwitch answeringEnv "uploads/file-1-2.png" "image/png" =
      imageCase answeringEnv "uploads/file-1-2.png" "image/png" :=
  (extractSwitch_dispatch answeringEnv "uploads/file-1-2.png" "image/png").2.2.1 (by decide)

/-- Claim C2: the upload filter accepts a file exactly when its declared MIME
type is one of the twelve allow-listed strings; any other type is rejected
with the error `Unsupported file type`, and the request then ends with no file
stored and no call made (the multer middleware passes the error to `next`). -/
theorem upload_filter_allow_list (env : Env) (part : FilePart) (now random : Nat) (w : World) :
    (fileFilter part.mimetype = .ok true ↔
      (part.mimetype = "application/pdf" ∨ part.mimetype = "text/plain" ∨
        part.mimetype = "application/msword" ∨
        part.mimetype = "application/vnd.openxmlformats-officedocument.wordprocessingml.document" ∨
        part.mimetype = "image/jpeg" ∨ part.mimetype = "image/png" ∨
        part.mimetype = "image/gif" ∨ part.mimetype = "video/mp4" ∨
        part.mimetype = "video/avi" ∨ part.mimetype = "video/quicktime" ∨
        part.mimetype = "audio/mpeg" ∨ part.mimetype = "audio/wav")) ∧
    (fileFilter part.mimetype ≠ .ok true →
      fileFilter part.mimetype = .error { message := "Unsupported file type" } ∧
      (serveFile env (some part) now random w).2.files = w.files ∧
      (serveFile env (some part) now random w).2.calls = w.calls ∧
      (part.fieldname = "file" →
        uploadSingle "file" (some part) now random w =
          (.nextErr { message := "Unsupported file type" }, w))) := by
  refine ⟨?_, ?_⟩
  · rw [fileFilter_ok_iff]
    simp [allowedTypes]
  · intro h
    have hf := fileFilter_rejects part.mimetype h
    have hw : (serveFile env (some part) now random w).2 = w := by
      by_cases hfield : part.fieldname = "file"
      · simp [serveFile, uploadSingle_rejects part now random w hfield h]
      · simp [serveFile, uploadSingle, hfield]
    refine ⟨hf, ?_, ?_, ?_⟩
    · rw [hw]
    · rw [hw]
    · intro hfield
      exact uploadSingle_rejects part now random w hfield h

/-- Witness for `upload_filter_allow_list`: a zip upload is rejected and
leaves the world as it was. -/
theorem upload_filter_allow_list_witness :
    fileFilter zipPart.mimetype = .error { message := "Unsupported file type" } ∧
    (serveFile answeringEnv (some zipPart) 1 2 emptyWorld).2.files = emptyWorld.files ∧
    (serveFile answeringEnv (some zipPart) 1 2 emptyWorld).2.calls = emptyWorld.calls ∧
    (zipPart.fieldname = "file" →
      uploadSingle "file" (some zipPart) 1 2 emptyWorld =
        (.nextErr { message := "Unsupported file type" }, emptyWorld)) :=
  (upload_filter_allow_list answeringEnv zipPart 1 2 emptyWorld).2 (by decide)

/-- Claim C3, counterexample: an empty `text/plain` upload passes the filter
and is answered with status 200 and an empty `extractedContent`. -/
theorem empty_text_upload_succeeds_empty :
    fileFilter emptyTextPart.mimetype = .ok true ∧
    (serveFile answeringEnv (some emptyTextPart) 1 2 emptyWorld).1 =
      { status := 200,
        body := .json
          [ ("filename", .str "notes.txt"),
            ("contentType", .str "text file"),
            ("extractedContent", .str ""),
            ("fileId", .str "file-1-2.txt"),
            ("size", .num 0) ] } := by
  decide

/-- Claim C4, the code at the failing input: a video upload whose
transcription fails is answered with the error response while the
intermediate audio file is still on disk (the `unlinkSync` is never reached). -/
theorem video_audio_left_after_failed_transcription :
    (serveFile failingTranscriptionEnv (some videoPart) 1 2 emptyWorld).1 =
      fileErrorResponse "Failed to transcribe audio: Connection error." ∧
    (serveFile failingTranscriptionEnv (some videoPart) 1 2 emptyWorld).2.files
      "uploads/file-1-2.mp3" = some "mp3 bytes" ∧
    (serveFile failingTranscriptionEnv (some videoPart) 1 2 emptyWorld).2.calls =
      [.ffmpeg "uploads/file-1-2.mp4" "uploads/file-1-2.mp3",
        .transcribe "uploads/file-1-2.mp3"] := by
  decide

/-- Claim C6: when the evaluator rejects the expression of a `/calculate`
request (a missing expression included), the handler answers 400 with
`error` set to `Invalid mathematical expression` and `details` set to the
evaluator's message, and makes no call to the completion API. -/
theorem calculate_rejected (env : Env) (body : String → JVal) (w : World) (message : String)
    (h : env.mathEvaluate w (body "expression") = .error message) :
    (calculate env body w).1 =
      { status := 400,
        body := .json
          [("error", .str "Invalid mathematical expression"), ("details", .str message)] } ∧
    completionCalls (newCalls w (calculate env body w).2) = 0 := by
  rw [calculate_of_error env body w message h, newCalls_logCall]
  exact ⟨rfl, rfl⟩

/-- Witness for `calculate_rejected`: a request without `expression`, which
the evaluator rejects. -/
theorem calculate_rejected_witness :
    (calculate answeringEnv emptyBody emptyWorld).1 =
      { status := 400,
        body := .json
          [ ("error", .str "Invalid mathematical expression"),
            ("details",
              .str "Unexpected type of argument in function evaluate (actual: undefined)") ] } ∧
    completionCalls (newCalls emptyWorld (calculate answeringEnv emptyBody emptyWorld).2) = 0 :=
  calculate_rejected answeringEnv emptyBody emptyWorld
    "Unexpected type of argument in function evaluate (actual: undefined)" (by decide)

/-- Claim C7: a `/calculate` request with expression `2+2`, which the evaluator
evaluates to 4, is answered with status 200 and `result` 4, the evaluator's
value passed through unchanged, provided the completion call succeeds. -/
theorem calculate_two_plus_two (env : Env) (body : String → JVal) (w : World)
    (completion : Completion) (explanation : JVal)
    (hexpression : body "expression" = .str "2+2")
    (hevaluate : env.mathEvaluate w (.str "2+2") = .ok (.num 4))
    (hcreate : ∀ req,
      env.chatCreate (logCall (.mathEvaluate (.str "2+2")) w) req = .ok completion)
    (hcontent : completion.content = .ok explanation) :
    (calculate env body w).1 =
      { status := 200,
        body := .json
          [("expression", .str "2+2"), ("result", .num 4), ("explanation", explanation)] } := by
  have h : env.mathEvaluate w (body "expression") = .ok (.num 4) := by
    rw [hexpression]; exact hevaluate
  obtain ⟨req, _, hresp⟩ := calculate_of_ok env body w (.num 4) h
  rw [hresp, hexpression, hcreate req]
  simp only [hcontent]

/-- Witness for `calculate_two_plus_two`: the sum evaluator and a completion
API that answers. -/
theorem calculate_two_plus_two_witness :
    (calculate answeringEnv twoPlusTwoBody emptyWorld).1 =
      { status := 200,
        body := .json
          [("expression", .str "2+2"), ("result", .num 4), ("explanation", .str "answer")] } :=
  calculate_two_plus_two answeringEnv twoPlusTwoBody emptyWorld
    { choices := some [{ message := some { content := .str "answer" } }] } (.str "answer")
    (by decide) (by decide) (fun _ => rfl) rfl

/-- Claim C8, counterexample: an upload one byte above the size limit is
answered with status 500, which is not a 400-class status. -/
theorem oversized_upload_status_500 :
    oversizedPart.size > 50 * 1024 * 1024 ∧
    (serveFile answeringEnv (some oversizedPart) 1 2 emptyWorld).1.status = 500 ∧
    ¬ (400 ≤ (serveFile answeringEnv (some oversizedPart) 1 2 emptyWorld).1.status ∧
      (serveFile answeringEnv (some oversizedPart) 1 2 emptyWorld).1.status < 500) := by
  decide

/-- Claim C8, amended: for every upload above the size limit of
`50 * 1024 * 1024` bytes the multer middleware passes an error to `next`, so
the route handler is never executed, nothing is stored or called, and the
default error handler answers with status 500. -/
theorem oversized_upload_rejected (env : Env) (part : FilePart) (now random : Nat) (w : World)
    (hsize : part.size > 50 * 1024 * 1024) :
    (∃ err, uploadSingle "file" (some part) now random w = (.nextErr err, w) ∧
      serveFile env (some part) now random w = (defaultErrorHandler err, w)) ∧
    (serveFile env (some part) now random w).1.status = 500 ∧
    (serveFile env (some part) now random w).2.files = w.files ∧
    (serveFile env (some part) now random w).2.calls = w.calls := by
  have hlimit : part.size ≥ fileSize := Nat.le_of_lt hsize
  have hmulter : ∃ err, err.status = none ∧
      uploadSingle "file" (some part) now random w = (.nextErr err, w) := by
    by_cases hfield : part.fieldname = "file"
    · by_cases hfilter : fileFilter part.mimetype = .ok true
      · exact ⟨{ message := "File too large" }, rfl, by
          simp [uploadSingle, hfield, hfilter, hlimit]⟩
      · exact ⟨{ message := "Unsupported file type" }, rfl,
          uploadSingle_rejects part now random w hfield hfilter⟩
    · exact ⟨{ message := "Unexpected field" }, rfl, by simp [uploadSingle, hfield]⟩
  obtain ⟨err, hstatus, hu⟩ := hmulter
  have hserve : serveFile env (some part) now random w = (defaultErrorHandler err, w) := by
    simp [serveFile, hu]
  refine ⟨⟨err, hu, hserve⟩, ?_, ?_, ?_⟩
  · rw [hserve]
    simp [defaultErrorHandler, hstatus]
  · rw [hserve]
  · rw [hserve]

/-- Witness for `oversized_upload_rejected`: a plain-text upload one byte above
the limit. -/
theorem oversized_upload_rejected_witness :
    (∃ err, uploadSingle "file" (some oversizedPart) 1 2 emptyWorld = (.nextErr err, emptyWorld) ∧
      serveFile answeringEnv (some oversizedPart) 1 2 emptyWorld =
        (defaultErrorHandler err, emptyWorld)) ∧
    (serveFile answeringEnv (some oversizedPart) 1 2 emptyWorld).1.status = 500 ∧
    (serveFile answeringEnv (some oversizedPart) 1 2 emptyWorld).2.files = emptyWorld.files ∧
    (serveFile answeringEnv (some oversizedPart) 1 2 emptyWorld).2.calls = emptyWorld.calls :=
  oversized_upload_rejected answeringEnv oversizedPart 1 2 emptyWorld (by decide)

/-- Claim C9, counterexample: a `/chat` request without `message` is answered
with status 200, not 400, after one invocation of the completion method. -/
theorem chat_without_message_calls_completion :
    emptyBody "message" = .undefined ∧
    (serveJson answeringEnv .chat emptyBody emptyWorld).1.status = 200 ∧
    completionCalls
      (newCalls emptyWorld (serveJson answeringEnv .chat emptyBody emptyWorld).2) = 1 := by
  decide

/-- Claim C10, counterexample: an upload with the unsupported type
`application/zip` is answered with status 500 and an HTML body by the default
error handler, not with status 400 and a JSON body. -/
theorem unsupported_upload_status_500_html :
    fileFilter zipPart.mimetype ≠ .ok true ∧
    (serveFile answeringEnv (some zipPart) 1 2 emptyWorld).1 =
      { status := 500, body := .html "Unsupported file type" } := by
  decide

/-- Claim C10, amended: an upload whose declared MIME type is not on the
allow-list never reaches the route handler; the default error handler answers
it with status 500 and an HTML body.  Errors raised inside the route handler
are caught by its own catch block and converted to a JSON body with status
500. -/
theorem unsupported_upload_bypasses_handler (env : Env) (part : FilePart) (now random : Nat)
    (w : World) (hfield : part.fieldname = "file")
    (hfilter : fileFilter part.mimetype ≠ .ok true) :
    serveFile env (some part) now random w =
      ({ status := 500, body := .html "Unsupported file type" }, w) ∧
    (∀ (file : ReqFile) (w0 w1 : World) (message : String),
      extractSwitch env file.path file.mimetype w0 = (.error message, w1) →
      postFile env (some file) w0 =
        ({ status := 500,
           body := .json
            [("error", .str "Failed to process file"), ("details", .str message)] }, w1)) := by
  refine ⟨?_, ?_⟩
  · simp [serveFile, uploadSingle_rejects part now random w hfield hfilter, defaultErrorHandler]
  · intro file w0 w1 message h
    rw [postFile_eq, h]
    rfl

/-- Witness for `unsupported_upload_bypasses_handler`: a zip upload. -/
theorem unsupported_upload_bypasses_handler_witness :
    serveFile answeringEnv (some zipPart) 1 2 emptyWorld =
      ({ status := 500, body := .html "Unsupported file type" }, emptyWorld) ∧
    (∀ (file : ReqFile) (w0 w1 : World) (message : String),
      extractSwitch answeringEnv file.path file.mimetype w0 = (.error message, w1) →
      postFile answeringEnv (some file) w0 =
        ({ status := 500,
           body := .json
            [("error", .str "Failed to process file"), ("details", .str message)] }, w1)) :=
  unsupported_upload_bypasses_handler answeringEnv zipPart 1 2 emptyWorld rfl (by decide)

/-- The response of the outer catch block of a JSON route. -/
theorem errorResponse_status (e : Endpoint) :
    ({ status := 500, body := .json [("error", .str e.errorMessage)] } : Response).status = 500 :=
  rfl

/-- Every prompt handler other than `/calculate` makes one completion call;
its response is the success response when the call and the read of the
content succeed and the fixed response of the catch block otherwise. -/
theorem prompt_handler_outcome (env : Env) (e : Endpoint) (body : String → JVal) (w : World)
    (he : e ≠ .calculate) :
    ∃ (req : ChatRequest) (k : JVal → Completion → Response),
      (∀ x c, (k x c).status = 200) ∧
      serveJson env e body w =
        ((match env.chatCreate w req with
          | .ok c =>
            match c.content with
            | .ok x => k x c
            | .error _ => { status := 500, body := .json [("error", .str e.errorMessage)] }
          | .error _ => { status := 500, body := .json [("error", .str e.errorMessage)] }),
          logCall (.chatCreate req) w) := by
  cases e with
  | calculate => exact absurd rfl he
  | chat =>
    simp only [serveJson, chat, respond_chatCreate]
    exact ⟨_, _, fun _ _ => rfl, rfl⟩
  | subjectHelp =>
    simp only [serveJson, subjectHelp, respond_chatCreate]
    exact ⟨_, _, fun _ _ => rfl, rfl⟩
  | explainContent =>
    simp only [serveJson, explainContent, respond_chatCreate]
    exact ⟨_, _, fun _ _ => rfl, rfl⟩
  | solveProblem =>
    simp only [serveJson, solveProblem, respond_chatCreate]
    exact ⟨_, _, fun _ _ => rfl, rfl⟩
  | checkWork =>
    simp only [serveJson, checkWork, respond_chatCreate]
    exact ⟨_, _, fun _ _ => rfl, rfl⟩
  | generateProblems =>
    simp only [serveJson, generateProblems, respond_chatCreate]
    exact ⟨_, _, fun _ _ => rfl, rfl⟩
  | uploadExplain =>
    simp only [serveJson, uploadExplain, respond_chatCreate]
    exact ⟨_, _, fun _ _ => rfl, rfl⟩
  | analyzeLecture =>
    simp only [serveJson, analyzeLecture, respond_chatCreate]
    exact ⟨_, _, fun _ _ => rfl, rfl⟩

/-- A failed completion outcome selects the response of the catch block. -/
theorem outcome_of_completionThrows (r : Except String Completion)
    (k : JVal → Completion → Response) (err : Response) :
    completionThrows r = true →
    (match r with
      | .ok c =>
        match c.content with
        | .ok x => k x c
        | .error _ => err
      | .error _ => err) = err := by
  intro h
  cases r with
  | error e => rfl
  | ok c =>
    simp only [completionThrows] at h ⊢
    cases hc : c.content with
    | error e => rfl
    | ok x => simp [hc] at h

/-- The calls added by a run that logs two calls. -/
theorem newCalls_logCall_two (w : World) (c d : Call) :
    newCalls w (logCall d (logCall c w)) = [c, d] := by
  simp [newCalls, logCall]

/-- Claim C11, counterexample: a completion whose first choice has a message
without `content` is answered by `/chat` with status 200, not 500. -/
theorem chat_contentless_completion_status_200 :
    (contentlessEnv.chatCreate emptyWorld
        { model := "gpt-4-turbo-preview", messages := [], maxTokens := 2000 }).map
      (fun c => c.choices.map fun cs => cs.map fun ch => ch.message.map fun m => m.content) =
      .ok (some [some .undefined]) ∧
    (serveJson contentlessEnv .chat emptyBody emptyWorld).1 =
      { status := 200, body := .json [("response", .undefined), ("usage", .undefined)] } := by
  decide

/-- A completion outcome that does not throw selects the success response. -/
theorem outcome_of_completion_ok (r : Except String Completion)
    (k : JVal → Completion → Response) (err : Response) (hk : ∀ x c, (k x c).status = 200) :
    completionThrows r = false →
    (match r with
      | .ok c =>
        match c.content with
        | .ok x => k x c
        | .error _ => err
      | .error _ => err).status = 200 := by
  intro h
  cases r with
  | error e => simp [completionThrows] at h
  | ok c =>
    simp only [completionThrows] at h ⊢
    cases hc : c.content with
    | error e => simp [hc] at h
    | ok x => exact hk x c

/-- A string is a prefix of itself followed by anything. -/
theorem startsWith_append (t x : String) : startsWith (t ++ x) t = true := by
  simp [startsWith, String.data_append, List.isPrefixOf_iff_prefix]

/-- For a field that is absent or a string, truthiness is being present and
non-empty. -/
theorem truthy_iff_present_nonempty (v : JVal) (h : v = .undefined ∨ ∃ s, v = .str s) :
    v.truthy = true ↔ (v ≠ .undefined ∧ v ≠ .str "") := by
  rcases h with rfl | ⟨s, rfl⟩
  · simp [JVal.truthy]
  · simp [JVal.truthy]

/-- Claim C12: for `/chat` and `/solve-problem` the system message sent
upstream is the fixed template, then the subject line when `subject` is
truthy, then the context line when `context` is truthy; for a field that is
absent or a string, truthy means present and non-empty.  The template is
always a prefix of the system message, and equals it when neither line is
added. -/
theorem system_message_assembly (env : Env) (body : String → JVal) (w : World) :
    (∃ sys : String,
      systemMessages (newCalls w (chat env body w).2) = [.str sys] ∧
      sys = TUTOR_SYSTEM_PROMPT ++
        (if (body "subject").truthy then
          "\n\nCURRENT SUBJECT FOCUS: " ++ (body "subject").toStr else "") ++
        (if (body "context").truthy then "\n\nCONTEXT: " ++ (body "context").toStr else "") ∧
      startsWith sys TUTOR_SYSTEM_PROMPT = true ∧
      ((body "subject").truthy = false → (body "context").truthy = false →
        sys = TUTOR_SYSTEM_PROMPT)) ∧
    (∃ sys : String,
      systemMessages (newCalls w (solveProblem env body w).2) = [.str sys] ∧
      sys = PROBLEM_SOLVER_PROMPT ++
        (if (body "subject").truthy then "\n\nSUBJECT AREA: " ++ (body "subject").toStr else "") ++
        (if (body "context").truthy then
          "\n\nADDITIONAL CONTEXT: " ++ (body "context").toStr else "") ∧
      startsWith sys PROBLEM_SOLVER_PROMPT = true ∧
      ((body "subject").truthy = false → (body "context").truthy = false →
        sys = PROBLEM_SOLVER_PROMPT)) ∧
    (∀ v : JVal, (v = .undefined ∨ ∃ s, v = .str s) →
      (v.truthy = true ↔ (v ≠ .undefined ∧ v ≠ .str ""))) := by
  refine ⟨?_, ?_, truthy_iff_present_nonempty⟩
  · refine ⟨_, ?_, rfl, ?_, ?_⟩
    · simp only [chat, respond_chatCreate, newCalls_logCall]
      cases hs : (body "subject").truthy <;> cases hc : (body "context").truthy <;>
        simp [systemMessages, String.append_assoc]
    · rw [String.append_assoc]; exact startsWith_append _ _
    · intro hs hc
      simp [hs, hc]
  · refine ⟨_, ?_, rfl, ?_, ?_⟩
    · simp only [solveProblem, respond_chatCreate, newCalls_logCall]
      cases hs : (body "subject").truthy <;> cases hc : (body "context").truthy <;>
        simp [systemMessages, String.append_assoc]
    · rw [String.append_assoc]; exact startsWith_append _ _
    · intro hs hc
      simp [hs, hc]

/-- Witness for `system_message_assembly`: a `/chat` request with subject
`Statics` and context `Week 3`. -/
theorem system_message_assembly_witness :
    ∃ sys : String,
      systemMessages (newCalls emptyWorld (chat answeringEnv subjectContextBody emptyWorld).2) =
        [.str sys] ∧
      sys = TUTOR_SYSTEM_PROMPT ++
        (if (subjectContextBody "subject").truthy then
          "\n\nCURRENT SUBJECT FOCUS: " ++ (subjectContextBody "subject").toStr else "") ++
        (if (subjectContextBody "context").truthy then
          "\n\nCONTEXT: " ++ (subjectContextBody "context").toStr else "") ∧
      startsWith sys TUTOR_SYSTEM_PROMPT = true ∧
      ((subjectContextBody "subject").truthy = false →
        (subjectContextBody "context").truthy = false → sys = TUTOR_SYSTEM_PROMPT) :=
  (system_message_assembly answeringEnv subjectContextBody emptyWorld).1
/-- Where the switch returns, the content type is the one its MIME type
selects. -/
theorem extractSwitch_contentType (env : Env) (p m : String) (w w1 : World) (v : JVal)
    (ct : String) (h : extractSwitch env p m w = (.ok (v, ct), w1)) : ct = contentTypeOf m := by
  unfold extractSwitch at h
  unfold contentTypeOf
  split at h
  · rename_i hm
    simp only [pdfCase, bind, Eff.bind, pure, Eff.pure] at h
    rcases hx : extractPDFText env p w with ⟨r, w2⟩
    rw [hx] at h
    cases r with
    | error e => simp at h
    | ok t =>
      simp only [Prod.mk.injEq, Except.ok.injEq] at h
      simp [hm, ← h.1.2]
  · rename_i hm
    split at h
    · rename_i hm2
      simp only [textCase, bind, Eff.bind, pure, Eff.pure] at h
      rcases hx : readFileSync p w with ⟨r, w2⟩
      rw [hx] at h
      cases r with
      | error e => simp at h
      | ok t =>
        simp only [Prod.mk.injEq, Except.ok.injEq] at h
        simp [hm, hm2, ← h.1.2]
    · rename_i hm2
      split at h
      · rename_i hm3
        simp only [imageCase, bind, Eff.bind, pure, Eff.pure, liftExcept] at h
        rcases hx : readFileSync p w with ⟨r, w2⟩
        rw [hx] at h
        cases r with
        | error e => simp at h
        | ok t =>
          simp only [] at h
          generalize hreq : ChatRequest.mk _ _ _ = req at h
          rcases hy : chatCreate env req w2 with ⟨r2, w3⟩
          rw [hy] at h
          cases r2 with
          | error e => simp at h
          | ok c =>
            simp only [] at h
            cases hc : c.content with
            | error e => simp [hc] at h
            | ok x =>
              simp only [hc, Prod.mk.injEq, Except.ok.injEq] at h
              simp [hm, hm2, hm3, ← h.1.2]
      · rename_i hm3
        split at h
        · rename_i hm4
          simp only [videoCase, bind, Eff.bind, pure, Eff.pure] at h
          generalize replaceFirst p (extname p) ".mp3" = audioPath at h
          rcases hx : extractAudioFromVideo env p audioPath w with ⟨r, w2⟩
          rw [hx] at h
          cases r with
          | error e => simp at h
          | ok t =>
            simp only [] at h
            rcases hy : transcribeAudio env audioPath w2 with ⟨r2, w3⟩
            rw [hy] at h
            cases r2 with
            | error e => simp at h
            | ok t2 =>
              simp only [] at h
              rcases hz : unlinkSync audioPath w3 with ⟨r3, w4⟩
              rw [hz] at h
              cases r3 with
              | error e => simp at h
              | ok u =>
                simp only [Prod.mk.injEq, Except.ok.injEq] at h
                simp [hm, hm2, hm3, hm4, ← h.1.2]
        · rename_i hm4
          split at h
          · rename_i hm5
            simp only [audioCase, bind, Eff.bind, pure, Eff.pure] at h
            rcases hx : transcribeAudio env p w with ⟨r, w2⟩
            rw [hx] at h
            cases r with
            | error e => simp at h
            | ok t =>
              simp only [Prod.mk.injEq, Except.ok.injEq] at h
              simp [hm, hm2, hm3, hm4, hm5, ← h.1.2]
          · simp [Eff.throw] at h

/-- A response of the `/file` handler with status 200 is its success
response, with the content type that the MIME type selects. -/
theorem postFile_contentType (env : Env) (file : ReqFile) (w : World)
    (h : (postFile env (some file) w).1.status = 200) :
    (postFile env (some file) w).1.body.field "contentType" =
      .str (contentTypeOf file.mimetype) := by
  rw [postFile_eq] at h ⊢
  rcases hx : extractSwitch env file.path file.mimetype w with ⟨r, w1⟩
  rw [hx] at h
  cases r with
  | error e => simp [fileErrorResponse] at h
  | ok a =>
    obtain ⟨v, ct⟩ := a
    have hct := extractSwitch_contentType env file.path file.mimetype w w1 v ct hx
    simp [fileResponse, Body.field, List.lookup, hct]

/-- Claim C14: the `contentType` reported by `POST /file` depends only on the
MIME type: two uploads of the same MIME type that are both answered with
status 200 report the same `contentType`, whatever the files, the worlds and
the collaborators. -/
theorem contentType_determined_by_mimetype (env1 env2 : Env) (file1 file2 : ReqFile)
    (w1 w2 : World) (hmime : file1.mimetype = file2.mimetype)
    (h1 : (postFile env1 (some file1) w1).1.status = 200)
    (h2 : (postFile env2 (some file2) w2).1.status = 200) :
    (postFile env1 (some file1) w1).1.body.field "contentType" =
      (postFile env2 (some file2) w2).1.body.field "contentType" := by
  rw [postFile_contentType env1 file1 w1 h1, postFile_contentType env2 file2 w2 h2, hmime]
/-- Witness for `contentType_determined_by_mimetype`: two plain-text uploads
with different names, sizes and contents. -/
theorem contentType_determined_by_mimetype_witness :
    (postFile answeringEnv (some textReqFile) textWorld).1.body.field "contentType" =
      (postFile failingTranscriptionEnv (some otherTextReqFile) otherTextWorld).1.body.field
        "contentType" :=
  contentType_determined_by_mimetype answeringEnv failingTranscriptionEnv textReqFile
    otherTextReqFile textWorld otherTextWorld rfl (by decide) (by decide)

/-- The handler of `POST /calculate` when the evaluator returns, with the
completion request spelled out. -/
theorem calculate_request (env : Env) (body : String → JVal) (w : World) (result : JVal)
    (h : env.mathEvaluate w (body "expression") = .ok result) :
    ∃ req : ChatRequest,
      req.messages =
        [ { role := "system",
            content := .str "You are a math tutor helping with engineering calculations." },
          { role := "user",
            content := .str
              ("Explain this mathematical calculation step by step:\n        \n" ++
                "Expression: " ++ (body "expression").toStr ++ "\n" ++
                "Result: " ++ result.toStr ++ "\n" ++
                (if (body "context").truthy then "Context: " ++ (body "context").toStr else "") ++
                "\n\nProvide:\n1. Step-by-step breakdown of the calculation\n2. Explanation of mathematical concepts used\n3. Physical meaning if applicable\n4. Unit analysis if relevant") } ] ∧
      (calculate env body w).2 =
        logCall (.chatCreate req) (logCall (.mathEvaluate (body "expression")) w) ∧
      (calculate env body w).1 =
        match env.chatCreate (logCall (.mathEvaluate (body "expression")) w) req with
        | .ok c =>
          match c.content with
          | .ok x =>
            { status := 200,
              body := .json
                [("expression", body "expression"), ("result", result), ("explanation", x)] }
          | .error _ =>
            { status := 500, body := .json [("error", .str "Failed to perform calculation")] }
        | .error _ =>
          { status := 500, body := .json [("error", .str "Failed to perform calculation")] } := by
  simp only [calculate, respond, bind, Eff.bind, Eff.tryCatch, mathEvaluate, callOut, pure,
    Eff.pure, h, chatCreate, liftExcept]
  generalize hreq : ChatRequest.mk _ _ _ = req
  refine ⟨req, ?_, ?_, ?_⟩
  · rw [← hreq]
    cases (body "context").truthy <;> simp [String.append_assoc]
  · cases hc : env.chatCreate (logCall (.mathEvaluate (body "expression")) w) req with
    | error e => rfl
    | ok c =>
      simp only []
      cases h2 : c.content with
      | error e => rfl
      | ok x => rfl
  · cases hc : env.chatCreate (logCall (.mathEvaluate (body "expression")) w) req with
    | error e => rfl
    | ok c =>
      simp only []
      cases h2 : c.content with
      | error e => rfl
      | ok x => rfl
/-- Claim C15: when the evaluator returns, the user prompt sent to the
completion API holds the line `Expression: ` with the request's expression,
the line `Result: ` with the evaluator's result and then the line `Context: `
with the context exactly when `context` is truthy (an empty line otherwise);
a successful response echoes the expression and that same result. -/
theorem calculate_prompt_and_echo (env : Env) (body : String → JVal) (w : World)
    (result : JVal) (h : env.mathEvaluate w (body "expression") = .ok result) :
    ∃ req : ChatRequest,
      newCalls w (calculate env body w).2 =
        [.mathEvaluate (body "expression"), .chatCreate req] ∧
      userMessages [.chatCreate req] =
        [ .str
            ("Explain this mathematical calculation step by step:\n        \n" ++
              "Expression: " ++ (body "expression").toStr ++ "\n" ++
              "Result: " ++ result.toStr ++ "\n" ++
              (if (body "context").truthy then "Context: " ++ (body "context").toStr else "") ++
              "\n\nProvide:\n1. Step-by-step breakdown of the calculation\n2. Explanation of mathematical concepts used\n3. Physical meaning if applicable\n4. Unit analysis if relevant") ] ∧
      (∀ completion explanation,
        env.chatCreate (logCall (.mathEvaluate (body "expression")) w) req = .ok completion →
        completion.content = .ok explanation →
        (calculate env body w).1 =
          { status := 200,
            body := .json
              [ ("expression", body "expression"),
                ("result", result),
                ("explanation", explanation) ] }) := by
  obtain ⟨req, hmessages, hworld, hresp⟩ := calculate_request env body w result h
  refine ⟨req, ?_, ?_, ?_⟩
  · rw [hworld, newCalls_logCall_two]
  · simp [userMessages, hmessages]
  · intro completion explanation hc hx
    rw [hresp, hc]
    simp only [hx]

/-- Witness for `calculate_prompt_and_echo`: the expression `12+30` with a
context. -/
theorem calculate_prompt_and_echo_witness :
    ∃ req : ChatRequest,
      newCalls emptyWorld (calculate answeringEnv calculateBody emptyWorld).2 =
        [.mathEvaluate (calculateBody "expression"), .chatCreate req] ∧
      userMessages [.chatCreate req] =
        [ .str
            ("Explain this mathematical calculation step by step:\n        \n" ++
              "Expression: " ++ (calculateBody "expression").toStr ++ "\n" ++
              "Result: " ++ (JVal.num 42).toStr ++ "\n" ++
              (if (calculateBody "context").truthy then
                "Context: " ++ (calculateBody "context").toStr else "") ++
              "\n\nProvide:\n1. Step-by-step breakdown of the calculation\n2. Explanation of mathematical concepts used\n3. Physical meaning if applicable\n4. Unit analysis if relevant") ] ∧
      (∀ completion explanation,
        answeringEnv.chatCreate (logCall (.mathEvaluate (calculateBody "expression")) emptyWorld)
          req = .ok completion →
        completion.content = .ok explanation →
        (calculate answeringEnv calculateBody emptyWorld).1 =
          { status := 200,
            body := .json
              [ ("expression", calculateBody "expression"),
                ("result", .num 42),
                ("explanation", explanation) ] }) :=
  calculate_prompt_and_echo answeringEnv calculateBody emptyWorld (.num 42) (by decide)

/-- In a list of cases whose conditions exclude each other, a case whose
condition holds is the one selected. -/
theorem firstMatch_of_mem {α : Type} (l : List (Bool × α)) (d x : α)
    (hpair : l.Pairwise fun a b => ¬ (a.1 = true ∧ b.1 = true)) (hmem : (true, x) ∈ l) :
    firstMatch l d = x := by
  induction l with
  | nil => simp at hmem
  | cons a rest ih =>
    obtain ⟨c, y⟩ := a
    rw [List.pairwise_cons] at hpair
    cases c with
    | true =>
      simp only [firstMatch, if_true]
      rcases List.mem_cons.mp hmem with heq | hrest
      · exact (Prod.mk.inj heq).2.symm
      · exact absurd ⟨rfl, rfl⟩ (hpair.1 (true, x) hrest)
    | false =>
      simp only [firstMatch]
      rcases List.mem_cons.mp hmem with heq | hrest
      · simp at heq
      · exact ih hpair.2 hrest

/-- When no condition holds the default branch is selected. -/
theorem firstMatch_default {α : Type} (l : List (Bool × α)) (d : α)
    (hnone : ∀ a ∈ l, a.1 = false) : firstMatch l d = d := by
  induction l with
  | nil => rfl
  | cons a rest ih =>
    obtain ⟨c, y⟩ := a
    have hc : c = false := hnone (c, y) (List.mem_cons_self _ _)
    subst hc
    simp only [firstMatch]
    exact ih fun b hb => hnone b (List.mem_cons_of_mem _ hb)

/-- Reordering cases whose conditions exclude each other does not change the
branch selected. -/
theorem firstMatch_perm {α : Type} (l l2 : List (Bool × α)) (d : α)
    (hpair : l.Pairwise fun a b => ¬ (a.1 = true ∧ b.1 = true)) (hperm : l2.Perm l) :
    firstMatch l2 d = firstMatch l d := by
  have hpair2 : l2.Pairwise fun a b => ¬ (a.1 = true ∧ b.1 = true) :=
    (hperm.pairwise_iff (fun {a b} hab hba => hab ⟨hba.2, hba.1⟩)).mpr hpair
  by_cases hex : ∃ x, (true, x) ∈ l
  · obtain ⟨x, hx⟩ := hex
    rw [firstMatch_of_mem l d x hpair hx, firstMatch_of_mem l2 d x hpair2 (hperm.mem_iff.mpr hx)]
  · have hnone : ∀ a ∈ l, a.1 = false := by
      intro a ha
      obtain ⟨c, y⟩ := a
      cases c with
      | false => rfl
      | true => exact absurd ⟨y, ha⟩ hex
    rw [firstMatch_default l d hnone,
      firstMatch_default l2 d fun a ha => hnone a (hperm.mem_iff.mp ha)]

/-- The switch of the `/file` handler is the first match over its case list. -/
theorem extractSwitch_eq_firstMatch (env : Env) (filePath m : String) :
    extractSwitch env filePath m =
      firstMatch (switchCases env filePath m)
        (Eff.throw "Unsupported file type for content extraction") := by
  unfold extractSwitch switchCases
  by_cases h1 : m = "application/pdf" <;> by_cases h2 : m = "text/plain" <;>
    cases h3 : startsWith m "image/" <;> cases h4 : startsWith m "video/" <;>
    cases h5 : startsWith m "audio/" <;> simp [firstMatch, h1, h2]

/-- The five conditions of the switch exclude each other pairwise. -/
theorem switch_conditions_exclusive (m : String) :
    ¬ (m = "application/pdf" ∧ m = "text/plain") ∧
    ¬ (m = "application/pdf" ∧ startsWith m "image/" = true) ∧
    ¬ (m = "application/pdf" ∧ startsWith m "video/" = true) ∧
    ¬ (m = "application/pdf" ∧ startsWith m "audio/" = true) ∧
    ¬ (m = "text/plain" ∧ startsWith m "image/" = true) ∧
    ¬ (m = "text/plain" ∧ startsWith m "video/" = true) ∧
    ¬ (m = "text/plain" ∧ startsWith m "audio/" = true) ∧
    ¬ (startsWith m "image/" = true ∧ startsWith m "video/" = true) ∧
    ¬ (startsWith m "image/" = true ∧ startsWith m "audio/" = true) ∧
    ¬ (startsWith m "video/" = true ∧ startsWith m "audio/" = true) := by
  refine ⟨?_, ?_, ?_, ?_, ?_, ?_, ?_, ?_, ?_, ?_⟩
  · rintro ⟨rfl, h⟩; revert h; decide
  · rintro ⟨rfl, h⟩; revert h; decide
  · rintro ⟨rfl, h⟩; revert h; decide
  · rintro ⟨rfl, h⟩; revert h; decide
  · rintro ⟨rfl, h⟩; revert h; decide
  · rintro ⟨rfl, h⟩; revert h; decide
  · rintro ⟨rfl, h⟩; revert h; decide
  · rintro ⟨h1, h2⟩
    have := startsWith_exclusive m "image/" "video/" 'i' 'v' rfl rfl (by decide) h1
    rw [this] at h2; exact absurd h2 (by decide)
  · rintro ⟨h1, h2⟩
    have := startsWith_exclusive m "image/" "audio/" 'i' 'a' rfl rfl (by decide) h1
    rw [this] at h2; exact absurd h2 (by decide)
  · rintro ⟨h1, h2⟩
    have := startsWith_exclusive m "video/" "audio/" 'v' 'a' rfl rfl (by decide) h1
    rw [this] at h2; exact absurd h2 (by decide)

/-- Claim C16: for every string `m` the five conditions of the extraction
switch exclude each other pairwise, so testing the cases in any other order
selects the same strategy as the source order. -/
theorem switch_order_independent (env : Env) (filePath m : String) :
    (¬ (m = "application/pdf" ∧ m = "text/plain") ∧
      ¬ (m = "application/pdf" ∧ startsWith m "image/" = true) ∧
      ¬ (m = "application/pdf" ∧ startsWith m "video/" = true) ∧
      ¬ (m = "application/pdf" ∧ startsWith m "audio/" = true) ∧
      ¬ (m = "text/plain" ∧ startsWith m "image/" = true) ∧
      ¬ (m = "text/plain" ∧ startsWith m "video/" = true) ∧
      ¬ (m = "text/plain" ∧ startsWith m "audio/" = true) ∧
      ¬ (startsWith m "image/" = true ∧ startsWith m "video/" = true) ∧
      ¬ (startsWith m "image/" = true ∧ startsWith m "audio/" = true) ∧
      ¬ (startsWith m "video/" = true ∧ startsWith m "audio/" = true)) ∧
    (∀ cases2 : List (Bool × Eff (JVal × String)),
      cases2.Perm (switchCases env filePath m) →
      firstMatch cases2 (Eff.throw "Unsupported file type for content extraction") =
        extractSwitch env filePath m) := by
  have hex := switch_conditions_exclusive m
  refine ⟨hex, ?_⟩
  have hpair : (switchCases env filePath m).Pairwise
      (fun a b => ¬ (a.1 = true ∧ b.1 = true)) := by
    obtain ⟨e1, e2, e3, e4, e5, e6, e7, e8, e9, e10⟩ := hex
    simp only [switchCases, List.pairwise_cons, List.mem_cons, List.mem_singleton,
      List.not_mem_nil, forall_eq_or_imp, forall_eq, decide_eq_true_eq, List.Pairwise.nil,
      false_imp_iff, implies_true, and_true]
    exact ⟨⟨e1, e2, e3, e4⟩, ⟨e5, e6, e7⟩, ⟨e8, e9⟩, e10⟩
  intro cases2 hperm
  rw [extractSwitch_eq_firstMatch]
  exact firstMatch_perm _ _ _ hpair hperm

/-- Witness for `switch_order_independent`: the cases tested in reverse order
on a video upload. -/
theorem switch_order_independent_witness :
    firstMatch (switchCases answeringEnv "uploads/file-1-2.mp4" "video/mp4").reverse
        (Eff.throw "Unsupported file type for content extraction") =
      extractSwitch answeringEnv "uploads/file-1-2.mp4" "video/mp4" :=
  (switch_order_independent answeringEnv "uploads/file-1-2.mp4" "video/mp4").2 _
    (List.reverse_perm _)
/-- A run that lengthens the call log has added calls. -/
theorem newCalls_ne_nil (w w1 : World) (h : w.calls.length < w1.calls.length) :
    newCalls w w1 ≠ [] := by
  unfold newCalls
  intro hnil
  rw [List.drop_eq_nil_iff] at hnil
  omega

/-- The PDF case makes at least one call. -/
theorem pdfCase_calls (env : Env) (p : String) (w : World) :
    w.calls.length < (pdfCase env p w).2.calls.length := by
  simp only [pdfCase, extractPDFText, bind, Eff.bind, Eff.tryCatch, readFileSync, callOut, pure,
    Eff.pure, Eff.throw]
  cases hf : w.files p with
  | none => simp [logCall]
  | some bytes =>
    simp only []
    cases hp : env.pdfParse (logCall (.readFile p) w) bytes <;> simp [logCall]

/-- The text case makes at least one call. -/
theorem textCase_calls (p : String) (w : World) :
    w.calls.length < (textCase p w).2.calls.length := by
  simp only [textCase, bind, Eff.bind, readFileSync, callOut, pure, Eff.pure]
  cases hf : w.files p <;> simp [logCall]

/-- The image case makes at least one call. -/
theorem imageCase_calls (env : Env) (p m : String) (w : World) :
    w.calls.length < (imageCase env p m w).2.calls.length := by
  simp only [imageCase, bind, Eff.bind, readFileSync, callOut, pure, Eff.pure, chatCreate,
    liftExcept]
  cases hf : w.files p with
  | none => simp [logCall]
  | some bytes =>
    simp only []
    generalize hreq : ChatRequest.mk _ _ _ = req
    cases hc : env.chatCreate (logCall (.readFile p) w) req with
    | error e => simp [logCall]
    | ok c =>
      simp only []
      cases hcc : c.content <;> simp [logCall]

/-- The video case makes at least one call. -/
theorem videoCase_calls (env : Env) (p : String) (w : World) :
    w.calls.length < (videoCase env p w).2.calls.length := by
  simp only [videoCase, bind, Eff.bind, extractAudioFromVideo, transcribeAudio, Eff.tryCatch,
    callOut, pure, Eff.pure, Eff.throw]
  generalize replaceFirst p (extname p) ".mp3" = audioPath
  cases hff : transcoderRun env w p audioPath with
  | error e => simp [logCall]
  | ok audio =>
    simp only []
    generalize hw2 : World.mk _ _ = w2
    have h2 : w2.calls.length = w.calls.length + 1 := by rw [← hw2]; simp
    cases ht : env.transcribe w2 audioPath with
    | error e => simp [logCall]; omega
    | ok t =>
      simp only []
      generalize hw3 : logCall _ w2 = w3
      have h3 : w3.calls.length = w2.calls.length + 1 := by rw [← hw3]; simp [logCall]
      unfold unlinkSync
      cases hu : w3.files audioPath <;> simp [logCall] <;> omega

/-- The audio case makes at least one call. -/
theorem audioCase_calls (env : Env) (p : String) (w : World) :
    w.calls.length < (audioCase env p w).2.calls.length := by
  simp only [audioCase, bind, Eff.bind, transcribeAudio, Eff.tryCatch, callOut, pure, Eff.pure,
    Eff.throw]
  cases ht : env.transcribe w p <;> simp [logCall]

/-- The multer middleware stores an accepted part below the size limit and
hands it to the route handler. -/
theorem uploadSingle_accepts (part : FilePart) (now random : Nat) (w : World)
    (hfield : part.fieldname = "file") (hsize : part.size < fileSize)
    (haccept : fileFilter part.mimetype = .ok true) :
    uploadSingle "file" (some part) now random w =
      (.next (some
          { fieldname := "file",
            originalname := part.originalname,
            mimetype := part.mimetype,
            filename := storageFilename "file" part.originalname now random,
            path := storageDestination ++ storageFilename "file" part.originalname now random,
            size := part.size }),
        { w with
          files := fun q =>
            if q = storageDestination ++ storageFilename "file" part.originalname now random
            then some part.bytes else w.files q }) := by
  have hs : ¬ part.size ≥ fileSize := by omega
  simp [uploadSingle, hfield, haccept, hs]

/-- The branch that the switch of the `/file` handler takes under each of its
conditions. -/
theorem extractSwitch_branches (env : Env) (filePath m : String) :
    (m = "application/pdf" → extractSwitch env filePath m = pdfCase env filePath) ∧
    (m = "text/plain" → extractSwitch env filePath m = textCase filePath) ∧
    (startsWith m "image/" = true → extractSwitch env filePath m = imageCase env filePath m) ∧
    (startsWith m "video/" = true → extractSwitch env filePath m = videoCase env filePath) ∧
    (startsWith m "audio/" = true → extractSwitch env filePath m = audioCase env filePath) ∧
    (m ≠ "application/pdf" → m ≠ "text/plain" → startsWith m "image/" = false →
      startsWith m "video/" = false → startsWith m "audio/" = false →
      extractSwitch env filePath m =
        Eff.throw "Unsupported file type for content extraction") := by
  obtain ⟨e1, e2, e3, e4, e5, e6, e7, e8, e9, e10⟩ := switch_conditions_exclusive m
  have f : ∀ b : Bool, ¬ (b = true) → b = false := fun b hb => by
    cases b with
    | false => rfl
    | true => exact absurd rfl hb
  refine ⟨?_, ?_, ?_, ?_, ?_, ?_⟩
  · intro h; simp [extractSwitch, h]
  · intro h
    have h1 : m ≠ "application/pdf" := fun hp => e1 ⟨hp, h⟩
    simp [extractSwitch, h1, h]
  · intro h
    have h1 : m ≠ "application/pdf" := fun hp => e2 ⟨hp, h⟩
    have h2 : m ≠ "text/plain" := fun hp => e5 ⟨hp, h⟩
    simp [extractSwitch, h, h1, h2]
  · intro h
    have h1 : m ≠ "application/pdf" := fun hp => e3 ⟨hp, h⟩
    have h2 : m ≠ "text/plain" := fun hp => e6 ⟨hp, h⟩
    have h3 : startsWith m "image/" = false := f _ fun hp => e8 ⟨hp, h⟩
    simp [extractSwitch, h, h1, h2, h3]
  · intro h
    have h1 : m ≠ "application/pdf" := fun hp => e4 ⟨hp, h⟩
    have h2 : m ≠ "text/plain" := fun hp => e7 ⟨hp, h⟩
    have h3 : startsWith m "image/" = false := f _ fun hp => e9 ⟨hp, h⟩
    have h4 : startsWith m "video/" = false := f _ fun hp => e10 ⟨hp, h⟩
    simp [extractSwitch, h, h1, h2, h3, h4]
  · intro h1 h2 h3 h4 h5; simp [extractSwitch, h1, h2, h3, h4, h5]

/-- One iteration of the scan of `extname`, at index `i`. -/
theorem extnameLoop_succ (cs : List Char) (i : Nat) (st : ExtScan) :
    extnameLoop cs (i + 1) st =
      if cs.getD i ' ' = '/' then
        if !st.matchedSlash then { st with startPart := (i : Int) + 1 }
        else extnameLoop cs i st
      else extnameLoop cs i (scanStep i (cs.getD i ' ') st) := by
  rfl

/-- On a character that is neither a dot nor a slash the state update is
`plainStep`. -/
theorem scanStep_plain (i : Nat) (code : Char) (st : ExtScan) (h : plainChar code) :
    scanStep i code st = plainStep i st := by
  unfold scanStep plainStep
  simp only [h.1, if_false]

/-- The character at the junction of two lists. -/
theorem getD_append_cons (A B : List Char) (c : Char) :
    (A ++ c :: B).getD A.length ' ' = c := by
  rw [List.getD_eq_getElem?_getD, List.getElem?_append_right (Nat.le_refl _)]
  simp

/-- The iteration on a character that is neither a dot nor a slash. -/
theorem extnameLoop_plain (cs : List Char) (i : Nat) (st : ExtScan)
    (h : plainChar (cs.getD i ' ')) :
    extnameLoop cs (i + 1) st = extnameLoop cs i (plainStep i st) := by
  rw [extnameLoop_succ, if_neg h.2, scanStep_plain _ _ _ h]

/-- A second plain character leaves the state of the first one. -/
theorem plainStep_plainStep (i j : Nat) (st : ExtScan) :
    plainStep i (plainStep j st) = plainStep j st := by
  have hj : ((j : Int) + 1 = -1) = False := by
    apply eq_false; omega
  unfold plainStep
  by_cases h1 : st.endIdx = -1 <;> by_cases h2 : st.startDot = -1 <;> simp [h1, h2, hj]

/-- The scan over a non-empty block of characters without dot or slash. -/
theorem extnameLoop_block (B : List Char) :
    ∀ (b : Char) (A C : List Char) (st : ExtScan),
      (∀ c ∈ b :: B, plainChar c) →
      extnameLoop (A ++ (b :: B) ++ C) (A.length + B.length + 1) st =
        extnameLoop (A ++ (b :: B) ++ C) A.length (plainStep (A.length + B.length) st) := by
  induction B with
  | nil =>
    intro b A C st h
    have hb : (A ++ [b] ++ C).getD A.length ' ' = b := by
      rw [List.append_assoc]; exact getD_append_cons A _ b
    simp only [List.length_nil, Nat.add_zero]
    exact extnameLoop_plain _ _ _ (by rw [hb]; exact h b (List.mem_singleton.mpr rfl))
  | cons b2 B ih =>
    intro b A C st h
    have hlist : A ++ (b :: b2 :: B) ++ C = (A ++ [b]) ++ (b2 :: B) ++ C := by simp
    have hlen : A.length + (b2 :: B).length + 1 = (A ++ [b]).length + B.length + 1 := by
      simp; omega
    have h2 : ∀ c ∈ b2 :: B, plainChar c := fun c hc => h c (List.mem_cons_of_mem _ hc)
    rw [hlen, hlist, ih b2 (A ++ [b]) C st h2]
    have hb : ((A ++ [b]) ++ (b2 :: B) ++ C).getD A.length ' ' = b := by
      have : (A ++ [b]) ++ (b2 :: B) ++ C = A ++ b :: ((b2 :: B) ++ C) := by simp
      rw [this]; exact getD_append_cons A _ b
    have hA : (A ++ [b]).length = A.length + 1 := by simp
    rw [hA, extnameLoop_plain _ _ _ (by rw [hb]; exact h b (List.mem_cons_self _ _)),
      plainStep_plainStep]
    congr 2
    simp; omega
/-- A plain character once the end and the dot are known only records that
the dot has a character before it. -/
theorem plainStep_found (i : Nat) (st : ExtScan) (he : st.endIdx ≠ -1) (hd : st.startDot ≠ -1) :
    plainStep i st = { st with preDotState := -1 } := by
  unfold plainStep
  rw [if_neg he]
  exact if_pos hd

/-- The first plain character scanned marks the end of the last component. -/
theorem plainStep_init (i : Nat) :
    plainStep i {} =
      { startDot := -1, startPart := 0, endIdx := (i : Int) + 1, matchedSlash := false,
        preDotState := 0 } := by
  rfl

/-- The first dot found after the end is known becomes the start of the
extension. -/
theorem scanStep_dot (i : Nat) (st : ExtScan) (he : st.endIdx ≠ -1) (hd : st.startDot = -1) :
    scanStep i '.' st = { st with startDot := (i : Int) } := by
  unfold scanStep
  rw [if_neg he]
  simp only [if_true]
  exact if_pos hd

/-- A dot scanned first marks both the end and the start of the extension. -/
theorem scanStep_dot_init (i : Nat) :
    scanStep i '.' {} =
      { startDot := (i : Int), startPart := 0, endIdx := (i : Int) + 1, matchedSlash := false,
        preDotState := 0 } := by
  rfl

/-- The scan of a path whose last component is a non-empty run without dot or
slash, then a dot, then a run without dot or slash. -/
theorem extnameLoop_dotted (pre comp rest : List Char) (c0 : Char)
    (hcomp : ∀ c ∈ c0 :: comp, plainChar c) (hrest : ∀ c ∈ rest, plainChar c) :
    ∃ st : ExtScan,
      extnameLoop (pre ++ '/' :: (c0 :: comp) ++ '.' :: rest)
        (pre ++ '/' :: (c0 :: comp) ++ '.' :: rest).length {} = st ∧
      st.startDot = ((pre.length + 1 + comp.length + 1 : Nat) : Int) ∧
      st.endIdx = (((pre ++ '/' :: (c0 :: comp) ++ '.' :: rest).length : Nat) : Int) ∧
      st.preDotState = -1 := by
  -- the state once the dot has been scanned
  have hdot : ∃ st1 : ExtScan,
      extnameLoop (pre ++ '/' :: (c0 :: comp) ++ '.' :: rest)
        (pre ++ '/' :: (c0 :: comp) ++ '.' :: rest).length {} =
      extnameLoop (pre ++ '/' :: (c0 :: comp) ++ '.' :: rest) (pre.length + 1 + comp.length + 1)
        st1 ∧
      st1.startDot = ((pre.length + 1 + comp.length + 1 : Nat) : Int) ∧
      st1.endIdx = (((pre ++ '/' :: (c0 :: comp) ++ '.' :: rest).length : Nat) : Int) ∧
      st1.matchedSlash = false := by
    have hcode : (pre ++ '/' :: (c0 :: comp) ++ '.' :: rest).getD
        (pre.length + 1 + comp.length + 1) ' ' = '.' := by
      have h1 : pre ++ '/' :: (c0 :: comp) ++ '.' :: rest =
          (pre ++ '/' :: (c0 :: comp)) ++ '.' :: rest := by simp
      have h2 : pre.length + 1 + comp.length + 1 = (pre ++ '/' :: (c0 :: comp)).length := by
        simp; omega
      rw [h1, h2]
      exact getD_append_cons _ _ _
    cases rest with
    | nil =>
      have hlen : (pre ++ '/' :: (c0 :: comp) ++ ['.']).length =
          (pre.length + 1 + comp.length + 1) + 1 := by simp; omega
      refine ⟨{ startDot := ((pre.length + 1 + comp.length + 1 : Nat) : Int), startPart := 0,
                endIdx := ((pre.length + 1 + comp.length + 1 : Nat) : Int) + 1,
                matchedSlash := false, preDotState := 0 }, ?_, ?_, ?_, ?_⟩
      · rw [hlen, extnameLoop_succ, hcode, if_neg (by decide), scanStep_dot_init]
      · rfl
      · rw [hlen]; dsimp only; omega
      · rfl
    | cons r0 rest =>
      have hlist : pre ++ '/' :: (c0 :: comp) ++ '.' :: r0 :: rest =
          (pre ++ '/' :: (c0 :: comp) ++ ['.']) ++ (r0 :: rest) ++ [] := by simp
      have hlen : (pre ++ '/' :: (c0 :: comp) ++ '.' :: r0 :: rest).length =
          (pre ++ '/' :: (c0 :: comp) ++ ['.']).length + rest.length + 1 := by simp; omega
      have hA : (pre ++ '/' :: (c0 :: comp) ++ ['.']).length =
          (pre.length + 1 + comp.length + 1) + 1 := by simp; omega
      refine ⟨{ startDot := ((pre.length + 1 + comp.length + 1 : Nat) : Int), startPart := 0,
                endIdx := ((pre.length + 1 + comp.length + 1 + 1 + rest.length : Nat) : Int) + 1,
                matchedSlash := false, preDotState := 0 }, ?_, ?_, ?_, ?_⟩
      · rw [hlen]
        conv_lhs => rw [hlist]
        rw [extnameLoop_block rest r0 _ [] {} hrest, ← hlist, hA, extnameLoop_succ, hcode,
          if_neg (by decide), plainStep_init,
          scanStep_dot _ _ (by dsimp only; omega) (by rfl)]
      · rfl
      · rw [hlen, hA]; dsimp only; omega
      · rfl
  obtain ⟨st1, hrun, hsd, hse, hms⟩ := hdot
  -- the component before the dot
  have hlist : pre ++ '/' :: (c0 :: comp) ++ '.' :: rest =
      (pre ++ ['/']) ++ (c0 :: comp) ++ ('.' :: rest) := by simp
  have hlen : pre.length + 1 + comp.length + 1 = (pre ++ ['/']).length + comp.length + 1 := by
    simp
  have hslash : ((pre ++ ['/']) ++ (c0 :: comp) ++ ('.' :: rest)).getD pre.length ' ' = '/' := by
    have : (pre ++ ['/']) ++ (c0 :: comp) ++ ('.' :: rest) =
        pre ++ '/' :: ((c0 :: comp) ++ ('.' :: rest)) := by simp
    rw [this]; exact getD_append_cons _ _ _
  have hA : (pre ++ ['/']).length = pre.length + 1 := by simp
  have he1 : st1.endIdx ≠ -1 := by rw [hse]; omega
  have hd1 : st1.startDot ≠ -1 := by rw [hsd]; omega
  refine ⟨_, rfl, ?_, ?_, ?_⟩
  all_goals
    rw [hrun]
    conv_lhs => rw [hlist, hlen]
    rw [extnameLoop_block comp c0 (pre ++ ['/']) ('.' :: rest) _ hcomp, hA, extnameLoop_succ,
      hslash, if_pos rfl, plainStep_found _ _ he1 hd1]
    simp only [hms, Bool.not_false, if_true]
  · exact hsd
  · rw [hse, hlist]
/-- The scan of a path whose last component is a non-empty run without dot or
slash finds no dot. -/
theorem extnameLoop_undotted (pre comp : List Char) (c0 : Char)
    (hcomp : ∀ c ∈ c0 :: comp, plainChar c) :
    (extnameLoop (pre ++ '/' :: (c0 :: comp)) (pre ++ '/' :: (c0 :: comp)).length {}).startDot =
      -1 := by
  have hlist : pre ++ '/' :: (c0 :: comp) = (pre ++ ['/']) ++ (c0 :: comp) ++ [] := by simp
  have hlen : (pre ++ '/' :: (c0 :: comp)).length = (pre ++ ['/']).length + comp.length + 1 := by
    simp; omega
  have hslash : ((pre ++ ['/']) ++ (c0 :: comp) ++ []).getD pre.length ' ' = '/' := by
    have : (pre ++ ['/']) ++ (c0 :: comp) ++ [] = pre ++ '/' :: (c0 :: comp) := by simp
    rw [this]; exact getD_append_cons _ _ _
  have hA : (pre ++ ['/']).length = pre.length + 1 := by simp
  rw [hlen]
  conv_lhs => rw [hlist]
  rw [extnameLoop_block comp c0 (pre ++ ['/']) [] {} hcomp, hA, extnameLoop_succ, hslash,
    if_pos rfl, plainStep_init]
  rfl

/-- The extension of a path whose last component is a non-empty run without
dot or slash followed by a dot and a run without dot or slash. -/
theorem extname_dotted (pre comp rest : List Char) (c0 : Char)
    (hcomp : ∀ c ∈ c0 :: comp, plainChar c) (hrest : ∀ c ∈ rest, plainChar c) :
    extname (String.mk (pre ++ '/' :: (c0 :: comp) ++ '.' :: rest)) = String.mk ('.' :: rest) := by
  obtain ⟨st, hst, hsd, hse, hpd⟩ := extnameLoop_dotted pre comp rest c0 hcomp hrest
  unfold extname
  simp only [hst]
  have h1 : ¬ (st.startDot = -1 ∨ st.endIdx = -1 ∨ st.preDotState = 0 ∨
      (st.preDotState = 1 ∧ st.startDot = st.endIdx - 1 ∧ st.startDot = st.startPart + 1)) := by
    rw [hsd, hse, hpd]
    omega
  rw [if_neg h1, hsd, hse, Int.toNat_ofNat, Int.toNat_ofNat, List.take_length]
  congr 1
  have h2 : pre ++ '/' :: (c0 :: comp) ++ '.' :: rest =
      (pre ++ '/' :: (c0 :: comp)) ++ '.' :: rest := by simp
  have h3 : pre.length + 1 + comp.length + 1 = (pre ++ '/' :: (c0 :: comp)).length := by
    simp; omega
  rw [h2, h3, List.drop_left]

/-- The extension of a path whose last component is a non-empty run without
dot or slash is empty. -/
theorem extname_undotted (pre comp : List Char) (c0 : Char)
    (hcomp : ∀ c ∈ c0 :: comp, plainChar c) :
    extname (String.mk (pre ++ '/' :: (c0 :: comp))) = "" := by
  have h := extnameLoop_undotted pre comp c0 hcomp
  unfold extname
  simp only []
  rw [if_pos (Or.inl h)]
/-- One iteration on a character other than a slash keeps the invariant of
the scan. -/
theorem scanInv_step (cs : List Char) (i : Nat) (st : ExtScan) (hi : i < cs.length)
    (hcode : cs.getD i ' ' ≠ '/') (h : scanInv cs (i + 1) st) :
    scanInv cs i (scanStep i (cs.getD i ' ') st) := by
  obtain ⟨hms, hdisj⟩ := h
  unfold scanStep
  by_cases hE : st.endIdx = -1
  · -- the end of the last component is found here
    have hD : st.startDot = -1 := by
      rcases hdisj with ⟨hd, _⟩ | ⟨a, b, _, hb, _⟩
      · exact hd
      · rw [hb] at hE; omega
    simp only [hE, if_true]
    by_cases hdot : cs.getD i ' ' = '.'
    · simp only [hdot, if_true, hD]
      refine ⟨fun _ => rfl, Or.inr ⟨i, i + 1, rfl, by push_cast; rfl, Nat.le_refl _, by omega,
        by omega, hdot, ?_⟩⟩
      intro j h1 h2; omega
    · simp only [hdot, if_false, hD, ne_eq, not_true_eq_false]
      refine ⟨fun _ => rfl, Or.inl ⟨rfl, Or.inr ⟨i + 1, by push_cast; rfl, by omega, by omega, ?_⟩⟩⟩
      intro j h1 h2
      have hj : j = i := by omega
      rw [hj]
      exact ⟨hdot, hcode⟩
  · simp only [hE, if_false]
    by_cases hdot : cs.getD i ' ' = '.'
    · simp only [hdot, if_true]
      by_cases hD : st.startDot = -1
      · simp only [hD, if_true]
        rcases hdisj with ⟨_, hE2 | ⟨b, hb, hib, hbL, hplain⟩⟩ | ⟨a, b, ha, _⟩
        · exact absurd hE2 hE
        · refine ⟨hms, Or.inr ⟨i, b, rfl, hb, Nat.le_refl _, by omega, hbL, hdot, ?_⟩⟩
          intro j h1 h2
          exact hplain j (by omega) h2
        · rw [ha] at hD; omega
      · simp only [hD, if_false]
        rcases hdisj with ⟨hd, _⟩ | ⟨a, b, ha, hb, hia, hab, hbL, hca, hplain⟩
        · exact absurd hd hD
        · by_cases hP : st.preDotState = 1
          · simp only [hP, ne_eq, not_true_eq_false, if_false]
            exact ⟨hms, Or.inr ⟨a, b, ha, hb, by omega, hab, hbL, hca, hplain⟩⟩
          · simp only [hP, ne_eq, not_false_eq_true, if_true]
            exact ⟨hms, Or.inr ⟨a, b, ha, hb, by omega, hab, hbL, hca, hplain⟩⟩
    · simp only [hdot, if_false]
      by_cases hD : st.startDot = -1
      · simp only [hD, ne_eq, not_true_eq_false, if_false]
        rcases hdisj with ⟨_, hE2 | ⟨b, hb, hib, hbL, hplain⟩⟩ | ⟨a, b, ha, _⟩
        · exact absurd hE2 hE
        · refine ⟨hms, Or.inl ⟨hD, Or.inr ⟨b, hb, by omega, hbL, ?_⟩⟩⟩
          intro j h1 h2
          by_cases hj : j = i
          · rw [hj]; exact ⟨hdot, hcode⟩
          · exact hplain j (by omega) h2
        · rw [ha] at hD; omega
      · simp only [hD, ne_eq, not_false_eq_true, if_true]
        rcases hdisj with ⟨hd, _⟩ | ⟨a, b, ha, hb, hia, hab, hbL, hca, hplain⟩
        · exact absurd hd hD
        · exact ⟨hms, Or.inr ⟨a, b, ha, hb, by omega, hab, hbL, hca, hplain⟩⟩

/-- The invariant of the scan gives its final guarantee. -/
theorem scanInv_final (cs : List Char) :
    ∀ (i : Nat) (st : ExtScan), i ≤ cs.length → scanInv cs i st →
      scanFinal cs (extnameLoop cs i st) := by
  intro i
  induction i with
  | zero =>
    intro st _ h
    show scanFinal cs st
    rcases h.2 with ⟨hd, _⟩ | ⟨a, b, ha, hb, _, hab, hbL, hca, hplain⟩
    · exact Or.inl hd
    · exact Or.inr ⟨a, b, ha, hb, hab, hbL, hca, hplain⟩
  | succ i ih =>
    intro st hi h
    rw [extnameLoop_succ]
    by_cases hslash : cs.getD i ' ' = '/'
    · rw [if_pos hslash]
      cases hm : st.matchedSlash with
      | false =>
        simp only [Bool.not_false, if_true]
        rcases h.2 with ⟨hd, _⟩ | ⟨a, b, ha, hb, _, hab, hbL, hca, hplain⟩
        · exact Or.inl hd
        · exact Or.inr ⟨a, b, ha, hb, hab, hbL, hca, hplain⟩
      | true =>
        simp only [Bool.not_true, Bool.false_eq_true, if_false]
        apply ih st (by omega)
        have hE : st.endIdx = -1 := by
          by_contra hne
          have := h.1 hne
          rw [hm] at this
          exact absurd this (by decide)
        refine ⟨h.1, ?_⟩
        rcases h.2 with ⟨hd, _⟩ | ⟨a, b, _, hb, _⟩
        · exact Or.inl ⟨hd, Or.inl hE⟩
        · rw [hb] at hE; omega
    · rw [if_neg hslash]
      exact ih _ (by omega) (scanInv_step cs i st (by omega) hslash h)

/-- The extension that `extname` returns is empty, or a dot followed by
characters that are neither dot nor slash. -/
theorem extname_shape (path : String) :
    extname path = "" ∨
      ∃ rest : List Char, extname path = String.mk ('.' :: rest) ∧ ∀ c ∈ rest, plainChar c := by
  have hinit : scanInv path.data path.data.length {} :=
    ⟨fun h => absurd rfl h, Or.inl ⟨rfl, Or.inl rfl⟩⟩
  have hfinal := scanInv_final path.data path.data.length {} (Nat.le_refl _) hinit
  unfold extname
  simp only []
  generalize extnameLoop path.data path.data.length {} = st at hfinal
  by_cases hcond : st.startDot = -1 ∨ st.endIdx = -1 ∨ st.preDotState = 0 ∨
      (st.preDotState = 1 ∧ st.startDot = st.endIdx - 1 ∧ st.startDot = st.startPart + 1)
  · rw [if_pos hcond]; exact Or.inl rfl
  · rw [if_neg hcond]
    right
    rcases hfinal with hd | ⟨a, b, ha, hb, hab, hbL, hca, hplain⟩
    · exact absurd (Or.inl hd) hcond
    · rw [ha, hb, Int.toNat_ofNat, Int.toNat_ofNat]
      have hlen : a < (path.data.take b).length := by
        rw [List.length_take]; omega
      have haL : a < path.data.length := by omega
      refine ⟨(path.data.take b).drop (a + 1), ?_, ?_⟩
      · congr 1
        rw [List.drop_eq_getElem_cons hlen]
        congr 1
        rw [List.getElem_take]
        rw [List.getD_eq_getElem _ _ haL] at hca
        exact hca
      · intro c hc
        obtain ⟨k, hk, hck⟩ := List.mem_iff_getElem.mp hc
        rw [List.length_drop, List.length_take] at hk
        have hidx : a + 1 + k < path.data.length := by omega
        have : c = path.data.getD (a + 1 + k) ' ' := by
          rw [List.getD_eq_getElem _ _ hidx, ← hck, List.getElem_drop, List.getElem_take]
        rw [this]
        exact hplain (a + 1 + k) (by omega) (by omega)
/-- A decimal digit character is neither a dot nor a slash. -/
theorem digitChar_plain (k : Nat) (h : k < 10) : plainChar (Nat.digitChar k) := by
  unfold plainChar
  interval_cases k <;> decide

/-- The digits produced by `Nat.toDigitsCore` in base ten are plain. -/
theorem toDigitsCore_plain (fuel : Nat) :
    ∀ (n : Nat) (ds : List Char), (∀ c ∈ ds, plainChar c) →
      ∀ c ∈ Nat.toDigitsCore 10 fuel n ds, plainChar c := by
  induction fuel with
  | zero => intro n ds h; simpa [Nat.toDigitsCore] using h
  | succ fuel ih =>
    intro n ds h
    have hd : plainChar (Nat.digitChar (n % 10)) := digitChar_plain _ (Nat.mod_lt _ (by decide))
    have hcons : ∀ c ∈ Nat.digitChar (n % 10) :: ds, plainChar c := by
      intro c hc
      rcases List.mem_cons.mp hc with rfl | hc
      · exact hd
      · exact h c hc
    unfold Nat.toDigitsCore
    simp only []
    split
    · exact hcons
    · exact ih _ _ hcons

/-- The decimal representation of a natural number has neither dot nor
slash. -/
theorem toString_nat_plain (n : Nat) : ∀ c ∈ (toString n).data, plainChar c := by
  show ∀ c ∈ Nat.toDigits 10 n, plainChar c
  exact toDigitsCore_plain _ _ _ (fun c hc => absurd hc (List.not_mem_nil c))

/-- Replacing an empty pattern puts the replacement in front. -/
theorem replaceFirstChars_nil (rep s : List Char) : replaceFirstChars [] rep s = rep ++ s := by
  cases s with
  | nil => simp [replaceFirstChars]
  | cons c cs => simp [replaceFirstChars]

/-- Replacing a pattern that starts with a dot, in a text without dot that is
followed by the pattern, replaces the trailing occurrence. -/
theorem replaceFirstChars_trailing (rest rep : List Char) :
    ∀ stem : List Char, (∀ c ∈ stem, c ≠ '.') →
      replaceFirstChars ('.' :: rest) rep (stem ++ '.' :: rest) = stem ++ rep := by
  intro stem
  induction stem with
  | nil =>
    intro _
    simp [replaceFirstChars]
  | cons c stem ih =>
    intro h
    have hc : c ≠ '.' := h c (List.mem_cons_self _ _)
    have hne : ('.' == c) = false := by
      simp [Ne.symm hc]
    rw [List.cons_append, replaceFirstChars]
    simp only [List.isPrefixOf, hne, Bool.false_and, Bool.false_eq_true, if_false]
    rw [ih fun d hd => h d (List.mem_cons_of_mem _ hd)]
    rfl

/-- A pattern that starts with a dot occurs only once, at the end, in a text
without dot followed by the pattern. -/
theorem occurrence_trailing (rest : List Char) :
    ∀ stem pre post : List Char, (∀ c ∈ stem, c ≠ '.') →
      stem ++ '.' :: rest = pre ++ ('.' :: rest) ++ post → pre = stem ∧ post = [] := by
  intro stem
  induction stem with
  | nil =>
    intro pre post _ h
    have hlen := congrArg List.length h
    simp at hlen
    have hpre : pre = [] := List.eq_nil_of_length_eq_zero (by omega)
    have hpost : post = [] := List.eq_nil_of_length_eq_zero (by omega)
    exact ⟨hpre, hpost⟩
  | cons c stem ih =>
    intro pre post hstem h
    have hc : c ≠ '.' := hstem c (List.mem_cons_self _ _)
    cases pre with
    | nil =>
      simp at h
      exact absurd h.1 hc
    | cons p pre =>
      simp only [List.cons_append, List.cons.injEq] at h
      obtain ⟨hp, htail⟩ := h
      have := ih pre post (fun d hd => hstem d (List.mem_cons_of_mem _ hd)) (by simpa using htail)
      exact ⟨by rw [this.1, hp], this.2⟩
/-- The characters of the stored path before the extension: `uploads`, a
slash, and a last component without dot or slash. -/
theorem stem_data (now random : Nat) :
    ("uploads/file-" ++ toString now ++ "-" ++ toString random).data =
      "uploads".data ++
        '/' :: ('f' :: ("ile-".data ++ (toString now).data ++ '-' :: (toString random).data)) := by
  simp only [String.data_append]
  simp

/-- The last component of the stored path before the extension has neither
dot nor slash. -/
theorem stem_component_plain (now random : Nat) :
    ∀ c ∈ 'f' :: ("ile-".data ++ (toString now).data ++ '-' :: (toString random).data),
      plainChar c := by
  intro c hc
  simp only [List.mem_cons, List.mem_append] at hc
  rcases hc with rfl | (h | h) | rfl | h
  · exact ⟨by decide, by decide⟩
  · have : c = 'i' ∨ c = 'l' ∨ c = 'e' ∨ c = '-' := by
      simpa using h
    rcases this with rfl | rfl | rfl | rfl <;> exact ⟨by decide, by decide⟩
  · exact toString_nat_plain now c h
  · exact ⟨by decide, by decide⟩
  · exact toString_nat_plain random c h

/-- The stored path before the extension has no dot. -/
theorem stem_no_dot (now random : Nat) :
    ∀ c ∈ ("uploads/file-" ++ toString now ++ "-" ++ toString random).data, c ≠ '.' := by
  intro c hc
  rw [stem_data] at hc
  rcases List.mem_append.mp hc with h | h
  · have : c = 'u' ∨ c = 'p' ∨ c = 'l' ∨ c = 'o' ∨ c = 'a' ∨ c = 'd' ∨ c = 's' := by
      simpa using h
    rcases this with rfl | rfl | rfl | rfl | rfl | rfl | rfl <;> decide
  · rcases List.mem_cons.mp h with rfl | h
    · decide
    · exact (stem_component_plain now random c h).1

/-- The stored path is the stem followed by the extension of the original
name. -/
theorem storedPath_eq (originalname : String) (now random : Nat) :
    storedPath originalname now random =
      ("uploads/file-" ++ toString now ++ "-" ++ toString random) ++ extname originalname := by
  apply String.ext
  simp only [storedPath, storageDestination, storageFilename, String.data_append]
  simp only [List.append_assoc]
  rfl

/-- The video case first runs the transcoder from the stored path to the
audio path. -/
theorem videoCase_first_call (env : Env) (p : String) (w : World) :
    (newCalls w (videoCase env p w).2).head? = some (.ffmpeg p (audioPathOf p)) := by
  have h : ∃ more, (videoCase env p w).2.calls = w.calls ++ .ffmpeg p (audioPathOf p) :: more := by
    simp only [videoCase, bind, Eff.bind, extractAudioFromVideo, transcribeAudio, Eff.tryCatch,
      callOut, pure, Eff.pure, Eff.throw]
    show ∃ more, _ = w.calls ++ .ffmpeg p (replaceFirst p (extname p) ".mp3") :: more
    generalize replaceFirst p (extname p) ".mp3" = audioPath
    cases hff : transcoderRun env w p audioPath with
    | error e => exact ⟨[], rfl⟩
    | ok audio =>
      simp only []
      generalize hw2 : World.mk _ _ = w2
      have h2 : w2.calls = w.calls ++ [.ffmpeg p audioPath] := by rw [← hw2]
      cases ht : env.transcribe w2 audioPath with
      | error e => exact ⟨[.transcribe audioPath], by simp [logCall, h2]⟩
      | ok t =>
        simp only []
        generalize hw3 : logCall _ w2 = w3
        have h3 : w3.calls = w.calls ++ [.ffmpeg p audioPath, .transcribe audioPath] := by
          rw [← hw3]; simp [logCall, h2]
        unfold unlinkSync
        cases hu : w3.files audioPath with
        | none => exact ⟨[.transcribe audioPath, .unlink audioPath], by simp [logCall, h3]⟩
        | some b => exact ⟨[.transcribe audioPath, .unlink audioPath], by simp [h3]⟩
  obtain ⟨more, hmore⟩ := h
  simp [newCalls, hmore]
/-- The extension of the stored path is the extension of the original name. -/
theorem extname_storedPath (originalname : String) (now random : Nat) :
    extname (storedPath originalname now random) = extname originalname := by
  have hstored : storedPath originalname now random =
      String.mk (("uploads/file-" ++ toString now ++ "-" ++ toString random).data ++
        (extname originalname).data) := by
    rw [storedPath_eq]
    exact String.ext (by simp [String.data_append])
  rw [hstored, stem_data]
  rcases extname_shape originalname with h | ⟨rest, h, hrest⟩
  · rw [h]
    have : ("" : String).data = [] := rfl
    rw [this, List.append_nil]
    exact extname_undotted _ _ _ (stem_component_plain now random)
  · rw [h]
    exact extname_dotted _ _ _ _ (stem_component_plain now random) hrest

/-- Claim C18: for an upload stored as `uploads/file-<now>-<random><ext>`,
where `ext` is the extension of the original name, the extension of the
stored path is `ext` and the audio path of the video case is as follows.  If
`ext` is non-empty and is not `.mp3`, it is the stored path with its trailing
`ext` replaced by `.mp3` and differs from the stored path; a non-empty `ext`
occurs in the stored path only at its end.  If `ext` is empty, it is `.mp3`
put in front of the stored path.  If `ext` is `.mp3`, it is the stored path
itself. -/
theorem audio_path_of_stored_video (originalname : String) (now random : Nat) :
    storedPath originalname now random =
      ("uploads/file-" ++ toString now ++ "-" ++ toString random) ++ extname originalname ∧
    extname (storedPath originalname now random) = extname originalname ∧
    (∀ (env : Env) (w : World),
      (newCalls w (videoCase env (storedPath originalname now random) w).2).head? =
        some (.ffmpeg (storedPath originalname now random)
          (audioPathOf (storedPath originalname now random)))) ∧
    (extname originalname ≠ "" → extname originalname ≠ ".mp3" →
      audioPathOf (storedPath originalname now random) =
        ("uploads/file-" ++ toString now ++ "-" ++ toString random) ++ ".mp3" ∧
      audioPathOf (storedPath originalname now random) ≠ storedPath originalname now random) ∧
    (extname originalname ≠ "" →
      ∀ pre post : String,
        storedPath originalname now random = pre ++ extname originalname ++ post →
        pre = "uploads/file-" ++ toString now ++ "-" ++ toString random ∧ post = "") ∧
    (extname originalname = "" →
      audioPathOf (storedPath originalname now random) =
        ".mp3" ++ storedPath originalname now random) ∧
    (extname originalname = ".mp3" →
      audioPathOf (storedPath originalname now random) = storedPath originalname now random) := by
  have hext := extname_storedPath originalname now random
  have hpath := storedPath_eq originalname now random
  -- the audio path for a non-empty extension
  have hdotted : extname originalname ≠ "" →
      audioPathOf (storedPath originalname now random) =
        ("uploads/file-" ++ toString now ++ "-" ++ toString random) ++ ".mp3" := by
    intro hne
    rcases extname_shape originalname with h | ⟨rest, h, _⟩
    · exact absurd h hne
    · unfold audioPathOf replaceFirst
      rw [hext, hpath, h]
      apply String.ext
      simp only [String.data_append]
      exact replaceFirstChars_trailing rest _ _ (stem_no_dot now random)
  refine ⟨hpath, hext, fun env w => videoCase_first_call env _ w, ?_, ?_, ?_, ?_⟩
  · intro hne hmp3
    refine ⟨hdotted hne, ?_⟩
    rw [hdotted hne]
    intro heq
    rw [hpath] at heq
    have hdata := congrArg String.data heq
    simp only [String.data_append] at hdata
    have := List.append_cancel_left hdata
    exact hmp3 (String.ext this.symm)
  · intro hne pre post heq
    rcases extname_shape originalname with h | ⟨rest, h, _⟩
    · exact absurd h hne
    · rw [hpath, h] at heq
      have hdata := congrArg String.data heq
      simp only [String.data_append] at hdata
      have hocc := occurrence_trailing rest _ pre.data post.data (stem_no_dot now random) hdata
      exact ⟨String.ext hocc.1, String.ext hocc.2⟩
  · intro hempty
    unfold audioPathOf replaceFirst
    rw [hext, hempty]
    apply String.ext
    simp only [String.data_append]
    exact replaceFirstChars_nil _ _
  · intro hmp3
    have hne : extname originalname ≠ "" := by
      rw [hmp3]; decide
    rw [hdotted hne, hpath, hmp3]

/-- Witness for `audio_path_of_stored_video`: an original name that ends in
`.mov`. -/
theorem audio_path_of_stored_video_witness :
    audioPathOf (storedPath "lecture.mov" 1 2) =
        ("uploads/file-" ++ toString 1 ++ "-" ++ toString 2) ++ ".mp3" ∧
      audioPathOf (storedPath "lecture.mov" 1 2) ≠ storedPath "lecture.mov" 1 2 :=
  (audio_path_of_stored_video "lecture.mov" 1 2).2.2.2.1 (by decide) (by decide)
/-- A character other than `<` does not affect tag safety. -/
theorem tagSafe_cons_of_ne (c : Char) (r : List Char) (h : c ≠ '<') :
    tagSafe (c :: r) = tagSafe r := by
  simp [tagSafe, h]

/-- Tag safety passes to the tail. -/
theorem tagSafe_tail (c : Char) (r : List Char) (h : tagSafe (c :: r) = true) :
    tagSafe r = true := by
  simp only [tagSafe, Bool.and_eq_true] at h
  exact h.2

/-- Tag safety passes to every suffix. -/
theorem tagSafe_append_right (a b : List Char) (h : tagSafe (a ++ b) = true) :
    tagSafe b = true := by
  induction a with
  | nil => exact h
  | cons c a ih => exact ih (tagSafe_tail c _ h)

/-- Tag safety passes to what is left after dropping characters. -/
theorem tagSafe_drop (n : Nat) (s : List Char) (h : tagSafe s = true) :
    tagSafe (s.drop n) = true := by
  have := List.take_append_drop n s
  rw [← this] at h
  exact tagSafe_append_right _ _ h

/-- A text that begins with a tag still does when more text follows. -/
theorem startsTag_append (s b : List Char) (h : startsTag s = true) :
    startsTag (s ++ b) = true := by
  simp only [startsTag, List.any_eq_true] at h ⊢
  obtain ⟨t, ht, hp⟩ := h
  refine ⟨t, ht, ?_⟩
  rw [ List.isPrefixOf_iff_prefix] at hp ⊢
  exact hp.trans (List.prefix_append s b)

/-- The concatenation of two tag-safe texts is tag-safe. -/
theorem tagSafe_append (a b : List Char) (ha : tagSafe a = true) (hb : tagSafe b = true) :
    tagSafe (a ++ b) = true := by
  induction a with
  | nil => exact hb
  | cons c a ih =>
    simp only [tagSafe, Bool.and_eq_true, Bool.or_eq_true] at ha
    simp only [List.cons_append, tagSafe, Bool.and_eq_true, Bool.or_eq_true]
    refine ⟨?_, ih ha.2⟩
    rcases ha.1 with h | h
    · exact Or.inl h
    · exact Or.inr (startsTag_append (c :: a) b h)

/-- A text that begins with a tag is that tag followed by the rest. -/
theorem startsTag_cases (s : List Char) (h : startsTag s = true) :
    ∃ t v, t ∈ insertedTags ∧ s = t ++ v := by
  simp only [startsTag, List.any_eq_true] at h
  obtain ⟨t, ht, hp⟩ := h
  rw [ List.isPrefixOf_iff_prefix] at hp
  obtain ⟨v, hv⟩ := hp
  exact ⟨t, v, ht, hv.symm⟩

/-- A tag-safe text that begins with `<` is an inserted tag followed by a
tag-safe rest. -/
theorem tagSafe_lt_cases (r : List Char) (h : tagSafe ('<' :: r) = true) :
    ∃ t v, t ∈ insertedTags ∧ '<' :: r = t ++ v ∧ tagSafe v = true := by
  have hs : startsTag ('<' :: r) = true := by
    simp only [tagSafe, Bool.and_eq_true, Bool.or_eq_true] at h
    rcases h.1 with h1 | h1
    · simp at h1
    · exact h1
  obtain ⟨t, v, ht, hv⟩ := startsTag_cases _ hs
  refine ⟨t, v, ht, hv, ?_⟩
  rw [hv] at h
  exact tagSafe_append_right _ _ h

/-- The fenced-block replacement keeps a text tag-safe. -/
theorem fenceCode_safe (n : Nat) :
    ∀ (inside : Bool) (skip : Nat) (s : List Char), s.length ≤ n → tagSafe s = true →
      tagSafe (fenceCode inside skip s) = true := by
  induction n with
  | zero =>
    intro inside skip s hlen _
    have : s = [] := List.eq_nil_of_length_eq_zero (by omega)
    subst this
    cases inside <;> cases skip <;> rfl
  | succ n ih =>
    intro inside skip s hlen hs
    cases s with
    | nil => cases inside <;> cases skip <;> rfl
    | cons c r =>
      have hr : tagSafe r = true := tagSafe_tail c r hs
      have hrlen : r.length ≤ n := by simpa using hlen
      cases skip with
      | succ k =>
        have : fenceCode inside (k + 1) (c :: r) = fenceCode inside k r := by
          cases inside <;> rfl
        rw [this]
        exact ih inside k r hrlen hr
      | zero =>
        by_cases hc : c = '<'
        · subst hc
          obtain ⟨t, v, ht, hv, hvs⟩ := tagSafe_lt_cases r hs
          have hvlen : v.length ≤ n := by
            have := congrArg List.length hv
            simp only [insertedTags, List.mem_cons, List.mem_singleton, List.not_mem_nil,
              or_false] at ht
            rcases ht with rfl | rfl | rfl | rfl | rfl | rfl | rfl | rfl | rfl | rfl | rfl <;>
              simp at this <;> simp at hlen <;> omega
          have hcopy : fenceCode inside 0 (t ++ v) = t ++ fenceCode inside 0 v := by
            simp only [insertedTags, List.mem_cons, List.mem_singleton, List.not_mem_nil,
              or_false] at ht
            rcases ht with rfl | rfl | rfl | rfl | rfl | rfl | rfl | rfl | rfl | rfl | rfl <;>
              cases inside <;> simp [fenceCode, List.isPrefixOf]
          have htsafe : tagSafe t = true := by
            simp only [insertedTags, List.mem_cons, List.mem_singleton, List.not_mem_nil,
              or_false] at ht
            rcases ht with rfl | rfl | rfl | rfl | rfl | rfl | rfl | rfl | rfl | rfl | rfl <;>
              decide
          rw [hv, hcopy]
          exact tagSafe_append _ _ htsafe (ih inside 0 v hvlen hvs)
        · cases inside with
          | true =>
            simp only [fenceCode]
            split
            · exact tagSafe_append _ _ (by decide) (ih false 2 r hrlen hr)
            · rw [tagSafe_cons_of_ne c _ hc]
              exact ih true 0 r hrlen hr
          | false =>
            simp only [fenceCode]
            split
            · exact tagSafe_append _ _ (by decide) (ih true 2 r hrlen hr)
            · rw [tagSafe_cons_of_ne c _ hc]
              exact ih false 0 r hrlen hr
/-- Facts about an inserted tag: it is tag-safe and not empty. -/
theorem insertedTags_facts (t : List Char) (ht : t ∈ insertedTags) :
    tagSafe t = true ∧ 1 ≤ t.length := by
  simp only [insertedTags, List.mem_cons, List.mem_singleton, List.not_mem_nil, or_false] at ht
  rcases ht with rfl | rfl | rfl | rfl | rfl | rfl | rfl | rfl | rfl | rfl | rfl <;>
    exact ⟨by decide, by decide⟩

/-- The inline-code replacement keeps a text tag-safe. -/
theorem inlineCode_safe (n : Nat) :
    ∀ (inside : Bool) (s : List Char), s.length ≤ n → tagSafe s = true →
      tagSafe (inlineCode inside s) = true := by
  induction n with
  | zero =>
    intro inside s hlen _
    have : s = [] := List.eq_nil_of_length_eq_zero (by omega)
    subst this
    cases inside <;> rfl
  | succ n ih =>
    intro inside s hlen hs
    cases s with
    | nil => cases inside <;> rfl
    | cons c r =>
      have hr : tagSafe r = true := tagSafe_tail c r hs
      have hrlen : r.length ≤ n := by simpa using hlen
      by_cases hc : c = '<'
      · subst hc
        obtain ⟨t, v, ht, hv, hvs⟩ := tagSafe_lt_cases r hs
        have hfacts := insertedTags_facts t ht
        have hvlen : v.length ≤ n := by
          have := congrArg List.length hv
          simp only [List.length_cons, List.length_append] at this hlen
          omega
        have hcopy : inlineCode inside (t ++ v) = t ++ inlineCode inside v := by
          simp only [insertedTags, List.mem_cons, List.mem_singleton, List.not_mem_nil,
            or_false] at ht
          rcases ht with rfl | rfl | rfl | rfl | rfl | rfl | rfl | rfl | rfl | rfl | rfl <;>
            cases inside <;> simp [inlineCode]
        rw [hv, hcopy]
        exact tagSafe_append _ _ hfacts.1 (ih inside v hvlen hvs)
      · cases inside with
        | true =>
          simp only [inlineCode]
          split
          · exact tagSafe_append _ _ (by decide) (ih false r hrlen hr)
          · rw [tagSafe_cons_of_ne c _ hc]
            exact ih true r hrlen hr
        | false =>
          simp only [inlineCode]
          split
          · exact tagSafe_append _ _ (by decide) (ih true r hrlen hr)
          · rw [tagSafe_cons_of_ne c _ hc]
            exact ih false r hrlen hr

/-- The bold replacement keeps a text tag-safe. -/
theorem boldText_safe (n : Nat) :
    ∀ (inside : Bool) (skip : Nat) (s : List Char), s.length ≤ n → tagSafe s = true →
      tagSafe (boldText inside skip s) = true := by
  induction n with
  | zero =>
    intro inside skip s hlen _
    have : s = [] := List.eq_nil_of_length_eq_zero (by omega)
    subst this
    cases inside <;> cases skip <;> rfl
  | succ n ih =>
    intro inside skip s hlen hs
    cases s with
    | nil => cases inside <;> cases skip <;> rfl
    | cons c r =>
      have hr : tagSafe r = true := tagSafe_tail c r hs
      have hrlen : r.length ≤ n := by simpa using hlen
      cases skip with
      | succ k =>
        have : boldText inside (k + 1) (c :: r) = boldText inside k r := by
          cases inside <;> rfl
        rw [this]
        exact ih inside k r hrlen hr
      | zero =>
        by_cases hc : c = '<'
        · subst hc
          obtain ⟨t, v, ht, hv, hvs⟩ := tagSafe_lt_cases r hs
          have hfacts := insertedTags_facts t ht
          have hvlen : v.length ≤ n := by
            have := congrArg List.length hv
            simp only [List.length_cons, List.length_append] at this hlen
            omega
          have hcopy : boldText inside 0 (t ++ v) = t ++ boldText inside 0 v := by
            simp only [insertedTags, List.mem_cons, List.mem_singleton, List.not_mem_nil,
              or_false] at ht
            rcases ht with rfl | rfl | rfl | rfl | rfl | rfl | rfl | rfl | rfl | rfl | rfl <;>
              cases inside <;> simp [boldText, List.isPrefixOf]
          rw [hv, hcopy]
          exact tagSafe_append _ _ hfacts.1 (ih inside 0 v hvlen hvs)
        · cases inside with
          | true =>
            simp only [boldText]
            split
            · exact tagSafe_append _ _ (by decide) (ih false 1 r hrlen hr)
            · rw [tagSafe_cons_of_ne c _ hc]
              exact ih true 0 r hrlen hr
          | false =>
            simp only [boldText]
            split
            · exact tagSafe_append _ _ (by decide) (ih true 1 r hrlen hr)
            · rw [tagSafe_cons_of_ne c _ hc]
              exact ih false 0 r hrlen hr

/-- The list-line replacement keeps a text tag-safe. -/
theorem listItems_safe (n : Nat) :
    ∀ (lineStart inItem : Bool) (skip : Nat) (s : List Char), s.length ≤ n →
      tagSafe s = true → tagSafe (listItems lineStart inItem skip s) = true := by
  induction n with
  | zero =>
    intro lineStart inItem skip s hlen _
    have : s = [] := List.eq_nil_of_length_eq_zero (by omega)
    subst this
    cases inItem <;> simp [listItems] <;> decide
  | succ n ih =>
    intro lineStart inItem skip s hlen hs
    cases s with
    | nil => cases inItem <;> simp [listItems] <;> decide
    | cons c r =>
      have hr : tagSafe r = true := tagSafe_tail c r hs
      have hrlen : r.length ≤ n := by simpa using hlen
      cases skip with
      | succ k =>
        have : listItems lineStart inItem (k + 1) (c :: r) = listItems lineStart inItem k r := by
          cases inItem <;> rfl
        rw [this]
        exact ih lineStart inItem k r hrlen hr
      | zero =>
        by_cases hc : c = '<'
        · subst hc
          obtain ⟨t, v, ht, hv, hvs⟩ := tagSafe_lt_cases r hs
          have hfacts := insertedTags_facts t ht
          have hvlen : v.length ≤ n := by
            have := congrArg List.length hv
            simp only [List.length_cons, List.length_append] at this hlen
            omega
          have hcopy : listItems lineStart inItem 0 (t ++ v) = t ++ listItems false inItem 0 v := by
            simp only [insertedTags, List.mem_cons, List.mem_singleton, List.not_mem_nil,
              or_false] at ht
            rcases ht with rfl | rfl | rfl | rfl | rfl | rfl | rfl | rfl | rfl | rfl | rfl <;>
              cases inItem <;> simp [listItems, isLineTerminator]
          rw [hv, hcopy]
          exact tagSafe_append _ _ hfacts.1 (ih false inItem 0 v hvlen hvs)
        · cases inItem with
          | true =>
            simp only [listItems]
            split
            · refine tagSafe_append _ _ (by decide) ?_
              rw [tagSafe_cons_of_ne c _ hc]
              exact ih true false 0 r hrlen hr
            · rw [tagSafe_cons_of_ne c _ hc]
              exact ih false true 0 r hrlen hr
          | false =>
            simp only [listItems]
            split
            · exact tagSafe_append _ _ (by decide) (ih false true 1 r hrlen hr)
            · rw [tagSafe_cons_of_ne c _ hc]
              exact ih _ false 0 r hrlen hr

/-- The newline replacement keeps a text tag-safe. -/
theorem lineBreaks_safe (n : Nat) :
    ∀ s : List Char, s.length ≤ n → tagSafe s = true → tagSafe (lineBreaks s) = true := by
  induction n with
  | zero =>
    intro s hlen _
    have : s = [] := List.eq_nil_of_length_eq_zero (by omega)
    subst this
    rfl
  | succ n ih =>
    intro s hlen hs
    cases s with
    | nil => rfl
    | cons c r =>
      have hr : tagSafe r = true := tagSafe_tail c r hs
      have hrlen : r.length ≤ n := by simpa using hlen
      by_cases hc : c = '<'
      · subst hc
        obtain ⟨t, v, ht, hv, hvs⟩ := tagSafe_lt_cases r hs
        have hfacts := insertedTags_facts t ht
        have hvlen : v.length ≤ n := by
          have := congrArg List.length hv
          simp only [List.length_cons, List.length_append] at this hlen
          omega
        have hcopy : lineBreaks (t ++ v) = t ++ lineBreaks v := by
          simp only [insertedTags, List.mem_cons, List.mem_singleton, List.not_mem_nil,
            or_false] at ht
          rcases ht with rfl | rfl | rfl | rfl | rfl | rfl | rfl | rfl | rfl | rfl | rfl <;>
            simp [lineBreaks]
        rw [hv, hcopy]
        exact tagSafe_append _ _ hfacts.1 (ih v hvlen hvs)
      · simp only [lineBreaks]
        split
        · exact tagSafe_append _ _ (by decide) (ih r hrlen hr)
        · simp only [List.singleton_append]
          rw [tagSafe_cons_of_ne c _ hc]
          exact ih r hrlen hr
/-- Closing the list keeps a text tag-safe. -/
theorem closeList_safe (n : Nat) :
    ∀ s : List Char, s.length ≤ n → tagSafe s = true → tagSafe (closeList s) = true := by
  induction n with
  | zero =>
    intro s hlen _
    have : s = [] := List.eq_nil_of_length_eq_zero (by omega)
    subst this
    rfl
  | succ n ih =>
    intro s hlen hs
    cases s with
    | nil => rfl
    | cons c r =>
      have hr : tagSafe r = true := tagSafe_tail c r hs
      have hrlen : r.length ≤ n := by simpa using hlen
      by_cases htrig : ("</li>".data.isPrefixOf (c :: r) && !hasInfix "</li>".data r) = true
      · simp only [closeList, htrig, if_true]
        exact tagSafe_append _ _ (by decide) (tagSafe_drop 4 r hr)
      · have hstep : closeList (c :: r) = c :: closeList r := by
          simp only [closeList, htrig, Bool.false_eq_true, if_false]
        by_cases hc : c = '<'
        · subst hc
          obtain ⟨t, v, ht, hv, hvs⟩ := tagSafe_lt_cases r hs
          have hfacts := insertedTags_facts t ht
          have hvlen : v.length ≤ n := by
            have := congrArg List.length hv
            simp only [List.length_cons, List.length_append] at this hlen
            omega
          have hcopy : closeList ('<' :: r) = t ++ closeList v := by
            rw [hstep]
            simp only [insertedTags, List.mem_cons, List.mem_singleton, List.not_mem_nil,
              or_false] at ht
            rcases ht with rfl | rfl | rfl | rfl | rfl | rfl | rfl | rfl | rfl | rfl | rfl <;>
              simp at hv <;> subst hv <;> simp [closeList, List.isPrefixOf]
          rw [hcopy]
          exact tagSafe_append _ _ hfacts.1 (ih v hvlen hvs)
        · rw [hstep, tagSafe_cons_of_ne c _ hc]
          exact ih r hrlen hr

/-- The list wrapping keeps a text tag-safe. -/
theorem wrapList_safe (n : Nat) :
    ∀ s : List Char, s.length ≤ n → tagSafe s = true → tagSafe (wrapList s) = true := by
  induction n with
  | zero =>
    intro s hlen _
    have : s = [] := List.eq_nil_of_length_eq_zero (by omega)
    subst this
    rfl
  | succ n ih =>
    intro s hlen hs
    cases s with
    | nil => rfl
    | cons c r =>
      have hr : tagSafe r = true := tagSafe_tail c r hs
      have hrlen : r.length ≤ n := by simpa using hlen
      by_cases htrig :
          ("<li>".data.isPrefixOf (c :: r) && hasInfix "</li>".data (r.drop 3)) = true
      · simp only [wrapList, htrig, if_true]
        exact tagSafe_append _ _ (by decide) (closeList_safe _ _ (Nat.le_refl _) hs)
      · have hstep : wrapList (c :: r) = c :: wrapList r := by
          simp only [wrapList, htrig, Bool.false_eq_true, if_false]
        by_cases hc : c = '<'
        · subst hc
          obtain ⟨t, v, ht, hv, hvs⟩ := tagSafe_lt_cases r hs
          have hfacts := insertedTags_facts t ht
          have hvlen : v.length ≤ n := by
            have := congrArg List.length hv
            simp only [List.length_cons, List.length_append] at this hlen
            omega
          have hcopy : wrapList ('<' :: r) = t ++ wrapList v := by
            rw [hstep]
            simp only [insertedTags, List.mem_cons, List.mem_singleton, List.not_mem_nil,
              or_false] at ht
            rcases ht with rfl | rfl | rfl | rfl | rfl | rfl | rfl | rfl | rfl | rfl | rfl <;>
              simp at hv <;> subst hv <;> simp [wrapList, List.isPrefixOf]
          rw [hcopy]
          exact tagSafe_append _ _ hfacts.1 (ih v hvlen hvs)
        · rw [hstep, tagSafe_cons_of_ne c _ hc]
          exact ih r hrlen hr

/-- Escaped text has neither `<` nor `>`. -/
theorem escapeHtmlChars_no_angle (s : List Char) :
    '<' ∉ escapeHtmlChars s ∧ '>' ∉ escapeHtmlChars s := by
  induction s with
  | nil => simp [escapeHtmlChars]
  | cons c r ih =>
    simp only [escapeHtmlChars, List.mem_append, not_or]
    refine ⟨⟨?_, ih.1⟩, ⟨?_, ih.2⟩⟩
    · split
      · decide
      · split
        · decide
        · split
          · decide
          · split
            · decide
            · rename_i h1 h2 h3 h4
              simpa using Ne.symm h2
    · split
      · decide
      · split
        · decide
        · split
          · decide
          · split
            · decide
            · rename_i h1 h2 h3 h4
              simpa using Ne.symm h3

/-- A text without `<` is tag-safe. -/
theorem tagSafe_of_no_lt (s : List Char) (h : '<' ∉ s) : tagSafe s = true := by
  induction s with
  | nil => rfl
  | cons c r ih =>
    have hc : c ≠ '<' := fun hc => h (by rw [hc]; exact List.mem_cons_self _ _)
    rw [tagSafe_cons_of_ne c r hc]
    exact ih fun hm => h (List.mem_cons_of_mem _ hm)

/-- In a tag-safe text every `<` begins an inserted tag. -/
theorem tagSafe_occurrence (s : List Char) (h : tagSafe s = true) :
    ∀ pre post : List Char, s = pre ++ '<' :: post →
      ∃ t ∈ insertedTags, t.isPrefixOf ('<' :: post) = true := by
  intro pre post hs
  rw [hs] at h
  have h2 := tagSafe_append_right pre _ h
  simp only [tagSafe, Bool.and_eq_true, Bool.or_eq_true] at h2
  rcases h2.1 with h3 | h3
  · simp at h3
  · simp only [startsTag, List.any_eq_true] at h3
    exact h3

/-- Claim C19: HTML escaping is applied to the whole input first, so the
escaped text has no `<` or `>`; and in the output of `processMessageContent`
every `<` begins one of the tags that the function inserts: `<pre>`, `<code>`,
`<strong>`, `<li>`, `<ul>`, `<br>` or one of their closing tags. -/
theorem processMessageContent_markup (content : String) :
    ('<' ∉ (escapeHtml content).data ∧ '>' ∉ (escapeHtml content).data) ∧
    (∀ pre post : List Char, (processMessageContent content).data = pre ++ '<' :: post →
      ∃ t ∈ insertedTags, t.isPrefixOf ('<' :: post) = true) := by
  refine ⟨escapeHtmlChars_no_angle content.data, ?_⟩
  have h0 : tagSafe (escapeHtmlChars content.data) = true :=
    tagSafe_of_no_lt _ (escapeHtmlChars_no_angle content.data).1
  have h1 := fenceCode_safe _ false 0 _ (Nat.le_refl _) h0
  have h2 := inlineCode_safe _ false _ (Nat.le_refl _) h1
  have h3 := boldText_safe _ false 0 _ (Nat.le_refl _) h2
  have h4 := listItems_safe _ true false 0 _ (Nat.le_refl _) h3
  have h5 := wrapList_safe _ _ (Nat.le_refl _) h4
  have h6 := lineBreaks_safe _ _ (Nat.le_refl _) h5
  exact tagSafe_occurrence _ h6
/-- Every request function either returns at its guard, leaving the page as it
is, or ends with `setProcessingState(false)`. -/
theorem runAction_guard_or_done (fetch : Client → Request → FetchResult) (action : ClientAction)
    (st : Client) :
    runAction fetch action st = st ∨ (runAction fetch action st).isProcessing = false := by
  cases action with
  | sendChatMessage =>
    simp only [runAction, sendChatMessage]
    split
    · exact Or.inl rfl
    · exact Or.inr rfl
  | getSubjectHelp =>
    simp only [runAction, getSubjectHelp]
    split
    · exact Or.inl rfl
    · exact Or.inr rfl
  | solveProblem =>
    simp only [runAction, clientSolveProblem]
    split
    · exact Or.inl rfl
    · exact Or.inr rfl
  | checkWork =>
    simp only [runAction, clientCheckWork]
    split
    · exact Or.inl rfl
    · exact Or.inr rfl
  | generateProblems =>
    simp only [runAction, clientGenerateProblems]
    split
    · exact Or.inl rfl
    · exact Or.inr rfl
  | performCalculation =>
    simp only [runAction, performCalculation]
    split
    · exact Or.inl rfl
    · exact Or.inr rfl
  | handleFileUpload file =>
    exact Or.inr rfl
  | analyzeUploadedFile =>
    simp only [runAction, analyzeUploadedFile]
    split
    · exact Or.inl rfl
    · exact Or.inr rfl

/-- Claim C20: `sendChatMessage` sends no request and adds nothing to the
chat when the trimmed input is empty or `isProcessing` is true; and whenever
one of the eight request functions sends a request, `isProcessing` is false
when the function has completed, whatever the outcome of the request. -/
theorem client_processing_state (fetch : Client → Request → FetchResult) (st : Client) :
    ((jsTrim (st.values "chatInput") = "" ∨ st.isProcessing = true) →
      sendChatMessage fetch st = st ∧
      (sendChatMessage fetch st).requests = st.requests ∧
      (sendChatMessage fetch st).chatMessages = st.chatMessages) ∧
    (∀ action : ClientAction,
      (runAction fetch action st).requests ≠ st.requests →
      (runAction fetch action st).isProcessing = false) := by
  refine ⟨?_, ?_⟩
  · intro h
    have hrun : sendChatMessage fetch st = st := by
      simp only [sendChatMessage]
      rw [if_pos h]
    rw [hrun]
    exact ⟨rfl, rfl, rfl⟩
  · intro action hsent
    rcases runAction_guard_or_done fetch action st with h | h
    · rw [h] at hsent
      exact absurd rfl hsent
    · exact h

/-- Witness for `client_processing_state`: a chat message sent to a server
that answers with an error status. -/
theorem client_processing_state_witness :
    (runAction failingFetch .sendChatMessage idleClient).isProcessing = false :=
  (client_processing_state failingFetch idleClient).2 .sendChatMessage (by decide)

/-- Witness for `processMessageContent_markup`: markup in the input is
escaped. -/
theorem processMessageContent_markup_witness :
    '<' ∉ (escapeHtml "<script>alert(1)</script>").data ∧
      '>' ∉ (escapeHtml "<script>alert(1)</script>").data :=
  (processMessageContent_markup "<script>alert(1)</script>").1

/-! ## Defaults of the practice-problem generator -/

/-- The request that `/generate-problems` sends upstream and the response it
derives from the outcome of the call. -/
theorem generateProblems_request (env : Env) (body : String → JVal) (w : World) :
    ∃ req : ChatRequest,
      req.messages =
        [ { role := "system", content := .str PROBLEM_SOLVER_PROMPT },
          { role := "user",
            content := .str
              ("Generate " ++ ((body "count").orElse (.num 3)).toStr ++
                " practice problems for " ++ (body "subject").toStr ++ " - " ++
                (body "topic").toStr ++ " at " ++
                ((body "difficulty").orElse (.str "beginner")).toStr ++ " level.\n\n" ++
                "For each problem, provide:\n" ++
                "1. A clear problem statement with given values\n" ++
                "2. What needs to be found\n" ++
                "3. Difficulty level indicators\n" ++
                "4. Brief solution approach (without full solution)\n\n" ++
                "Make problems realistic and relevant to Virginia Tech mechanical engineering curriculum.\n" ++
                "Include proper units and realistic numerical values.\n" ++
                "Problems should build understanding of key concepts.") } ] ∧
      generateProblems env body w =
        ((match env.chatCreate w req with
          | .ok c =>
            match c.content with
            | .ok x =>
              { status := 200,
                body := .json
                  [ ("problems", x),
                    ("subject", body "subject"),
                    ("topic", body "topic"),
                    ("difficulty", (body "difficulty").orElse (.str "beginner")) ] }
            | .error _ =>
              { status := 500, body := .json [("error", .str "Failed to generate practice problems")] }
          | .error _ =>
            { status := 500, body := .json [("error", .str "Failed to generate practice problems")] }),
          logCall (.chatCreate req) w) := by
  simp only [generateProblems, respond_chatCreate]
  generalize hreq : ChatRequest.mk _ _ _ = req
  refine ⟨req, ?_, rfl⟩
  rw [← hreq]
  simp [String.append_assoc]

/-- The text that a template literal gives to `count || 3`. -/
theorem count_orElse_toStr (count : JVal) :
    (count.orElse (.num 3)).toStr = (if count.truthy then count.toStr else "3") := by
  unfold JVal.orElse
  cases count.truthy
  · simp only [Bool.false_eq_true, if_false]; decide
  · simp

/-! ## Runs of the extraction cases -/

/-- The handler of `POST /file` answers the outcome of its switch. -/
theorem postFile_fileAnswer (env : Env) (file : ReqFile) (w : World) :
    postFile env (some file) w = fileAnswer file (extractSwitch env file.path file.mimetype w) := by
  rw [postFile_eq]
  rcases extractSwitch env file.path file.mimetype w with ⟨r, w1⟩
  cases r with
  | ok a => rfl
  | error e => rfl

/-- The run of the PDF case on a stored file. -/
theorem pdfCase_run (env : Env) (p bytes : String) (w : World) (hfile : w.files p = some bytes) :
    pdfCase env p w =
      match env.pdfParse (logCall (.readFile p) w) bytes with
      | .ok text => (.ok (text, "PDF document"), logCall (.pdfParse bytes) (logCall (.readFile p) w))
      | .error message =>
        (.error ("Failed to extract PDF text: " ++ message),
          logCall (.pdfParse bytes) (logCall (.readFile p) w)) := by
  simp only [pdfCase, extractPDFText, bind, Eff.bind, Eff.tryCatch, readFileSync, callOut, pure,
    Eff.pure, Eff.throw, hfile]
  cases env.pdfParse (logCall (.readFile p) w) bytes <;> rfl

/-- The run of a case that starts with a read, on a missing file. -/
theorem readFileSync_missing (p : String) (w : World) (hfile : w.files p = none) :
    ∃ message, readFileSync p w = (.error message, logCall (.readFile p) w) := by
  simp only [readFileSync, callOut, hfile]
  exact ⟨_, rfl⟩

/-- The run of the PDF case on a missing file. -/
theorem pdfCase_missing (env : Env) (p : String) (w : World) (hfile : w.files p = none) :
    ∃ message, pdfCase env p w = (.error message, logCall (.readFile p) w) := by
  simp only [pdfCase, extractPDFText, bind, Eff.bind, Eff.tryCatch, readFileSync, callOut, pure,
    Eff.pure, Eff.throw, hfile]
  exact ⟨_, rfl⟩

/-- The run of the text case. -/
theorem textCase_run (p text : String) (w : World) (hfile : w.files p = some text) :
    textCase p w = (.ok (.str text, "text file"), logCall (.readFile p) w) := by
  simp only [textCase, bind, Eff.bind, readFileSync, callOut, pure, Eff.pure, hfile]

/-- The run of the text case on a missing file. -/
theorem textCase_missing (p : String) (w : World) (hfile : w.files p = none) :
    ∃ message, textCase p w = (.error message, logCall (.readFile p) w) := by
  simp only [textCase, bind, Eff.bind, readFileSync, callOut, pure, Eff.pure, hfile]
  exact ⟨_, rfl⟩

/-- The run of the image case on a stored file. -/
theorem imageCase_run (env : Env) (p m bytes : String) (w : World)
    (hfile : w.files p = some bytes) :
    imageCase env p m w =
      match env.chatCreate (logCall (.readFile p) w) (visionRequest m (env.base64 bytes)) with
      | .ok completion =>
        match completion.content with
        | .ok text =>
          (.ok (text, "image analysis"),
            logCall (.chatCreate (visionRequest m (env.base64 bytes))) (logCall (.readFile p) w))
        | .error message =>
          (.error message,
            logCall (.chatCreate (visionRequest m (env.base64 bytes))) (logCall (.readFile p) w))
      | .error message =>
        (.error message,
          logCall (.chatCreate (visionRequest m (env.base64 bytes))) (logCall (.readFile p) w)) := by
  simp only [imageCase, bind, Eff.bind, readFileSync, callOut, pure, Eff.pure, chatCreate,
    liftExcept, hfile, visionRequest]
  generalize ChatRequest.mk _ _ _ = req
  cases env.chatCreate (logCall (.readFile p) w) req with
  | error e => rfl
  | ok c =>
    simp only []
    cases c.content <;> rfl

/-- The run of the image case on a missing file. -/
theorem imageCase_missing (env : Env) (p m : String) (w : World) (hfile : w.files p = none) :
    ∃ message, imageCase env p m w = (.error message, logCall (.readFile p) w) := by
  simp only [imageCase, bind, Eff.bind, readFileSync, callOut, pure, Eff.pure, hfile]
  exact ⟨_, rfl⟩

/-- The run of the audio case. -/
theorem audioCase_run (env : Env) (p : String) (w : World) :
    audioCase env p w =
      match env.transcribe w p with
      | .ok text => (.ok (text, "audio transcript"), logCall (.transcribe p) w)
      | .error message =>
        (.error ("Failed to transcribe audio: " ++ message), logCall (.transcribe p) w) := by
  simp only [audioCase, bind, Eff.bind, transcribeAudio, Eff.tryCatch, callOut, pure, Eff.pure,
    Eff.throw]
  cases env.transcribe w p <;> rfl

/-- The run of the video case: the transcoder run, the transcription of the
audio file and, after a transcription that returns, the removal of the audio
file. -/
theorem videoCase_run (env : Env) (p : String) (w : World) :
    videoCase env p w =
      match transcoderRun env w p (audioPathOf p) with
      | .error message => (.error message, logCall (.ffmpeg p (audioPathOf p)) w)
      | .ok audio =>
        match env.transcribe (afterTranscoding w p (audioPathOf p) audio) (audioPathOf p) with
        | .error message =>
          (.error ("Failed to transcribe audio: " ++ message),
            logCall (.transcribe (audioPathOf p)) (afterTranscoding w p (audioPathOf p) audio))
        | .ok text =>
          (.ok (text, "video transcript"),
            { files := fun q => if q = audioPathOf p then none else
                (afterTranscoding w p (audioPathOf p) audio).files q,
              calls := w.calls ++
                [.ffmpeg p (audioPathOf p), .transcribe (audioPathOf p), .unlink (audioPathOf p)] }) := by
  simp only [videoCase, bind, Eff.bind, extractAudioFromVideo, transcribeAudio, Eff.tryCatch,
    callOut, pure, Eff.pure, Eff.throw, audioPathOf, afterTranscoding]
  cases transcoderRun env w p (replaceFirst p (extname p) ".mp3") with
  | error e => rfl
  | ok audio =>
    simp only []
    cases env.transcribe _ (replaceFirst p (extname p) ".mp3") with
    | error e => rfl
    | ok t =>
      simp only [unlinkSync, logCall, if_true]
      simp

/-! ## The extracted content and the stored upload -/

/-- Claim C3, amended: whatever the upload, the `/file` handler answers with
its error response or with a success response, and a success response carries
as `extractedContent` exactly the value its extraction source returned: the
text of the PDF parser, the contents of the stored text file, the content of
the vision completion, or the text of the transcription service.  Nothing
tests that value for emptiness, so it is empty exactly when the source
returned empty text.  A supported type that has no case (the two Word types)
is always answered with the error response. -/
theorem postFile_returns_source_content (env : Env) (file : ReqFile) (w : World) :
    (file.mimetype = "application/pdf" → ∀ bytes, w.files file.path = some bytes →
      (postFile env (some file) w).1 =
        match env.pdfParse (logCall (.readFile file.path) w) bytes with
        | .ok text => fileResponse file "PDF document" text
        | .error message => fileErrorResponse ("Failed to extract PDF text: " ++ message)) ∧
    (file.mimetype = "text/plain" → ∀ text, w.files file.path = some text →
      (postFile env (some file) w).1 = fileResponse file "text file" (.str text)) ∧
    (startsWith file.mimetype "image/" = true → ∀ bytes, w.files file.path = some bytes →
      (postFile env (some file) w).1 =
        match env.chatCreate (logCall (.readFile file.path) w)
            (visionRequest file.mimetype (env.base64 bytes)) with
        | .ok completion =>
          match completion.content with
          | .ok text => fileResponse file "image analysis" text
          | .error message => fileErrorResponse message
        | .error message => fileErrorResponse message) ∧
    (startsWith file.mimetype "video/" = true →
      (postFile env (some file) w).1 =
        match transcoderRun env w file.path (audioPathOf file.path) with
        | .error message => fileErrorResponse message
        | .ok audio =>
          match env.transcribe (afterTranscoding w file.path (audioPathOf file.path) audio)
              (audioPathOf file.path) with
          | .ok text => fileResponse file "video transcript" text
          | .error message => fileErrorResponse ("Failed to transcribe audio: " ++ message)) ∧
    (startsWith file.mimetype "audio/" = true →
      (postFile env (some file) w).1 =
        match env.transcribe w file.path with
        | .ok text => fileResponse file "audio transcript" text
        | .error message => fileErrorResponse ("Failed to transcribe audio: " ++ message)) ∧
    ((file.mimetype = "application/msword" ∨
        file.mimetype =
          "application/vnd.openxmlformats-officedocument.wordprocessingml.document") →
      (postFile env (some file) w).1 =
        fileErrorResponse "Unsupported file type for content extraction") ∧
    ((file.mimetype = "application/pdf" ∨ file.mimetype = "text/plain" ∨
        startsWith file.mimetype "image/" = true) →
      w.files file.path = none →
      ∃ details, (postFile env (some file) w).1 = fileErrorResponse details) ∧
    (fileFilter file.mimetype = .ok true →
      file.mimetype = "application/pdf" ∨ file.mimetype = "text/plain" ∨
        startsWith file.mimetype "image/" = true ∨ startsWith file.mimetype "video/" = true ∨
        startsWith file.mimetype "audio/" = true ∨ file.mimetype = "application/msword" ∨
        file.mimetype =
          "application/vnd.openxmlformats-officedocument.wordprocessingml.document") ∧
    ((∃ details, (postFile env (some file) w).1 = fileErrorResponse details) ∨
      (∃ extractedContent, (postFile env (some file) w).1 =
        fileResponse file (contentTypeOf file.mimetype) extractedContent)) := by
  have hd := extractSwitch_branches env file.path file.mimetype
  refine ⟨?_, ?_, ?_, ?_, ?_, ?_, ?_, ?_, ?_⟩
  · intro hm bytes hfile
    rw [postFile_fileAnswer, hd.1 hm, pdfCase_run env _ bytes w hfile]
    cases env.pdfParse (logCall (.readFile file.path) w) bytes <;> rfl
  · intro hm text hfile
    rw [postFile_fileAnswer, hd.2.1 hm, textCase_run _ text w hfile]
    rfl
  · intro hm bytes hfile
    rw [postFile_fileAnswer, hd.2.2.1 hm, imageCase_run env _ _ bytes w hfile]
    cases env.chatCreate (logCall (.readFile file.path) w)
        (visionRequest file.mimetype (env.base64 bytes)) with
    | error e => rfl
    | ok c =>
      simp only []
      cases c.content <;> rfl
  · intro hm
    rw [postFile_fileAnswer, hd.2.2.2.1 hm, videoCase_run]
    cases transcoderRun env w file.path (audioPathOf file.path) with
    | error e => rfl
    | ok audio =>
      simp only []
      cases env.transcribe (afterTranscoding w file.path (audioPathOf file.path) audio)
        (audioPathOf file.path) <;> rfl
  · intro hm
    rw [postFile_fileAnswer, hd.2.2.2.2.1 hm, audioCase_run]
    cases env.transcribe w file.path <;> rfl
  · intro hword
    rw [postFile_fileAnswer]
    rcases hword with h | h <;> rw [h] <;>
      rw [(extractSwitch_branches env file.path _).2.2.2.2.2 (by decide) (by decide)
        (by decide) (by decide) (by decide)] <;> rfl
  · intro hm hfile
    rw [postFile_fileAnswer]
    rcases hm with h | h | h
    · obtain ⟨message, hrun⟩ := pdfCase_missing env file.path w hfile
      rw [hd.1 h, hrun]
      exact ⟨message, rfl⟩
    · obtain ⟨message, hrun⟩ := textCase_missing file.path w hfile
      rw [hd.2.1 h, hrun]
      exact ⟨message, rfl⟩
    · obtain ⟨message, hrun⟩ := imageCase_missing env file.path file.mimetype w hfile
      rw [hd.2.2.1 h, hrun]
      exact ⟨message, rfl⟩
  · intro haccept
    have hmem := (fileFilter_ok_iff file.mimetype).mp haccept
    simp only [allowedTypes, List.contains_eq_any_beq, List.any_cons, List.any_nil, Bool.or_false,
      Bool.or_eq_true, beq_iff_eq] at hmem
    rcases hmem with h | h | h | h | h | h | h | h | h | h | h | h <;> rw [h] <;> decide
  · rw [postFile_eq]
    rcases hx : extractSwitch env file.path file.mimetype w with ⟨r, w1⟩
    cases r with
    | error e => exact Or.inl ⟨e, rfl⟩
    | ok a =>
      obtain ⟨v, ct⟩ := a
      have hct := extractSwitch_contentType env file.path file.mimetype w w1 v ct hx
      exact Or.inr ⟨v, by rw [hct]⟩

/-- Witness for `postFile_returns_source_content`: a stored text file is
answered with its contents. -/
theorem postFile_returns_source_content_witness :
    (postFile answeringEnv (some textReqFile) textWorld).1 =
      fileResponse textReqFile "text file" (.str "F = m a") :=
  (postFile_returns_source_content answeringEnv textReqFile textWorld).2.1 rfl "F = m a"
    (by decide)

/-- A transcoder run that ends well had different input and output paths. -/
theorem transcoderRun_ok_ne (env : Env) (w : World) (videoPath audioPath audio : String)
    (h : transcoderRun env w videoPath audioPath = .ok audio) : videoPath ≠ audioPath := by
  intro heq
  simp [transcoderRun, heq] at h

/-- A transcoder run in place ends with an error. -/
theorem transcoderRun_in_place (env : Env) (w : World) (path : String) :
    ∃ message, transcoderRun env w path path = .error message := by
  simp [transcoderRun]

/-- The calls added by a run that appends a list of calls. -/
theorem newCalls_append (w : World) (files : String → Option String) (cs : List Call) :
    newCalls w { files := files, calls := w.calls ++ cs } = cs := by
  simp [newCalls]

/-- The switch of the `/file` handler leaves the file at `p` as it was, and the
only path it unlinks is the audio path, which is then different from `p`. -/
theorem extractSwitch_keeps_upload (env : Env) (p m : String) (w : World) :
    (extractSwitch env p m w).2.files p = w.files p ∧
    (∀ q, Call.unlink q ∈ newCalls w (extractSwitch env p m w).2 →
      q = audioPathOf p ∧ q ≠ p) := by
  unfold extractSwitch
  split
  · -- pdf
    cases hfile : w.files p with
    | none =>
      obtain ⟨message, hrun⟩ := pdfCase_missing env p w hfile
      rw [hrun]
      exact ⟨hfile, by simp [newCalls_logCall]⟩
    | some bytes =>
      rw [pdfCase_run env p bytes w hfile]
      cases env.pdfParse (logCall (.readFile p) w) bytes <;>
        exact ⟨hfile, by simp [newCalls_logCall_two]⟩
  · split
    · -- text
      cases hfile : w.files p with
      | none =>
        obtain ⟨message, hrun⟩ := textCase_missing p w hfile
        rw [hrun]
        exact ⟨hfile, by simp [newCalls_logCall]⟩
      | some text =>
        rw [textCase_run p text w hfile]
        exact ⟨hfile, by simp [newCalls_logCall]⟩
    · split
      · -- image
        cases hfile : w.files p with
        | none =>
          obtain ⟨message, hrun⟩ := imageCase_missing env p m w hfile
          rw [hrun]
          exact ⟨hfile, by simp [newCalls_logCall]⟩
        | some bytes =>
          rw [imageCase_run env p m bytes w hfile]
          cases env.chatCreate (logCall (.readFile p) w) (visionRequest m (env.base64 bytes)) with
          | error e => exact ⟨hfile, by simp [newCalls_logCall_two]⟩
          | ok c =>
            simp only []
            cases c.content <;> exact ⟨hfile, by simp [newCalls_logCall_two]⟩
      · split
        · -- video
          rw [videoCase_run]
          cases hrun : transcoderRun env w p (audioPathOf p) with
          | error e => exact ⟨rfl, by simp [newCalls_logCall]⟩
          | ok audio =>
            have hne := transcoderRun_ok_ne env w p (audioPathOf p) audio hrun
            simp only []
            cases env.transcribe (afterTranscoding w p (audioPathOf p) audio) (audioPathOf p) with
            | error e =>
              refine ⟨by simp [logCall, afterTranscoding, hne], ?_⟩
              intro q hq
              simp [newCalls, logCall, afterTranscoding] at hq
            | ok text =>
              refine ⟨by simp [afterTranscoding, hne], ?_⟩
              intro q hq
              rw [newCalls_append] at hq
              simp at hq
              exact ⟨hq, fun h => hne (h.symm.trans hq)⟩
        · split
          · -- audio
            rw [audioCase_run]
            cases env.transcribe w p <;> exact ⟨rfl, by simp [newCalls_logCall]⟩
          · exact ⟨rfl, by simp [Eff.throw, newCalls]⟩

/-- Claim C5: whatever the MIME type and the name of an upload, the stored
file (`req.file.path`) is on disk with its contents when the `/file` handler
has finished, and the only path the handler unlinks is the audio path derived
from the stored path, which is then a different path.  (When the two paths
coincide, for a video whose name ends in `.mp3`, the transcoder refuses to run
in place and the handler answers with its error response before any unlink.)
The handler runs on the world the multer middleware leaves behind. -/
theorem stored_upload_persists (env : Env) (file : ReqFile) (w : World) (bytes : String)
    (hstored : w.files file.path = some bytes) :
    (postFile env (some file) w).2.files file.path = some bytes ∧
    (∀ p, Call.unlink p ∈ newCalls w (postFile env (some file) w).2 →
      p = audioPathOf file.path ∧ p ≠ file.path) ∧
    (audioPathOf file.path = file.path → startsWith file.mimetype "video/" = true →
      ∃ details, postFile env (some file) w =
        (fileErrorResponse details, logCall (.ffmpeg file.path file.path) w)) ∧
    (∀ part now random w0,
      uploadSingle "file" (some part) now random w0 = (.next (some file), w) →
      bytes = part.bytes ∧
      serveFile env (some part) now random w0 = postFile env (some file) w) := by
  have hkeep := extractSwitch_keeps_upload env file.path file.mimetype w
  have hworld : (postFile env (some file) w).2 =
      (extractSwitch env file.path file.mimetype w).2 := by
    rw [postFile_fileAnswer]
    rcases extractSwitch env file.path file.mimetype w with ⟨r, w1⟩
    cases r with
    | ok a => rfl
    | error e => rfl
  refine ⟨?_, ?_, ?_, ?_⟩
  · rw [hworld, hkeep.1, hstored]
  · rw [hworld]
    exact hkeep.2
  · intro hsame hvideo
    obtain ⟨message, hrun⟩ := transcoderRun_in_place env w file.path
    rw [postFile_fileAnswer, (extractSwitch_branches env file.path file.mimetype).2.2.2.1 hvideo,
      videoCase_run, hsame, hrun]
    exact ⟨message, rfl⟩
  · intro part now random w0 hupload
    have hserve : serveFile env (some part) now random w0 = postFile env (some file) w := by
      simp only [serveFile, hupload]
    refine ⟨?_, hserve⟩
    unfold uploadSingle at hupload
    simp only at hupload
    split at hupload
    · simp at hupload
    · split at hupload
      · simp at hupload
      · simp at hupload
      · split at hupload
        · simp at hupload
        · simp only [Prod.mk.injEq, MulterOutcome.next.injEq, Option.some.injEq] at hupload
          obtain ⟨hfile, hw⟩ := hupload
          rw [← hw, ← hfile] at hstored
          simpa using hstored.symm

/-- Witness for `stored_upload_persists`: a stored video upload whose name
ends in `.mp3`, so that the audio path is the stored path. -/
theorem stored_upload_persists_witness :
    mp3NamedVideoWorld.files mp3NamedVideoReqFile.path = some "mp4 bytes" ∧
    audioPathOf mp3NamedVideoReqFile.path = mp3NamedVideoReqFile.path ∧
    (postFile answeringEnv (some mp3NamedVideoReqFile) mp3NamedVideoWorld).2.files
      mp3NamedVideoReqFile.path = some "mp4 bytes" ∧
    (postFile answeringEnv (some mp3NamedVideoReqFile) mp3NamedVideoWorld).1.status = 500 ∧
    (serveFile answeringEnv (some mp3NamedVideoPart) 1 2 emptyWorld).2.files
      "uploads/file-1-2.mp3" = some "mp4 bytes" :=
  ⟨by decide, by decide,
    (stored_upload_persists answeringEnv mp3NamedVideoReqFile mp3NamedVideoWorld "mp4 bytes"
      (by decide)).1,
    by decide, by decide⟩

/-- The world that `fileAnswer` leaves is the world of the outcome. -/
theorem fileAnswer_world (file : ReqFile) (r : Except String (JVal × String) × World) :
    (fileAnswer file r).2 = r.2 := by
  rcases r with ⟨r, w⟩
  cases r with
  | ok a => rfl
  | error e => rfl

/-- Claim C17: an accepted upload below the size limit is stored and handed to
the route handler.  For the two Word types the switch reaches its default
branch: the answer is status 500 with `Failed to process file` and the details
`Unsupported file type for content extraction`, and no call is made.  For each
of the other ten accepted types the handler answers the run of one of the
five strategies on the stored file (PDF parsing, text read, vision call for
the three image types, transcoding and transcription for the three video
types, transcription for the two audio types), which makes at least one call;
so the Word types are exactly the accepted types answered without a call. -/
theorem accepted_types_reaching_default (env : Env) (part : FilePart) (now random : Nat)
    (w : World) (hfield : part.fieldname = "file") (hsize : part.size < fileSize)
    (haccept : fileFilter part.mimetype = .ok true) :
    ∃ (file : ReqFile) (w1 : World),
      uploadSingle "file" (some part) now random w = (.next (some file), w1) ∧
      file.path = storedPath part.originalname now random ∧
      file.mimetype = part.mimetype ∧
      w1.files file.path = some part.bytes ∧
      w1.calls = w.calls ∧
      ((part.mimetype = "application/msword" ∨
          part.mimetype =
            "application/vnd.openxmlformats-officedocument.wordprocessingml.document") →
        serveFile env (some part) now random w =
          (fileErrorResponse "Unsupported file type for content extraction", w1)) ∧
      (part.mimetype = "application/pdf" →
        serveFile env (some part) now random w = fileAnswer file (pdfCase env file.path w1)) ∧
      (part.mimetype = "text/plain" →
        serveFile env (some part) now random w = fileAnswer file (textCase file.path w1)) ∧
      ((part.mimetype = "image/jpeg" ∨ part.mimetype = "image/png" ∨
          part.mimetype = "image/gif") →
        serveFile env (some part) now random w =
          fileAnswer file (imageCase env file.path part.mimetype w1)) ∧
      ((part.mimetype = "video/mp4" ∨ part.mimetype = "video/avi" ∨
          part.mimetype = "video/quicktime") →
        serveFile env (some part) now random w = fileAnswer file (videoCase env file.path w1)) ∧
      ((part.mimetype = "audio/mpeg" ∨ part.mimetype = "audio/wav") →
        serveFile env (some part) now random w = fileAnswer file (audioCase env file.path w1)) ∧
      (newCalls w (serveFile env (some part) now random w).2 = [] ↔
        (part.mimetype = "application/msword" ∨
          part.mimetype =
            "application/vnd.openxmlformats-officedocument.wordprocessingml.document")) := by
  have hup := uploadSingle_accepts part now random w hfield hsize haccept
  generalize hfile : ReqFile.mk "file" part.originalname part.mimetype _ _ part.size = file at hup
  generalize hw1 : World.mk _ _ = w1 at hup
  have hpath : file.path = storedPath part.originalname now random := by rw [← hfile]; rfl
  have hmime : file.mimetype = part.mimetype := by rw [← hfile]
  have hcalls : w1.calls = w.calls := by rw [← hw1]
  have hstored : w1.files file.path = some part.bytes := by
    rw [← hw1, ← hfile]; simp
  have hserve : serveFile env (some part) now random w =
      fileAnswer file (extractSwitch env file.path part.mimetype w1) := by
    simp only [serveFile, hup]
    rw [postFile_fileAnswer, hmime]
  have hd := extractSwitch_branches env file.path part.mimetype
  have hword : (part.mimetype = "application/msword" ∨
      part.mimetype =
        "application/vnd.openxmlformats-officedocument.wordprocessingml.document") →
      serveFile env (some part) now random w =
        (fileErrorResponse "Unsupported file type for content extraction", w1) := by
    intro h
    rw [hserve]
    rcases h with h | h <;> rw [h] <;>
      rw [(extractSwitch_branches env file.path _).2.2.2.2.2 (by decide) (by decide)
        (by decide) (by decide) (by decide)] <;> rfl
  have hpdf : part.mimetype = "application/pdf" →
      serveFile env (some part) now random w = fileAnswer file (pdfCase env file.path w1) := by
    intro h; rw [hserve, hd.1 h]
  have htext : part.mimetype = "text/plain" →
      serveFile env (some part) now random w = fileAnswer file (textCase file.path w1) := by
    intro h; rw [hserve, hd.2.1 h]
  have himage : (part.mimetype = "image/jpeg" ∨ part.mimetype = "image/png" ∨
      part.mimetype = "image/gif") →
      serveFile env (some part) now random w =
        fileAnswer file (imageCase env file.path part.mimetype w1) := by
    intro h
    rw [hserve, hd.2.2.1 (by rcases h with h | h | h <;> rw [h] <;> decide)]
  have hvideo : (part.mimetype = "video/mp4" ∨ part.mimetype = "video/avi" ∨
      part.mimetype = "video/quicktime") →
      serveFile env (some part) now random w = fileAnswer file (videoCase env file.path w1) := by
    intro h
    rw [hserve, hd.2.2.2.1 (by rcases h with h | h | h <;> rw [h] <;> decide)]
  have haudio : (part.mimetype = "audio/mpeg" ∨ part.mimetype = "audio/wav") →
      serveFile env (some part) now random w = fileAnswer file (audioCase env file.path w1) := by
    intro h
    rw [hserve, hd.2.2.2.2.1 (by rcases h with h | h <;> rw [h] <;> decide)]
  have hlonger : ∀ w2 : World, w1.calls.length < w2.calls.length → newCalls w w2 ≠ [] := by
    intro w2 h
    exact newCalls_ne_nil w w2 (by rw [← hcalls]; exact h)
  refine ⟨file, w1, hup, hpath, hmime, hstored, hcalls, hword, hpdf, htext, himage, hvideo,
    haudio, ?_⟩
  have hmem := (fileFilter_ok_iff part.mimetype).mp haccept
  simp only [allowedTypes, List.contains_eq_any_beq, List.any_cons, List.any_nil, Bool.or_false,
    Bool.or_eq_true, beq_iff_eq] at hmem
  constructor
  · intro hnil
    by_contra hnot
    have hcase : newCalls w (serveFile env (some part) now random w).2 ≠ [] := by
      rcases hmem with h | h | h | h | h | h | h | h | h | h | h | h
      · rw [hpdf h, fileAnswer_world]; exact hlonger _ (pdfCase_calls env _ w1)
      · rw [htext h, fileAnswer_world]; exact hlonger _ (textCase_calls _ w1)
      · exact absurd (Or.inl h) hnot
      · exact absurd (Or.inr h) hnot
      · rw [himage (Or.inl h), fileAnswer_world]; exact hlonger _ (imageCase_calls env _ _ w1)
      · rw [himage (Or.inr (Or.inl h)), fileAnswer_world]
        exact hlonger _ (imageCase_calls env _ _ w1)
      · rw [himage (Or.inr (Or.inr h)), fileAnswer_world]
        exact hlonger _ (imageCase_calls env _ _ w1)
      · rw [hvideo (Or.inl h), fileAnswer_world]; exact hlonger _ (videoCase_calls env _ w1)
      · rw [hvideo (Or.inr (Or.inl h)), fileAnswer_world]
        exact hlonger _ (videoCase_calls env _ w1)
      · rw [hvideo (Or.inr (Or.inr h)), fileAnswer_world]
        exact hlonger _ (videoCase_calls env _ w1)
      · rw [haudio (Or.inl h), fileAnswer_world]; exact hlonger _ (audioCase_calls env _ w1)
      · rw [haudio (Or.inr h), fileAnswer_world]; exact hlonger _ (audioCase_calls env _ w1)
    exact hcase hnil
  · intro h
    rw [hword h]
    simp [newCalls, hcalls]

/-- Witness for `accepted_types_reaching_default`: a Word upload is stored and
answered with the error of the default branch, without a call. -/
theorem accepted_types_reaching_default_witness :
    (serveFile answeringEnv (some wordPart) 1 2 emptyWorld).1 =
      { status := 500,
        body := .json
          [ ("error", .str "Failed to process file"),
            ("details", .str "Unsupported file type for content extraction") ] } ∧
    (serveFile answeringEnv (some wordPart) 1 2 emptyWorld).2.files
      (storedPath wordPart.originalname 1 2) = some wordPart.bytes ∧
    newCalls emptyWorld (serveFile answeringEnv (some wordPart) 1 2 emptyWorld).2 = [] := by
  obtain ⟨file, w1, _, hpath, _, hstored, _, hword, _, _, _, _, _, hcalls⟩ :=
    accepted_types_reaching_default answeringEnv wordPart 1 2 emptyWorld rfl (by decide)
      (by decide)
  refine ⟨?_, ?_, hcalls.mpr (Or.inl rfl)⟩
  · rw [hword (Or.inl rfl)]
    rfl
  · rw [hword (Or.inl rfl), ← hpath]
    exact hstored

/-! ## Invocations of the client and HTTP requests -/

/-- The last request of an invocation: no retry follows. -/
theorem makeRequest_last (upstream : Nat → Attempt) (sent : Nat) :
    (makeRequest upstream sent 0).2 = sent + 1 := by
  simp only [makeRequest]
  cases upstream sent with
  | failed message => rfl
  | response status header completion message =>
    simp only []
    split <;> rfl

/-- One step of `makeRequest` while retries remain: a retryable request is
followed by another request, any other request is the last one. -/
theorem makeRequest_step (upstream : Nat → Attempt) (sent r : Nat) :
    makeRequest upstream sent (r + 1) =
      if (upstream sent).retryable then makeRequest upstream (sent + 1) r
      else makeRequest upstream sent 0 := by
  simp only [makeRequest]
  cases upstream sent with
  | failed message => simp [Attempt.retryable]
  | response status header completion message =>
    simp only [Attempt.retryable]
    by_cases hok : 200 ≤ status ∧ status < 300
    · simp [hok]
    · cases hretry : shouldRetry status header <;> simp [hok, hretry]

/-- The number of HTTP requests of one invocation of the client: one more than
the number of leading retryable requests, and at most three. -/
theorem requestsSent_eq (upstream : World → ChatRequest → Nat → Attempt) (w : World)
    (req : ChatRequest) :
    requestsSent upstream w req =
      if (upstream w req 0).retryable then
        if (upstream w req 1).retryable then 3 else 2
      else 1 := by
  unfold requestsSent maxRetries
  rw [makeRequest_step]
  cases h0 : (upstream w req 0).retryable
  · simp [makeRequest_last]
  · simp only [if_true]
    rw [makeRequest_step]
    cases h1 : (upstream w req 1).retryable
    · simp [makeRequest_last]
    · simp [makeRequest_last]

/-- An invocation of the client sends between one and three HTTP requests. -/
theorem requestsSent_bounds (upstream : World → ChatRequest → Nat → Attempt) (w : World)
    (req : ChatRequest) :
    1 ≤ requestsSent upstream w req ∧ requestsSent upstream w req ≤ maxRetries + 1 := by
  rw [requestsSent_eq]
  unfold maxRetries
  split
  · split <;> omega
  · omega

/-- Claim C13, counterexample: one `/chat` request against an upstream that
answers every HTTP request with status 429 makes one invocation of the
client, and the client sends three HTTP requests for it (the failed request is
retried twice) before the handler answers with status 500. -/
theorem chat_rate_limited_sends_three_requests :
    ∃ req : ChatRequest,
      newCalls emptyWorld
          (chat (clientEnv answeringEnv rateLimitedUpstream) emptyBody emptyWorld).2 =
        [.chatCreate req] ∧
      requestsSent rateLimitedUpstream emptyWorld req = 3 ∧
      (chat (clientEnv answeringEnv rateLimitedUpstream) emptyBody emptyWorld).1 =
        { status := 500, body := .json [("error", .str "Failed to get response from AI tutor")] } := by
  obtain ⟨req, k, _, hrun⟩ :=
    prompt_handler_outcome (clientEnv answeringEnv rateLimitedUpstream) .chat emptyBody emptyWorld
      (by decide)
  simp only [serveJson] at hrun
  refine ⟨req, ?_, rfl, ?_⟩
  · rw [hrun, newCalls_logCall]
  · rw [hrun]
    rfl

/-- Claim C13, amended: a `/chat` request whose `subject` and `context` are
primitive values makes exactly one invocation of the client's completion
method, whatever the world it runs in and whether or not the invocation fails;
two identical requests in a row make two invocations with the same request
(nothing is cached or deduplicated), and the handler itself repeats nothing.
The client, built without `maxRetries`, sends one HTTP request more than the
number of leading retryable requests, and at most three: a failed request is
retried up to twice.  When the invocation fails in the end the handler answers
with status 500. -/
theorem chat_one_invocation_with_retries (env : Env)
    (upstream : World → ChatRequest → Nat → Attempt) (body : String → JVal) (w : World) :
    (body "subject").primitive = true → (body "context").primitive = true →
    ∃ req : ChatRequest,
      newCalls w (chat (clientEnv env upstream) body w).2 = [.chatCreate req] ∧
      newCalls w
          (chat (clientEnv env upstream) body (chat (clientEnv env upstream) body w).2).2 =
        [.chatCreate req, .chatCreate req] ∧
      completionCalls (newCalls w (chat (clientEnv env upstream) body w).2) = 1 ∧
      requestsSent upstream w req =
        (if (upstream w req 0).retryable then
          if (upstream w req 1).retryable then 3 else 2
        else 1) ∧
      1 ≤ requestsSent upstream w req ∧
      requestsSent upstream w req ≤ 3 ∧
      (∀ message, openaiCreate upstream w req = .error message →
        (chat (clientEnv env upstream) body w).1 =
          { status := 500,
            body := .json [("error", .str "Failed to get response from AI tutor")] }) := by
  intro _ _
  have hrun : ∃ (req : ChatRequest) (k : JVal → Completion → Response),
      ∀ w1 : World, chat (clientEnv env upstream) body w1 =
        ((match openaiCreate upstream w1 req with
          | .ok c =>
            match c.content with
            | .ok x => k x c
            | .error _ =>
              { status := 500,
                body := .json [("error", .str "Failed to get response from AI tutor")] }
          | .error _ =>
            { status := 500,
              body := .json [("error", .str "Failed to get response from AI tutor")] }),
          logCall (.chatCreate req) w1) := by
    simp only [chat, respond_chatCreate]
    exact ⟨_, _, fun _ => rfl⟩
  obtain ⟨req, k, hreq⟩ := hrun
  have hbounds := requestsSent_bounds upstream w req
  refine ⟨req, ?_, ?_, ?_, requestsSent_eq upstream w req, hbounds.1, hbounds.2, ?_⟩
  · rw [hreq, newCalls_logCall]
  · rw [hreq, hreq, newCalls_logCall_two]
  · rw [hreq, newCalls_logCall]; rfl
  · intro message hfail
    rw [hreq, hfail]

/-- Witness for `chat_one_invocation_with_retries`: a `/chat` request with a
subject and a context against an upstream that answers the first HTTP
request. -/
theorem chat_one_invocation_with_retries_witness :
    ∃ req : ChatRequest,
      newCalls emptyWorld
          (chat (clientEnv answeringEnv answeringUpstream) subjectContextBody emptyWorld).2 =
        [.chatCreate req] ∧
      requestsSent answeringUpstream emptyWorld req = 1 := by
  obtain ⟨req, hcalls, _, _, hsent, _, _, _⟩ :=
    chat_one_invocation_with_retries answeringEnv answeringUpstream subjectContextBody emptyWorld
      (by decide) (by decide)
  exact ⟨req, hcalls, by rw [hsent]; rfl⟩

/-- Claim C9, amended: the prompt endpoints do not validate required fields.
For every request body whose fields are absent or primitive values, a missing
required field included, each endpoint other than `/calculate` makes exactly
one invocation of the client's completion method and answers 200 or 500,
never 400; `/calculate` answers 400 exactly when the evaluator rejects the
expression.  An invocation of the client stands for one to three HTTP
requests. -/
theorem prompt_endpoints_do_not_validate (env : Env) (e : Endpoint) (body : String → JVal)
    (w : World) :
    (∀ field, (body field).primitive = true) →
    (e ≠ .calculate →
      (∃ req, newCalls w (serveJson env e body w).2 = [.chatCreate req]) ∧
      completionCalls (newCalls w (serveJson env e body w).2) = 1 ∧
      ((serveJson env e body w).1.status = 200 ∨ (serveJson env e body w).1.status = 500)) ∧
    (e = .calculate →
      ((serveJson env e body w).1.status = 400 ↔
        ∃ message, env.mathEvaluate w (body "expression") = .error message)) ∧
    (∀ (upstream : World → ChatRequest → Nat → Attempt) (w0 : World) (req : ChatRequest),
      1 ≤ requestsSent upstream w0 req ∧ requestsSent upstream w0 req ≤ 3) := by
  intro _
  refine ⟨?_, ?_, requestsSent_bounds⟩
  · intro he
    obtain ⟨⟨req, hreq⟩, hstatus⟩ := prompt_handler_run env e body w he
    refine ⟨⟨req, ?_⟩, ?_, hstatus⟩
    · rw [hreq, newCalls_logCall]
    · rw [hreq, newCalls_logCall]
      rfl
  · intro he
    subst he
    show (calculate env body w).1.status = 400 ↔ _
    cases h : env.mathEvaluate w (body "expression") with
    | error message =>
      rw [calculate_of_error env body w message h]
      exact ⟨fun _ => ⟨message, rfl⟩, fun _ => rfl⟩
    | ok result =>
      obtain ⟨req, _, hresp⟩ := calculate_of_ok env body w result h
      rw [hresp]
      constructor
      · intro hs
        exfalso
        revert hs
        cases env.chatCreate (logCall (.mathEvaluate (body "expression")) w) req with
        | error e => simp
        | ok c =>
          simp only []
          cases c.content with
          | error e => simp
          | ok x => simp
      · rintro ⟨message, hm⟩
        cases hm

/-- Witness for `prompt_endpoints_do_not_validate`: a `/solve-problem` request
without any field. -/
theorem prompt_endpoints_do_not_validate_witness :
    (∃ req, newCalls emptyWorld (serveJson answeringEnv .solveProblem emptyBody emptyWorld).2 =
      [.chatCreate req]) ∧
    completionCalls
      (newCalls emptyWorld (serveJson answeringEnv .solveProblem emptyBody emptyWorld).2) = 1 ∧
    ((serveJson answeringEnv .solveProblem emptyBody emptyWorld).1.status = 200 ∨
      (serveJson answeringEnv .solveProblem emptyBody emptyWorld).1.status = 500) :=
  (prompt_endpoints_do_not_validate answeringEnv .solveProblem emptyBody emptyWorld
    (fun _ => rfl)).1 (by decide)

/-- Claim C11, amended: for a request body whose fields are absent or
primitive values, every prompt endpoint (`/calculate` after an evaluation that
returns a primitive value) makes one invocation of the client's completion
method.  If that invocation throws, or the read of
`completion.choices[0].message.content` throws because `choices` is missing or
empty or its first element has no `message`, the handler answers with status
500 and a body holding only the fixed error string of that endpoint.  In every
other case, also when the content read is `undefined`, it answers with status
200. -/
theorem completion_failure_fixed_500 (env : Env) (e : Endpoint) (body : String → JVal)
    (w : World) :
    (∀ field, (body field).primitive = true) →
    (e = .calculate →
      ∃ result, env.mathEvaluate w (body "expression") = .ok result ∧
        result.primitive = true) →
    ∃ (req : ChatRequest) (w0 : World),
      (serveJson env e body w).2 = logCall (.chatCreate req) w0 ∧
      (completionThrows (env.chatCreate w0 req) = true →
        (serveJson env e body w).1 =
          { status := 500, body := .json [("error", .str e.errorMessage)] }) ∧
      (completionThrows (env.chatCreate w0 req) = false →
        (serveJson env e body w).1.status = 200) := by
  intro _ hevaluate
  by_cases he : e = .calculate
  · obtain ⟨result, hresult, _⟩ := hevaluate he
    subst he
    obtain ⟨req, hworld, hresp⟩ := calculate_of_ok env body w result hresult
    refine ⟨req, _, hworld, ?_, ?_⟩
    · intro hthrows
      show (calculate env body w).1 = _
      rw [hresp]
      exact outcome_of_completionThrows _ _ _ hthrows
    · intro hok
      show (calculate env body w).1.status = 200
      rw [hresp]
      exact outcome_of_completion_ok _ _ _ (fun _ _ => rfl) hok
  · obtain ⟨req, k, hk, hrun⟩ := prompt_handler_outcome env e body w he
    refine ⟨req, w, by rw [hrun], ?_, ?_⟩
    · intro hthrows
      rw [hrun]
      exact outcome_of_completionThrows _ _ _ hthrows
    · intro hok
      rw [hrun]
      exact outcome_of_completion_ok _ _ _ hk hok

/-- Witness for `completion_failure_fixed_500`: `/calculate` on `2+2`, which
the evaluator accepts, with a completion API that throws. -/
theorem completion_failure_fixed_500_witness :
    ∃ (req : ChatRequest) (w0 : World),
      (serveJson failingCompletionEnv .calculate twoPlusTwoBody emptyWorld).2 =
        logCall (.chatCreate req) w0 ∧
      (completionThrows (failingCompletionEnv.chatCreate w0 req) = true →
        (serveJson failingCompletionEnv .calculate twoPlusTwoBody emptyWorld).1 =
          { status := 500, body := .json [("error", .str Endpoint.calculate.errorMessage)] }) ∧
      (completionThrows (failingCompletionEnv.chatCreate w0 req) = false →
        (serveJson failingCompletionEnv .calculate twoPlusTwoBody emptyWorld).1.status = 200) :=
  completion_failure_fixed_500 failingCompletionEnv .calculate twoPlusTwoBody emptyWorld
    (fun field => by unfold twoPlusTwoBody; split <;> rfl)
    (fun _ => ⟨.num 4, by decide, by decide⟩)

/-! ## The practice-problem prompt -/

/-- Claim C21: `/generate-problems` makes one completion call whose user
prompt asks for `n` problems at level `d`, where `n` is the text of the
request's `count` when `count` is truthy and `3` otherwise (so an absent
count, `0` and the empty string give `3`; a non-zero integer in the safe range
gives its decimal text), and `d` is the request's `difficulty` when it is
truthy (for an absent or string value: present and non-empty) and `beginner`
otherwise; a successful response echoes `subject` and `topic` unchanged and
carries that same `d` as `difficulty`. -/
theorem generateProblems_defaults (env : Env) (body : String → JVal) (w : World) :
    ∃ (n : String) (d : JVal) (req : ChatRequest),
      n = (if (body "count").truthy then (body "count").toStr else "3") ∧
      d = (if (body "difficulty").truthy then body "difficulty" else .str "beginner") ∧
      newCalls w (generateProblems env body w).2 = [.chatCreate req] ∧
      userMessages [.chatCreate req] =
        [ .str
            ("Generate " ++ n ++ " practice problems for " ++ (body "subject").toStr ++ " - " ++
              (body "topic").toStr ++ " at " ++ d.toStr ++ " level.\n\n" ++
              "For each problem, provide:\n" ++
              "1. A clear problem statement with given values\n" ++
              "2. What needs to be found\n" ++
              "3. Difficulty level indicators\n" ++
              "4. Brief solution approach (without full solution)\n\n" ++
              "Make problems realistic and relevant to Virginia Tech mechanical engineering curriculum.\n" ++
              "Include proper units and realistic numerical values.\n" ++
              "Problems should build understanding of key concepts.") ] ∧
      (∀ completion problems,
        env.chatCreate w req = .ok completion →
        completion.content = .ok problems →
        (generateProblems env body w).1 =
          { status := 200,
            body := .json
              [ ("problems", problems),
                ("subject", body "subject"),
                ("topic", body "topic"),
                ("difficulty", d) ] }) ∧
      (body "count" = .undefined ∨ body "count" = .num 0 ∨ body "count" = .str "" → n = "3") ∧
      (∀ k : Int, k ≠ 0 → (JVal.num k).primitive = true → body "count" = .num k →
        n = toString k) ∧
      (∀ s : String, s ≠ "" → body "count" = .str s → n = s) ∧
      (body "difficulty" = .undefined ∨ body "difficulty" = .str "" → d = .str "beginner") ∧
      (∀ s : String, s ≠ "" → body "difficulty" = .str s → d = .str s) := by
  obtain ⟨req, hmessages, hrun⟩ := generateProblems_request env body w
  refine ⟨_, _, req, rfl, rfl, ?_, ?_, ?_, ?_, ?_, ?_, ?_, ?_⟩
  · rw [hrun, newCalls_logCall]
  · rw [count_orElse_toStr] at hmessages
    simp [userMessages, hmessages, JVal.orElse]
  · intro completion problems hc hx
    rw [hrun, hc]
    simp only [hx, JVal.orElse]
  · rintro (h | h | h) <;> simp [h, JVal.truthy]
  · intro k hk _ h
    simp [h, JVal.truthy, JVal.toStr, hk]
  · intro s hs h
    simp [h, JVal.truthy, JVal.toStr, hs]
  · rintro (h | h) <;> simp [h, JVal.truthy]
  · intro s hs h
    simp [h, JVal.truthy, hs]

/-- Witness for `generateProblems_defaults`: a request with `count` `0` and an
empty `difficulty` asks for three problems at beginner level and echoes
`beginner`. -/
theorem generateProblems_defaults_witness :
    ∃ req : ChatRequest,
      newCalls emptyWorld (generateProblems answeringEnv zeroCountBody emptyWorld).2 =
        [.chatCreate req] ∧
      userMessages [.chatCreate req] =
        [ .str
            ("Generate 3 practice problems for Statics - Trusses at beginner level.\n\n" ++
              "For each problem, provide:\n" ++
              "1. A clear problem statement with given values\n" ++
              "2. What needs to be found\n" ++
              "3. Difficulty level indicators\n" ++
              "4. Brief solution approach (without full solution)\n\n" ++
              "Make problems realistic and relevant to Virginia Tech mechanical engineering curriculum.\n" ++
              "Include proper units and realistic numerical values.\n" ++
              "Problems should build understanding of key concepts.") ] ∧
      (generateProblems answeringEnv zeroCountBody emptyWorld).1 =
        { status := 200,
          body := .json
            [ ("problems", .str "answer"),
              ("subject", .str "Statics"),
              ("topic", .str "Trusses"),
              ("difficulty", .str "beginner") ] } := by
  obtain ⟨n, d, req, _, _, hcalls, hmessage, hresponse, hcount, _, _, hdifficulty, _⟩ :=
    generateProblems_defaults answeringEnv zeroCountBody emptyWorld
  have hn : n = "3" := hcount (Or.inr (Or.inl (by decide)))
  have hd : d = .str "beginner" := hdifficulty (Or.inr (by decide))
  subst hn hd
  refine ⟨req, hcalls, ?_, ?_⟩
  · rw [hmessage]
    simp [zeroCountBody, JVal.toStr]
  · rw [hresponse _ (.str "answer") rfl rfl]
    decide

end AITutor
